import Mathlib

/-!
# Sliding interface: topology-change decisions and motion-point adjustment

A shallow embedding of `slidingInterface.C` (dynamicMesh/slidingInterface)
and of the triangle and tetrahedron cuts of `cutI.H`.

* Labels are integers, scalars are exact rationals (the comparisons of the
  source are kept, rounding is not modelled).
* Lists are indexed with integer labels; an access outside the list, which is
  undefined in the source, is the failure `Failure.undefinedAccess`.
* Member functions that live in other files (`projectPoints`,
  `coupleInterface`, `decoupleInterface`, `clearCouple`) and the geometric
  primitives (`mag`, `plane::lineIntersect`, `line::nearestDist`) are
  parameters of the model: every theorem holds for whatever they compute.
* The identifier classes and the dictionary are declared outside the
  translated files; they are modelled from the specification, and so are the
  couple and decouple sequences used for the round trip.
-/

namespace Foam

/-! ## Basic types -/

abbrev label := Int

abbrev scalar := ℚ

/-- Cartesian vector of three scalars. -/
structure Vector where
  x : scalar
  y : scalar
  z : scalar
deriving DecidableEq

abbrev point := Vector

namespace Vector

/-- Componentwise sum, `a + b` in the source. -/
def add (a b : Vector) : Vector := ⟨a.x + b.x, a.y + b.y, a.z + b.z⟩

/-- Componentwise difference, `a - b` in the source. -/
def sub (a b : Vector) : Vector := ⟨a.x - b.x, a.y - b.y, a.z - b.z⟩

/-- Scaling by a scalar, `s*a` in the source. -/
def smul (s : scalar) (a : Vector) : Vector := ⟨s * a.x, s * a.y, s * a.z⟩

/-- Inner product, `a & b` in the source. -/
def dot (a b : Vector) : scalar := a.x * b.x + a.y * b.y + a.z * b.z

end Vector

/-- Square of a scalar, `sqr(s)` in the source. -/
def sqr (s : scalar) : scalar := s * s

/-- An edge: a pair of point labels. -/
structure edge where
  start : label
  end_ : label
deriving DecidableEq

/-- A hash table keyed by label (`Map<T>`), as an association list searched
from the front. -/
abbrev Map (α : Type) := List (label × α)

/-- Lookup `m.cfind(k)`: `none` stands for an iterator that is not `good()`. -/
def Map.cfind {α : Type} (m : Map α) (k : label) : Option α :=
  match m with
  | [] => none
  | (k', v) :: rest => if k = k' then some v else Map.cfind rest k

/-! ## Identifiers -/

abbrev word := String

/-- Position of the first entry of `names` equal to `n`, counted from `i`, or
-1 when there is none (`findIndex`, `findZoneID`, `findPatchID`). -/
def findIndex : List word → label → word → label
  | [], _, _ => -1
  | n' :: rest, i, n => if n' = n then i else findIndex rest (i + 1) n

/-- Modelled from the spec: the identifier classes `faceZoneID`, `pointZoneID`
and `polyPatchID` (`DynamicID`) are declared outside the translated file; an
identifier is a name together with the index the name had in the list it was
last bound to, or -1 when the name was not found. -/
structure DynamicID where
  name : word
  index : label
deriving DecidableEq

/-- Modelled from the spec: construction of an identifier from a name and the
list it is looked up in, `bind(name, zoneList) -> index|unbound`. -/
def DynamicID.bind (name : word) (names : List word) : DynamicID :=
  ⟨name, findIndex names 0 name⟩

/-- Modelled from the spec: `update(list)`, which re-resolves the identifier by
name, updates the index and leaves the name unchanged. -/
def DynamicID.update (id : DynamicID) (names : List word) : DynamicID :=
  ⟨id.name, findIndex names 0 id.name⟩

/-- Modelled from the spec: `active()`, whether the last bind succeeded. -/
def DynamicID.active (id : DynamicID) : Bool := decide (0 ≤ id.index)

/-- The enumeration `slidingInterface::typeOfMatch`. -/
inductive typeOfMatch
  | INTEGRAL
  | PARTIAL
deriving DecidableEq

/-- The table `typeOfMatchNames`, read from enumeration to name. -/
def typeOfMatchNames : typeOfMatch → word
  | .INTEGRAL => "integral"
  | .PARTIAL => "partial"

/-- The table `typeOfMatchNames`, read from name to enumeration. -/
def typeOfMatchNames.get? (w : word) : Option typeOfMatch :=
  if w = "integral" then some .INTEGRAL
  else if w = "partial" then some .PARTIAL
  else none

/-! ## The interface object -/

/-- The data members of `slidingInterface` that the member functions below
read or write: the flags, the eight tolerances, the cache of projected points,
the `active` flag of the base class `polyMeshModifier`, the six identifiers,
the match type, the projection algorithm (as the integer value of the
enumeration `intersection::algorithm`) and the other twelve caches, each
absent or holding its contents. -/
structure slidingInterface where
  coupleDecouple_ : Bool
  attached_ : Bool
  trigger_ : Bool
  pointMergeTol_ : scalar
  edgeMergeTol_ : scalar
  nFacesPerSlaveEdge_ : label
  edgeFaceEscapeLimit_ : label
  integralAdjTol_ : scalar
  edgeMasterCatchFraction_ : scalar
  edgeCoPlanarTol_ : scalar
  edgeEndCutoffTol_ : scalar
  projectedSlavePointsPtr_ : Option (List point)
  active_ : Bool := true
  masterFaceZoneID_ : DynamicID := ⟨"", -1⟩
  slaveFaceZoneID_ : DynamicID := ⟨"", -1⟩
  cutPointZoneID_ : DynamicID := ⟨"", -1⟩
  cutFaceZoneID_ : DynamicID := ⟨"", -1⟩
  masterPatchID_ : DynamicID := ⟨"", -1⟩
  slavePatchID_ : DynamicID := ⟨"", -1⟩
  matchType_ : typeOfMatch := typeOfMatch.INTEGRAL
  projectionAlgo_ : label := 0
  cutFaceMasterPtr_ : Option (List (List label)) := none
  cutFaceSlavePtr_ : Option (List (List label)) := none
  masterFaceCellsPtr_ : Option (List label) := none
  slaveFaceCellsPtr_ : Option (List label) := none
  masterStickOutFacesPtr_ : Option (List label) := none
  slaveStickOutFacesPtr_ : Option (List label) := none
  retiredPointMapPtr_ : Option (Map label) := none
  cutPointEdgePairMapPtr_ : Option (Map (edge × edge)) := none
  slavePointPointHitsPtr_ : Option (List label) := none
  slavePointEdgeHitsPtr_ : Option (List label) := none
  slavePointFaceHitsPtr_ : Option (List (Bool × label)) := none
  masterPointEdgeHitsPtr_ : Option (List label) := none
deriving DecidableEq

/-- The member functions called by `changeTopology`, `setRefinement`,
`pointProjection` and the constructors. -/
inductive Call
  | projectPoints
  | coupleInterface
  | decoupleInterface
  | clearCouple
  | calcAttachedAddressing
deriving DecidableEq, Repr

/-- The member functions of `slidingInterface` that are defined in other
files, as functions on the object (all of them may write its mutable members)
and, for the three edit emitters, on the `polyTopoChange` edit list of type
`ρ`.  They are taken to return. -/
structure Collaborators (ρ : Type) where
  projectPoints : slidingInterface → Bool × slidingInterface
  coupleInterface : slidingInterface → ρ → slidingInterface × ρ
  decoupleInterface : slidingInterface → ρ → slidingInterface × ρ
  clearCouple : slidingInterface → ρ → slidingInterface × ρ

/-- Result of `changeTopology`: the returned flag, the object afterwards and
the member functions that were called, in call order. -/
structure ChangeResult where
  result : Bool
  self : slidingInterface
  calls : List Call

/-- Result of `setRefinement`: the object and the edit list afterwards and the
member functions that were called, in call order. -/
structure RefineResult (ρ : Type) where
  self : slidingInterface
  ref : ρ
  calls : List Call

/-- Embedding of `slidingInterface::changeTopology`; `meshChanging` is
`topoChanger().mesh().changing()`. -/
def changeTopology {ρ : Type} (X : Collaborators ρ) (meshChanging : Bool)
    (s : slidingInterface) : ChangeResult :=
  if s.coupleDecouple_ then
    -- Always changes.  If not attached, project points
    if !s.attached_ then
      let r := X.projectPoints s
      ⟨true, r.2, [Call.projectPoints]⟩
    else
      ⟨true, s, []⟩
  else if s.attached_ && !meshChanging then
    ⟨false, s, []⟩
  else
    let r := X.projectPoints s
    ⟨r.1, r.2, [Call.projectPoints]⟩

/-- Embedding of `slidingInterface::setRefinement`. -/
def setRefinement {ρ : Type} (X : Collaborators ρ) (s : slidingInterface)
    (ref : ρ) : RefineResult ρ :=
  if s.coupleDecouple_ then
    if s.attached_ then
      let r := X.decoupleInterface s ref
      ⟨r.1, r.2, [Call.decoupleInterface]⟩
    else
      let r := X.coupleInterface s ref
      ⟨r.1, r.2, [Call.coupleInterface]⟩
  else if s.trigger_ then
    let c : RefineResult ρ :=
      if s.attached_ then
        let r := X.clearCouple s ref
        ⟨r.1, r.2, [Call.clearCouple]⟩
      else
        ⟨s, ref, []⟩
    let r := X.coupleInterface c.self c.ref
    ⟨{ r.1 with trigger_ := false }, r.2, c.calls ++ [Call.coupleInterface]⟩
  else
    ⟨s, ref, []⟩

/-! ## Motion-point adjustment -/

/-- The ways in which `modifyMotionPoints` can fail to return. -/
inductive Failure
  /-- The call `FatalErrorInFunction ... abort(FatalError)` for a cut point
  found in neither map; `printed` is the label `cutPoints[pointi]` written
  into the message (absent when that read is outside the list). -/
  | cutPointNotRecognised (printed : Option label)
  /-- An access the source leaves undefined: an index outside a list, or
  dereferencing the iterator of a failed lookup. -/
  | undefinedAccess
deriving DecidableEq

/-- Read access `xs[i]` of a `UList`. -/
def index {α : Type} (xs : List α) (i : label) : Except Failure α :=
  if 0 ≤ i then
    match xs.get? i.toNat with
    | some v => .ok v
    | none => .error .undefinedAccess
  else .error .undefinedAccess

/-- Write access `xs[i] = v` of a `UList`. -/
def assign {α : Type} (xs : List α) (i : label) (v : α) :
    Except Failure (List α) :=
  if 0 ≤ i ∧ i.toNat < xs.length then .ok (xs.set i.toNat v)
  else .error .undefinedAccess

/-- Dereferencing `m.find(k)()`. -/
def Map.findDeref {α : Type} (m : Map α) (k : label) : Except Failure α :=
  match m.cfind k with
  | some v => .ok v
  | none => .error .undefinedAccess

/-- Modelled from the spec: the class `line` (`linePointRef`) is declared
outside the translated file; a line is the segment between two points and
`start()` is its first point `a_`. -/
structure line where
  a_ : point
  b_ : point
deriving DecidableEq

/-- Modelled from the spec: `line::vec()`, declared outside the translated
file, is the vector from the start of the segment to its end. -/
def line.vec (l : line) : Vector := l.b_.sub l.a_

/-- Modelled from the spec: `edge::line(points)`, declared outside the
translated file, is the segment between the two end points of the edge, read
from the point list. -/
def edge.line (e : edge) (points : List point) : Except Failure line := do
  let a ← index points e.start
  let b ← index points e.end_
  pure ⟨a, b⟩

/-- Modelled from the spec: the result of a nearest-point query (`pointHit`,
declared outside the translated file) with the three members that are read. -/
structure PointHit where
  hit : Bool
  point : point
  distance : scalar
deriving DecidableEq

/-- The geometric primitives used by `modifyMotionPoints`, defined outside
the translated file: the magnitude of a vector, the fraction at which the
plane through three points cuts a line (`plane(a, b, c).lineIntersect(l)`),
and the nearest point of a line to a point (`l.nearestDist(p)`). -/
structure Geometry where
  mag : Vector → scalar
  lineIntersect : point → point → point → line → scalar
  nearestDist : line → point → PointHit

/-- Modelled from the spec: `line::mag()`, declared outside the translated
file, is the magnitude of `vec()`, the length of the segment. -/
def line.mag (G : Geometry) (l : line) : scalar := G.mag l.vec

/-- The parts of a `primitiveFacePatch` (a face zone seen as a patch) that are
read: its edges and points in local numbering, the point normals, the map
from mesh point to local point, and the two searches `whichPoint` and
`whichEdge` (each returns -1 when nothing is found). -/
structure primitiveFacePatch where
  edges : List edge
  localPoints : List point
  pointNormals : List Vector
  meshPointMap : Map label
  whichPoint : label → label
  whichEdge : edge → label

/-- What `modifyMotionPoints` reads from the mesh and through the accessors of
the object: the cut point zone `mesh.pointZones()[cutPointZoneID_.index()]`,
the master and slave face zones as patches, and the maps returned by
`retiredPointMap()` and `cutPointEdgePairMap()`. -/
structure MotionInput where
  cutPoints : List label
  masterPatch : primitiveFacePatch
  slavePatch : primitiveFacePatch
  retiredPointMap : Map label
  cutPointEdgePairMap : Map (edge × edge)

/-- What happened to one cut point.  `missedSlaveEdge` and `missedMasterEdge`
are the two messages written to `Pout`; the other three mark the branch
taken. -/
inductive Event
  /-- The cut point is a retired point: a projected slave point was copied. -/
  | retired (pointi : label)
  /-- Both master and slave edge are cut: the master cut point was written. -/
  | cutBoth (pointi : label)
  /-- The slave edge was hit but the strict check failed: nothing is written
  and nothing is printed. -/
  | slaveRejected (pointi : label)
  /-- Message "Missed slave edge!!!  This is an error." -/
  | missedSlaveEdge (pointi : label)
  /-- Message "Missed master edge!!!  This is an error". -/
  | missedMasterEdge (pointi : label)
deriving DecidableEq

/-- The cut point an event is about. -/
def Event.point : Event → label
  | .retired p => p
  | .cutBoth p => p
  | .slaveRejected p => p
  | .missedSlaveEdge p => p
  | .missedMasterEdge p => p

/-- Everything the edge-intersection branch has computed when it reaches the
test of the master cut: the projected end points `a`, `b` of the slave edge,
the slave line and its length, the master line `cme.line(masterLocalPoints)`
and the fraction `cutOnMaster`. -/
structure EdgeCut where
  a : point
  b : point
  curSlaveLine : line
  curSlaveLineMag : scalar
  cmeLine : line
  cutOnMaster : scalar
deriving DecidableEq

/-- First half of the edge-intersection branch of `modifyMotionPoints`: from
the edge pair `cpepmIter()` up to the computation of `cutOnMaster`. -/
def edgeCut (G : Geometry) (m : MotionInput) (projectedSlavePoints : List point)
    (pr : edge × edge) : Except Failure EdgeCut := do
  let masterPatch := m.masterPatch
  let slavePatch := m.slavePatch
  let globalMasterEdge := pr.1
  let curMasterEdgeIndex :=
    masterPatch.whichEdge
      ⟨masterPatch.whichPoint globalMasterEdge.start,
       masterPatch.whichPoint globalMasterEdge.end_⟩
  let cme ← index masterPatch.edges curMasterEdgeIndex
  let globalSlaveEdge := pr.2
  let curSlaveEdgeIndex :=
    slavePatch.whichEdge
      ⟨slavePatch.whichPoint globalSlaveEdge.start,
       slavePatch.whichPoint globalSlaveEdge.end_⟩
  let curSlaveEdge ← index slavePatch.edges curSlaveEdgeIndex
  let a ← index projectedSlavePoints curSlaveEdge.start
  let b ← index projectedSlavePoints curSlaveEdge.end_
  let p0 ← index slavePatch.localPoints curSlaveEdge.start
  let n0 ← index slavePatch.pointNormals curSlaveEdge.start
  let p1 ← index slavePatch.localPoints curSlaveEdge.end_
  let n1 ← index slavePatch.pointNormals curSlaveEdge.end_
  let c := Vector.smul (1/2) (((p0.add n0).add p1).add n1)
  let curSlaveLine ← curSlaveEdge.line slavePatch.localPoints
  let curSlaveLineMag := curSlaveLine.mag G
  let cmeLine ← cme.line masterPatch.localPoints
  let cutOnMaster := G.lineIntersect a b c cmeLine
  pure ⟨a, b, curSlaveLine, curSlaveLineMag, cmeLine, cutOnMaster⟩

/-- The point `masterLocalPoints[cme.start()] + cutOnMaster*cme.vec(...)`. -/
def EdgeCut.masterCutPoint (d : EdgeCut) : point :=
  d.cmeLine.a_.add (Vector.smul d.cutOnMaster d.cmeLine.vec)

/-- The query `curSlaveLine.nearestDist(masterCutPoint)`. -/
def EdgeCut.slaveCut (G : Geometry) (d : EdgeCut) : PointHit :=
  G.nearestDist d.curSlaveLine d.masterCutPoint

/-- The fraction `cutOnSlave` of the nearest point along the slave line. -/
def EdgeCut.cutOnSlave (G : Geometry) (d : EdgeCut) : scalar :=
  (((d.slaveCut G).point.sub d.curSlaveLine.a_).dot d.curSlaveLine.vec)
    / sqr d.curSlaveLineMag

/-- The tolerance `mergeTol = edgeCoPlanarTol_*mag(b - a)`. -/
def EdgeCut.mergeTol (G : Geometry) (s : slidingInterface) (d : EdgeCut) :
    scalar :=
  s.edgeCoPlanarTol_ * G.mag (d.b.sub d.a)

/-- Second half of the edge-intersection branch: the tests on the master cut
and on the slave cut, and the write `motionPoints[pointi] = masterCutPoint`. -/
def edgeCutApply (G : Geometry) (s : slidingInterface) (d : EdgeCut)
    (motionPoints : List point) (pointi : label) :
    Except Failure (List point × Event) :=
  if d.cutOnMaster > s.edgeEndCutoffTol_
      ∧ d.cutOnMaster < 1 - s.edgeEndCutoffTol_ then
    -- Master is cut, check the slave
    if (d.slaveCut G).hit then
      if d.cutOnSlave G > s.edgeEndCutoffTol_
          ∧ d.cutOnSlave G < 1 - s.edgeEndCutoffTol_
          ∧ (d.slaveCut G).distance < d.mergeTol G s then
        -- Cut both master and slave.
        match assign motionPoints pointi d.masterCutPoint with
        | .ok mp => .ok (mp, Event.cutBoth pointi)
        | .error f => .error f
      else
        .ok (motionPoints, Event.slaveRejected pointi)
    else
      .ok (motionPoints, Event.missedSlaveEdge pointi)
  else
    .ok (motionPoints, Event.missedMasterEdge pointi)

/-- The retired-point branch of the loop body: the assignment
`motionPoints[cutPoints[pointi]] =
projectedSlavePoints[slaveZonePointMap.find(rpmIter())()]`, where `r` is
`rpmIter()`. -/
def retiredCopy (m : MotionInput) (projectedSlavePoints : List point)
    (motionPoints : List point) (pointi : label) (r : label) :
    Except Failure (List point × Event) := do
  let slaveZonePointMap := m.slavePatch.meshPointMap
  let k ← slaveZonePointMap.findDeref r
  let v ← index projectedSlavePoints k
  let target ← index m.cutPoints pointi
  let mp ← assign motionPoints target v
  pure (mp, Event.retired pointi)

/-- Body of the loop `for (const label pointi : cutPoints)` of
`modifyMotionPoints`. -/
def cutPointStep (G : Geometry) (s : slidingInterface) (m : MotionInput)
    (projectedSlavePoints : List point) (motionPoints : List point)
    (pointi : label) : Except Failure (List point × Event) :=
  -- Try to find the cut point in retired points
  match m.retiredPointMap.cfind pointi with
  | some r => retiredCopy m projectedSlavePoints motionPoints pointi r
  | none =>
    -- A cut point is not a projected slave point.  Therefore, it
    -- must be an edge-to-edge intersection.
    match m.cutPointEdgePairMap.cfind pointi with
    | some pr =>
      match edgeCut G m projectedSlavePoints pr with
      | .ok d => edgeCutApply G s d motionPoints pointi
      | .error f => .error f
    | none =>
      .error (Failure.cutPointNotRecognised (index m.cutPoints pointi).toOption)

/-- The loop over the cut points: `todo` are the labels still to be visited,
`events` what happened so far. -/
def cutPointLoop (G : Geometry) (s : slidingInterface) (m : MotionInput)
    (projectedSlavePoints : List point) :
    List label → List point → List Event →
      Except Failure (List point × List Event)
  | [], motionPoints, events => .ok (motionPoints, events)
  | pointi :: todo, motionPoints, events =>
    match cutPointStep G s m projectedSlavePoints motionPoints pointi with
    | .ok (mp, ev) =>
      cutPointLoop G s m projectedSlavePoints todo mp (events ++ [ev])
    | .error f => .error f

/-- Embedding of `slidingInterface::modifyMotionPoints`: the new contents of
the array `motionPoints` of the caller and the events of the loop, or the
failure that ended the call. -/
def modifyMotionPoints (G : Geometry) (s : slidingInterface) (m : MotionInput)
    (motionPoints : List point) : Except Failure (List point × List Event) :=
  if m.cutPoints.length ≠ 0 ∧ s.projectedSlavePointsPtr_ = none then
    .ok (motionPoints, [])
  else
    cutPointLoop G s m (s.projectedSlavePointsPtr_.getD []) m.cutPoints
      motionPoints []

/-! ## Definition check and construction from components -/

/-- A face zone or a point zone: its name and the labels it holds. -/
structure zone where
  name : word
  labels : List label
deriving DecidableEq

/-- What the constructors, `checkDefinition` and `updateMesh` read of the
mesh: the face zones, the point zones and the names of the boundary
patches. -/
structure polyMesh where
  faceZones : List zone
  pointZones : List zone
  boundaryMesh : List word
deriving DecidableEq

/-- The names of the face zones, in list order. -/
def polyMesh.faceZoneNames (mesh : polyMesh) : List word :=
  mesh.faceZones.map zone.name

/-- The names of the point zones, in list order. -/
def polyMesh.pointZoneNames (mesh : polyMesh) : List word :=
  mesh.pointZones.map zone.name

/-- The ways in which the definition check, the constructors and `writeDict`
can fail to return. -/
inductive DefinitionFailure
  /-- Fatal error "Not all zones and patches needed in the definition have
  been found." -/
  | zonesNotFound
  /-- Fatal error "Please check your mesh definition." for an empty master or
  slave face zone. -/
  | emptyFaceZone
  /-- Fatal error "Creation of a sliding interface from components in
  attached state not supported." -/
  | attachedFromComponents
  /-- Fatal input error of the dictionary: a mandatory entry is absent, or an
  entry does not hold a value of the type asked for. -/
  | badEntry (key : word)
  /-- An access the source leaves undefined: an index outside a list or a
  cache that is read while absent. -/
  | undefinedAccess
deriving DecidableEq

/-- The zone `zones[i]` of a zone list. -/
def zoneAt (zones : List zone) (i : label) : Except DefinitionFailure zone :=
  match (index zones i).toOption with
  | some z => .ok z
  | none => .error .undefinedAccess

/-- Embedding of `slidingInterface::checkDefinition`, with the mesh
`topoChanger().mesh()` as argument. -/
def checkDefinition (s : slidingInterface) (mesh : polyMesh) :
    Except DefinitionFailure Unit :=
  if !s.masterFaceZoneID_.active
      || !s.slaveFaceZoneID_.active
      || !s.cutPointZoneID_.active
      || !s.cutFaceZoneID_.active
      || !s.masterPatchID_.active
      || !s.slavePatchID_.active then
    .error .zonesNotFound
  else
    -- Check the sizes and set up state
    match zoneAt mesh.faceZones s.masterFaceZoneID_.index with
    | .error f => .error f
    | .ok masterZone =>
      if masterZone.labels.isEmpty then .error .emptyFaceZone
      else
        match zoneAt mesh.faceZones s.slaveFaceZoneID_.index with
        | .error f => .error f
        | .ok slaveZone =>
          if slaveZone.labels.isEmpty then .error .emptyFaceZone
          else .ok ()

/-- Eight tolerance values.  The compiled-in defaults `pointMergeTolDefault_`
to `edgeEndCutoffTolDefault_` are static constants defined outside the
translated file: they are a parameter `D` of this type. -/
structure Tolerances where
  pointMergeTol : scalar
  edgeMergeTol : scalar
  nFacesPerSlaveEdge : label
  edgeFaceEscapeLimit : label
  integralAdjTol : scalar
  edgeMasterCatchFraction : scalar
  edgeCoPlanarTol : scalar
  edgeEndCutoffTol : scalar
deriving DecidableEq

/-- The eight tolerance members of the object. -/
def slidingInterface.tolerances (s : slidingInterface) : Tolerances :=
  { pointMergeTol := s.pointMergeTol_
    edgeMergeTol := s.edgeMergeTol_
    nFacesPerSlaveEdge := s.nFacesPerSlaveEdge_
    edgeFaceEscapeLimit := s.edgeFaceEscapeLimit_
    integralAdjTol := s.integralAdjTol_
    edgeMasterCatchFraction := s.edgeMasterCatchFraction_
    edgeCoPlanarTol := s.edgeCoPlanarTol_
    edgeEndCutoffTol := s.edgeEndCutoffTol_ }

/-- The six names given to a constructor. -/
structure InterfaceNames where
  masterFaceZoneName : word
  slaveFaceZoneName : word
  cutPointZoneName : word
  cutFaceZoneName : word
  masterPatchName : word
  slavePatchName : word
deriving DecidableEq

/-- The object as the initialiser lists of the two constructors leave it:
the six identifiers bound by name against the zone lists and the boundary of
the mesh, the given flags, the tolerance members holding `tol`, the trigger
false and every cache absent. -/
def initialObject (mesh : polyMesh) (active : Bool) (n : InterfaceNames)
    (tom : typeOfMatch) (coupleDecouple attached : Bool) (algo : label)
    (tol : Tolerances) : slidingInterface :=
  { active_ := active
    masterFaceZoneID_ := DynamicID.bind n.masterFaceZoneName mesh.faceZoneNames
    slaveFaceZoneID_ := DynamicID.bind n.slaveFaceZoneName mesh.faceZoneNames
    cutPointZoneID_ := DynamicID.bind n.cutPointZoneName mesh.pointZoneNames
    cutFaceZoneID_ := DynamicID.bind n.cutFaceZoneName mesh.faceZoneNames
    masterPatchID_ := DynamicID.bind n.masterPatchName mesh.boundaryMesh
    slavePatchID_ := DynamicID.bind n.slavePatchName mesh.boundaryMesh
    matchType_ := tom
    coupleDecouple_ := coupleDecouple
    attached_ := attached
    projectionAlgo_ := algo
    trigger_ := false
    pointMergeTol_ := tol.pointMergeTol
    edgeMergeTol_ := tol.edgeMergeTol
    nFacesPerSlaveEdge_ := tol.nFacesPerSlaveEdge
    edgeFaceEscapeLimit_ := tol.edgeFaceEscapeLimit
    integralAdjTol_ := tol.integralAdjTol
    edgeMasterCatchFraction_ := tol.edgeMasterCatchFraction
    edgeCoPlanarTol_ := tol.edgeCoPlanarTol
    edgeEndCutoffTol_ := tol.edgeEndCutoffTol
    cutFaceMasterPtr_ := none
    cutFaceSlavePtr_ := none
    masterFaceCellsPtr_ := none
    slaveFaceCellsPtr_ := none
    masterStickOutFacesPtr_ := none
    slaveStickOutFacesPtr_ := none
    retiredPointMapPtr_ := none
    cutPointEdgePairMapPtr_ := none
    slavePointPointHitsPtr_ := none
    slavePointEdgeHitsPtr_ := none
    slavePointFaceHitsPtr_ := none
    masterPointEdgeHitsPtr_ := none
    projectedSlavePointsPtr_ := none }

/-- A constructed object and the member functions the constructor called. -/
structure Constructed where
  self : slidingInterface
  calls : List Call

/-- Embedding of the constructor of `slidingInterface` from components.  The
initialiser list passes `true` as the active flag, `false` as `attached_` and
the eight defaults `D` as tolerances; `calcAttachedAddressing` is a member
function defined in another file, a parameter. -/
def fromComponents (D : Tolerances)
    (calcAttachedAddressing : slidingInterface → slidingInterface)
    (mesh : polyMesh) (n : InterfaceNames) (tom : typeOfMatch)
    (coupleDecouple : Bool) (algo : label) :
    Except DefinitionFailure Constructed :=
  let s := initialObject mesh true n tom coupleDecouple false algo D
  match checkDefinition s mesh with
  | .error f => .error f
  | .ok _ =>
    if s.attached_ then
      .error .attachedFromComponents
    else
      .ok ⟨calcAttachedAddressing s, [Call.calcAttachedAddressing]⟩

/-! ## Dictionary: construction and writing -/

/-- Modelled from the spec: the value of a dictionary entry, one constructor
for each type of value the persisted state holds (the class `dictionary` and
its streams are declared outside the translated file). -/
inductive entry
  | bool (v : Bool)
  | word (v : word)
  | scalar (v : scalar)
  | label (v : label)
  | labelList (v : List label)
  | labelMap (v : Map label)
  | edgePairMap (v : Map (edge × edge))
deriving DecidableEq

/-- Modelled from the spec: a dictionary is a list of keyword and value; the
first entry with a keyword is the one found. -/
abbrev dictionary := List (word × entry)

/-- Modelled from the spec: search of a keyword in a dictionary. -/
def dictionary.found : dictionary → word → Option entry
  | [], _ => none
  | (k', v) :: rest, k => if k' = k then some v else dictionary.found rest k

/-- Modelled from the spec: `dict.get<bool>(key)`, a mandatory entry. -/
def dictionary.getBool (dict : dictionary) (key : word) :
    Except DefinitionFailure Bool :=
  match dict.found key with
  | some (.bool v) => .ok v
  | _ => .error (.badEntry key)

/-- Modelled from the spec: `dict.get<keyType>(key)` and the word read by
`Enum::get(key, dict)`, a mandatory entry. -/
def dictionary.getWord (dict : dictionary) (key : word) :
    Except DefinitionFailure word :=
  match dict.found key with
  | some (.word v) => .ok v
  | _ => .error (.badEntry key)

/-- Modelled from the spec: `dict.getOrDefault<scalar>(key, deflt)`, the
generic key-or-default accessor: the value of the entry when the keyword is
present, the default otherwise. -/
def dictionary.getOrDefaultScalar (dict : dictionary) (key : word)
    (deflt : scalar) : Except DefinitionFailure scalar :=
  match dict.found key with
  | none => .ok deflt
  | some (.scalar v) => .ok v
  | some _ => .error (.badEntry key)

/-- Modelled from the spec: `dict.getOrDefault<label>(key, deflt)`. -/
def dictionary.getOrDefaultLabel (dict : dictionary) (key : word)
    (deflt : label) : Except DefinitionFailure label :=
  match dict.found key with
  | none => .ok deflt
  | some (.label v) => .ok v
  | some _ => .error (.badEntry key)

/-- Modelled from the spec: `dict.readEntry(key, list)` for a label list, a
mandatory entry. -/
def dictionary.readLabelList (dict : dictionary) (key : word) :
    Except DefinitionFailure (List label) :=
  match dict.found key with
  | some (.labelList v) => .ok v
  | _ => .error (.badEntry key)

/-- Modelled from the spec: `dict.readEntry(key, map)` for a `Map<label>`. -/
def dictionary.readLabelMap (dict : dictionary) (key : word) :
    Except DefinitionFailure (Map label) :=
  match dict.found key with
  | some (.labelMap v) => .ok v
  | _ => .error (.badEntry key)

/-- Modelled from the spec: `dict.readEntry(key, map)` for a
`Map<Pair<edge>>`. -/
def dictionary.readEdgePairMap (dict : dictionary) (key : word) :
    Except DefinitionFailure (Map (edge × edge)) :=
  match dict.found key with
  | some (.edgePairMap v) => .ok v
  | _ => .error (.badEntry key)

/-- The table `intersection::algorithmNames_`, defined outside the translated
file, as a parameter: the name of a value of the enumeration and the value
with a given name. -/
structure AlgorithmNames where
  name : label → word
  get? : word → Option label

/-- Embedding of `slidingInterface::setTolerances` (the report is not
modelled): each tolerance member is assigned the entry of its keyword, with
the value the member holds as default. -/
def setTolerances (dict : dictionary) (s : slidingInterface) :
    Except DefinitionFailure slidingInterface := do
  let pointMergeTol ←
    dict.getOrDefaultScalar "pointMergeTol" s.pointMergeTol_
  let edgeMergeTol ←
    dict.getOrDefaultScalar "edgeMergeTol" s.edgeMergeTol_
  let nFacesPerSlaveEdge ←
    dict.getOrDefaultLabel "nFacesPerSlaveEdge" s.nFacesPerSlaveEdge_
  let edgeFaceEscapeLimit ←
    dict.getOrDefaultLabel "edgeFaceEscapeLimit" s.edgeFaceEscapeLimit_
  let integralAdjTol ←
    dict.getOrDefaultScalar "integralAdjTol" s.integralAdjTol_
  let edgeMasterCatchFraction ←
    dict.getOrDefaultScalar "edgeMasterCatchFraction"
      s.edgeMasterCatchFraction_
  let edgeCoPlanarTol ←
    dict.getOrDefaultScalar "edgeCoPlanarTol" s.edgeCoPlanarTol_
  let edgeEndCutoffTol ←
    dict.getOrDefaultScalar "edgeEndCutoffTol" s.edgeEndCutoffTol_
  pure { s with
    pointMergeTol_ := pointMergeTol
    edgeMergeTol_ := edgeMergeTol
    nFacesPerSlaveEdge_ := nFacesPerSlaveEdge
    edgeFaceEscapeLimit_ := edgeFaceEscapeLimit
    integralAdjTol_ := integralAdjTol
    edgeMasterCatchFraction_ := edgeMasterCatchFraction
    edgeCoPlanarTol_ := edgeCoPlanarTol
    edgeEndCutoffTol_ := edgeEndCutoffTol }

/-- The part of the dictionary constructor that reads the addressing of an
attached interface: the six `readEntry` calls. -/
def readAddressing (dict : dictionary) (s : slidingInterface) :
    Except DefinitionFailure slidingInterface := do
  let masterFaceCells ← dict.readLabelList "masterFaceCells"
  let slaveFaceCells ← dict.readLabelList "slaveFaceCells"
  let masterStickOutFaces ← dict.readLabelList "masterStickOutFaces"
  let slaveStickOutFaces ← dict.readLabelList "slaveStickOutFaces"
  let retiredPointMap ← dict.readLabelMap "retiredPointMap"
  let cutPointEdgePairMap ← dict.readEdgePairMap "cutPointEdgePairMap"
  pure { s with
    masterFaceCellsPtr_ := some masterFaceCells
    slaveFaceCellsPtr_ := some slaveFaceCells
    masterStickOutFacesPtr_ := some masterStickOutFaces
    slaveStickOutFacesPtr_ := some slaveStickOutFaces
    retiredPointMapPtr_ := some retiredPointMap
    cutPointEdgePairMapPtr_ := some cutPointEdgePairMap }

/-- The arguments the initialiser list of the dictionary constructor reads:
the active flag, the six names, the match type, the two flags and the
projection algorithm. -/
def readComponents (N : AlgorithmNames) (mesh : polyMesh) (dict : dictionary)
    (tol : Tolerances) : Except DefinitionFailure slidingInterface := do
  let active ← dict.getBool "active"
  let masterFaceZoneName ← dict.getWord "masterFaceZoneName"
  let slaveFaceZoneName ← dict.getWord "slaveFaceZoneName"
  let cutPointZoneName ← dict.getWord "cutPointZoneName"
  let cutFaceZoneName ← dict.getWord "cutFaceZoneName"
  let masterPatchName ← dict.getWord "masterPatchName"
  let slavePatchName ← dict.getWord "slavePatchName"
  let tomName ← dict.getWord "typeOfMatch"
  let tom ←
    match typeOfMatchNames.get? tomName with
    | some t => Except.ok t
    | none => Except.error (DefinitionFailure.badEntry "typeOfMatch")
  let coupleDecouple ← dict.getBool "coupleDecouple"
  let attached ← dict.getBool "attached"
  let algoName ← dict.getWord "projection"
  let algo ←
    match N.get? algoName with
    | some a => Except.ok a
    | none => Except.error (DefinitionFailure.badEntry "projection")
  pure (initialObject mesh active
    ⟨masterFaceZoneName, slaveFaceZoneName, cutPointZoneName, cutFaceZoneName,
     masterPatchName, slavePatchName⟩ tom coupleDecouple attached algo tol)

/-- Embedding of the constructor of `slidingInterface` from a dictionary.  Its
initialiser list does not mention the eight tolerance members: `held` stands
for the values they hold when the body starts and `setTolerances` reads them
as defaults.  `N` is the table of algorithm names and
`calcAttachedAddressing` the member function defined in another file. -/
def fromDictionary (held : Tolerances) (N : AlgorithmNames)
    (calcAttachedAddressing : slidingInterface → slidingInterface)
    (mesh : polyMesh) (dict : dictionary) :
    Except DefinitionFailure Constructed := do
  let s0 ← readComponents N mesh dict held
  -- Optionally default tolerances from dictionary
  let s ← setTolerances dict s0
  checkDefinition s mesh
  -- If the interface is attached, the master and slave face zone addressing
  -- needs to be read in; otherwise it will be created
  if s.attached_ then
    let s1 ← readAddressing dict s
    pure ⟨s1, []⟩
  else
    pure ⟨calcAttachedAddressing s, [Call.calcAttachedAddressing]⟩

/-- The entries written by the eight `WRITE_NON_DEFAULT(name)` lines of
`writeDict`: `if (name_ != nameDefault_) os.writeEntry(#name, name_)`. -/
def writeNonDefault (D : Tolerances) (s : slidingInterface) : dictionary :=
  (if s.pointMergeTol_ ≠ D.pointMergeTol then
    [("pointMergeTol", entry.scalar s.pointMergeTol_)] else [])
  ++ (if s.edgeMergeTol_ ≠ D.edgeMergeTol then
    [("edgeMergeTol", entry.scalar s.edgeMergeTol_)] else [])
  ++ (if s.nFacesPerSlaveEdge_ ≠ D.nFacesPerSlaveEdge then
    [("nFacesPerSlaveEdge", entry.label s.nFacesPerSlaveEdge_)] else [])
  ++ (if s.edgeFaceEscapeLimit_ ≠ D.edgeFaceEscapeLimit then
    [("edgeFaceEscapeLimit", entry.label s.edgeFaceEscapeLimit_)] else [])
  ++ (if s.integralAdjTol_ ≠ D.integralAdjTol then
    [("integralAdjTol", entry.scalar s.integralAdjTol_)] else [])
  ++ (if s.edgeMasterCatchFraction_ ≠ D.edgeMasterCatchFraction then
    [("edgeMasterCatchFraction", entry.scalar s.edgeMasterCatchFraction_)]
    else [])
  ++ (if s.edgeCoPlanarTol_ ≠ D.edgeCoPlanarTol then
    [("edgeCoPlanarTol", entry.scalar s.edgeCoPlanarTol_)] else [])
  ++ (if s.edgeEndCutoffTol_ ≠ D.edgeEndCutoffTol then
    [("edgeEndCutoffTol", entry.scalar s.edgeEndCutoffTol_)] else [])

/-- The twelve entries `writeDict` always writes. -/
def writeComponents (N : AlgorithmNames) (s : slidingInterface) : dictionary :=
  [ ("type", entry.word "slidingInterface"),
    ("masterFaceZoneName", entry.word s.masterFaceZoneID_.name),
    ("slaveFaceZoneName", entry.word s.slaveFaceZoneID_.name),
    ("cutPointZoneName", entry.word s.cutPointZoneID_.name),
    ("cutFaceZoneName", entry.word s.cutFaceZoneID_.name),
    ("masterPatchName", entry.word s.masterPatchID_.name),
    ("slavePatchName", entry.word s.slavePatchID_.name),
    ("typeOfMatch", entry.word (typeOfMatchNames s.matchType_)),
    ("coupleDecouple", entry.bool s.coupleDecouple_),
    ("projection", entry.word (N.name s.projectionAlgo_)),
    ("attached", entry.bool s.attached_),
    ("active", entry.bool s.active_) ]

/-- The six addressing entries `writeDict` writes for an attached interface;
each cache is read through its pointer, or through its accessor for the two
maps, and has to be present. -/
def writeAddressing (s : slidingInterface) :
    Except DefinitionFailure dictionary :=
  match s.masterFaceCellsPtr_, s.slaveFaceCellsPtr_, s.masterStickOutFacesPtr_,
      s.slaveStickOutFacesPtr_, s.retiredPointMapPtr_,
      s.cutPointEdgePairMapPtr_ with
  | some mfc, some sfc, some msf, some ssf, some rpm, some cpepm =>
    .ok [ ("masterFaceCells", entry.labelList mfc),
          ("slaveFaceCells", entry.labelList sfc),
          ("masterStickOutFaces", entry.labelList msf),
          ("slaveStickOutFaces", entry.labelList ssf),
          ("retiredPointMap", entry.labelMap rpm),
          ("cutPointEdgePairMap", entry.edgePairMap cpepm) ]
  | _, _, _, _, _, _ => .error .undefinedAccess

/-- Embedding of `slidingInterface::writeDict`: the entries written between
`beginBlock(name())` and `endBlock()`, in the order they are written. -/
def writeDict (D : Tolerances) (N : AlgorithmNames) (s : slidingInterface) :
    Except DefinitionFailure dictionary :=
  if s.attached_ then
    match writeAddressing s with
    | .ok a => .ok (writeComponents N s ++ a ++ writeNonDefault D s)
    | .error f => .error f
  else
    .ok (writeComponents N s ++ writeNonDefault D s)

/-! ## Mesh update, cache invalidation and the projection accessor -/

/-- Embedding of `slidingInterface::updateMesh`: `mesh` is
`topoChanger().mesh()` and `m` the `mapPolyMesh` argument, of any type. -/
def updateMesh {μ : Type} (mesh : polyMesh) (_m : μ) (s : slidingInterface) :
    slidingInterface :=
  { s with
    masterFaceZoneID_ := s.masterFaceZoneID_.update mesh.faceZoneNames
    slaveFaceZoneID_ := s.slaveFaceZoneID_.update mesh.faceZoneNames
    cutPointZoneID_ := s.cutPointZoneID_.update mesh.pointZoneNames
    cutFaceZoneID_ := s.cutFaceZoneID_.update mesh.faceZoneNames
    masterPatchID_ := s.masterPatchID_.update mesh.boundaryMesh
    slavePatchID_ := s.slavePatchID_.update mesh.boundaryMesh }

/-- Embedding of `slidingInterface::clearAddressing`. -/
def clearAddressing (s : slidingInterface) : slidingInterface :=
  { s with cutFaceMasterPtr_ := none, cutFaceSlavePtr_ := none }

/-- Result of `pointProjection`: the point sequence the returned reference
`*projectedSlavePointsPtr_` denotes (absent when the pointer is still null,
which the source leaves undefined), the object afterwards and the member
functions that were called. -/
structure ProjectionResult where
  result : Option (List point)
  self : slidingInterface
  calls : List Call

/-- Embedding of `slidingInterface::pointProjection`. -/
def pointProjection {ρ : Type} (X : Collaborators ρ) (s : slidingInterface) :
    ProjectionResult :=
  if s.projectedSlavePointsPtr_.isNone then
    let r := X.projectPoints s
    ⟨r.2.projectedSlavePointsPtr_, r.2, [Call.projectPoints]⟩
  else
    ⟨s.projectedSlavePointsPtr_, s, []⟩

/-! ## Coupling and decoupling, from the specification -/

/-- Modelled from the spec: the cut topology a couple sequence creates (the
couple algorithm lives in files outside the translated ones): the cut points,
the cut faces, and the two provenance maps. -/
structure CutTopology where
  cutPoints : List label
  cutFaces : List (List label)
  retiredPointMap : Map label
  cutPointEdgePairMap : Map (edge × edge)
deriving DecidableEq

/-- Modelled from the spec: the mesh around the interface once the framework
has applied an edit list: the two original face zones and, while the
interface is coupled, the cut topology. -/
structure InterfaceMesh where
  masterZone : List label
  slaveZone : List label
  cut : Option CutTopology
deriving DecidableEq

/-- Modelled from the spec: the couple and decouple sequences of the files
outside the translated ones, for a fixed geometry `geom`.  Coupling derives
the cut topology and the provenance purely from the current projected
geometry and the zone membership (`cutOf`), not from history, and attaches;
decoupling restores the two original face zones, removes all cut faces and
points, discards the provenance and the attached addressing cache, and
detaches; the clear-couple sequence removes the cut without detaching;
projection caches the projected points of the geometry. -/
def specCollaborators {γ : Type} (geom : γ) (project : γ → List point)
    (cutOf : γ → List label → List label → CutTopology) :
    Collaborators InterfaceMesh :=
  { projectPoints := fun s =>
      (true, { s with projectedSlavePointsPtr_ := some (project geom) })
    coupleInterface := fun s ref =>
      ({ s with
          attached_ := true
          retiredPointMapPtr_ :=
            some (cutOf geom ref.masterZone ref.slaveZone).retiredPointMap
          cutPointEdgePairMapPtr_ :=
            some (cutOf geom ref.masterZone ref.slaveZone).cutPointEdgePairMap },
       { ref with cut := some (cutOf geom ref.masterZone ref.slaveZone) })
    decoupleInterface := fun s ref =>
      ({ s with
          attached_ := false
          retiredPointMapPtr_ := none
          cutPointEdgePairMapPtr_ := none
          masterFaceCellsPtr_ := none
          slaveFaceCellsPtr_ := none
          masterStickOutFacesPtr_ := none
          slaveStickOutFacesPtr_ := none
          projectedSlavePointsPtr_ := none },
       { ref with cut := none })
    clearCouple := fun s ref => (s, { ref with cut := none }) }

/-! ## Cutting of triangles and tetrahedra (`cutI.H`) -/

/-- A `FixedList<Type, N>`. -/
abbrev FixedList (α : Type) (n : Nat) := Fin n → α

/-- Embedding of `triCutTri(x, f)` for a list of three points: `result[0]` is
`x[0]` and `result[i+1]` is `x[0] + f[i]*(x[i+1] - x[0])` for `i` below 2. -/
def triCutTri (x : FixedList Vector 3) (f : FixedList scalar 2) :
    FixedList Vector 3 :=
  Fin.cases (x 0)
    (fun i => (x 0).add (Vector.smul (f i) ((x i.succ).sub (x 0))))

/-- Embedding of `tetCutTet(x, f)` for a list of four points: `result[0]` is
`x[0]` and `result[i+1]` is `x[0] + f[i]*(x[i+1] - x[0])` for `i` below 3. -/
def tetCutTet (x : FixedList Vector 4) (f : FixedList scalar 3) :
    FixedList Vector 4 :=
  Fin.cases (x 0)
    (fun i => (x 0).add (Vector.smul (f i) ((x i.succ).sub (x 0))))

/-- Embedding of the overload `triCutTri(op, p, f)`, which applies an
operation to the cut triangle: `Op(triCutTri(op, f))(triCutTri(p, f))`.  The
operation is given by its data `op`, the change `cutData` of the data under
the cut, and its evaluation `apply` on a triangle. -/
def triCutTriOp {δ β : Type} (cutData : δ → FixedList scalar 2 → δ)
    (apply : δ → FixedList Vector 3 → β) (op : δ) (p : FixedList Vector 3)
    (f : FixedList scalar 2) : β :=
  apply (cutData op f) (triCutTri p f)

/-! ## Concrete data used to exercise the theorems -/

/-- A detached interface in couple-decouple mode, nothing projected yet. -/
def detachedCoupleDecouple : slidingInterface :=
  { coupleDecouple_ := true, attached_ := false, trigger_ := false,
    pointMergeTol_ := 1/20, edgeMergeTol_ := 1/100, nFacesPerSlaveEdge_ := 5,
    edgeFaceEscapeLimit_ := 10, integralAdjTol_ := 1/20,
    edgeMasterCatchFraction_ := 2/5, edgeCoPlanarTol_ := 4/5,
    edgeEndCutoffTol_ := 1/10000, projectedSlavePointsPtr_ := none }

/-- An attached interface outside couple-decouple mode. -/
def attachedTriggerMode : slidingInterface :=
  { detachedCoupleDecouple with coupleDecouple_ := false, attached_ := true }

/-- An attached interface outside couple-decouple mode whose trigger is set. -/
def attachedTriggered : slidingInterface :=
  { attachedTriggerMode with trigger_ := true }

/-- Collaborators over an edit list of call names: projection stores an empty
point list, sets the trigger and reports a change; coupling attaches,
decoupling detaches, and each emitter appends its own name to the list. -/
def loggingCollaborators : Collaborators (List Call) :=
  { projectPoints := fun s =>
      (true, { s with projectedSlavePointsPtr_ := some [], trigger_ := true })
    coupleInterface := fun s ref =>
      ({ s with attached_ := true }, ref ++ [Call.coupleInterface])
    decoupleInterface := fun s ref =>
      ({ s with attached_ := false }, ref ++ [Call.decoupleInterface])
    clearCouple := fun s ref => (s, ref ++ [Call.clearCouple]) }

/-- Cross product, `a ^ b` in the source. -/
def Vector.cross (a b : Vector) : Vector :=
  ⟨a.y * b.z - a.z * b.y, a.z * b.x - a.x * b.z, a.x * b.y - a.y * b.x⟩

/-- Modelled from the spec: the geometric primitives, declared outside the
translated file, in exact form for the concrete configurations below: the
magnitude is the sum of the absolute components, which is the Euclidean
length of every vector parallel to a coordinate axis (all vectors measured
below are); the plane through `a`, `b`, `c` cuts the line `l` at the fraction
`((a - l.start) & n)/(l.vec & n)` with `n` normal to the plane; the nearest
point of `l` to `p` is the foot of the perpendicular when that lies strictly
inside the segment (a hit) and the nearer end otherwise (a miss). -/
def axisGeometry : Geometry :=
  { mag := fun v => |v.x| + |v.y| + |v.z|
    lineIntersect := fun a b c l =>
      let n := (a.sub b).cross (b.sub c)
      ((a.sub l.a_).dot n) / (l.vec.dot n)
    nearestDist := fun l p =>
      let v := l.vec
      let c1 := v.dot (p.sub l.a_)
      let c2 := v.dot v
      if c1 ≤ 0 then
        ⟨false, l.a_, |(p.sub l.a_).x| + |(p.sub l.a_).y| + |(p.sub l.a_).z|⟩
      else if c2 ≤ c1 then
        ⟨false, l.b_, |(p.sub l.b_).x| + |(p.sub l.b_).y| + |(p.sub l.b_).z|⟩
      else
        let pb := l.a_.add (Vector.smul (c1 / c2) v)
        ⟨true, pb, |(p.sub pb).x| + |(p.sub pb).y| + |(p.sub pb).z|⟩ }

/-- Search of a point in a patch: the local label, or -1. -/
def lookupPoint (meshPointMap : Map label) (gp : label) : label :=
  (Map.cfind meshPointMap gp).getD (-1)

/-- Search of an edge in an edge list, in either direction: its position
counted from `i`, or -1. -/
def lookupEdge : List edge → label → edge → label
  | [], _, _ => -1
  | e' :: rest, i, e =>
    if (e'.start = e.start ∧ e'.end_ = e.end_)
        ∨ (e'.start = e.end_ ∧ e'.end_ = e.start) then i
    else lookupEdge rest (i + 1) e

/-- A patch with one edge between the two given points, whose mesh labels are
`g0` and `g1`; both point normals are the unit vector along z. -/
def oneEdgePatch (g0 g1 : label) (p0 p1 : point) : primitiveFacePatch :=
  { edges := [⟨0, 1⟩]
    localPoints := [p0, p1]
    pointNormals := [⟨0, 0, 1⟩, ⟨0, 0, 1⟩]
    meshPointMap := [(g0, 0), (g1, 1)]
    whichPoint := lookupPoint [(g0, 0), (g1, 1)]
    whichEdge := lookupEdge [⟨0, 1⟩] 0 }

/-- The slave patch of the examples: one edge from the origin to (1,0,0),
mesh points 2 and 3. -/
def unitSlavePatch : primitiveFacePatch :=
  oneEdgePatch 2 3 ⟨0, 0, 0⟩ ⟨1, 0, 0⟩

/-- The projected slave points of the examples: the slave points themselves. -/
def unitProjection : List point := [⟨0, 0, 0⟩, ⟨1, 0, 0⟩]

/-- The interface of the examples: projection available, co-planarity
tolerance 4/5, end cut-off tolerance 1/10. -/
def projectedInterface : slidingInterface :=
  { detachedCoupleDecouple with
    attached_ := true, edgeEndCutoffTol_ := 1/10,
    projectedSlavePointsPtr_ := some unitProjection }

/-- The motion points of the examples, one for each of the six mesh points:
two cut points, two slave points, two master points. -/
def sixPoints : List point :=
  [⟨7, 7, 7⟩, ⟨8, 8, 8⟩, ⟨0, 0, 0⟩, ⟨1, 0, 0⟩, ⟨1/2, -1, 0⟩, ⟨1/2, 1, 0⟩]

/-- Two retired cut points listed in the zone as `(1 0)`: cut point 1 is
slave point 2, cut point 0 is slave point 3. -/
def swappedZone : MotionInput :=
  { cutPoints := [1, 0]
    masterPatch := oneEdgePatch 4 5 ⟨1/2, -1, 0⟩ ⟨1/2, 1, 0⟩
    slavePatch := unitSlavePatch
    retiredPointMap := [(1, 2), (0, 3)]
    cutPointEdgePairMap := [] }

/-- A zone `(0 1)` whose point 0 was cut from master edge (4 5) and slave
edge (2 3) and whose point 1 is retired onto slave point 2.  The master edge
runs parallel to y at height `h` above the slave edge, from `y0` to `y1`. -/
def crossing (y0 y1 h : scalar) : MotionInput :=
  { cutPoints := [0, 1]
    masterPatch := oneEdgePatch 4 5 ⟨1/2, y0, h⟩ ⟨1/2, y1, h⟩
    slavePatch := unitSlavePatch
    retiredPointMap := [(1, 2)]
    cutPointEdgePairMap := [(0, (⟨4, 5⟩, ⟨2, 3⟩)), (1, (⟨4, 5⟩, ⟨2, 3⟩))] }

/-- The zone `(0 1)` with point 0 in neither map. -/
def unclassified : MotionInput :=
  { crossing (-1) 1 0 with cutPointEdgePairMap := [] }

/-- The values the edge-intersection branch computes for cut point 0 of
`crossing y0 y1 h` when the master edge is cut at the fraction `t`. -/
def masterCut (y0 y1 h t : scalar) : EdgeCut :=
  { a := ⟨0, 0, 0⟩, b := ⟨1, 0, 0⟩
    curSlaveLine := ⟨⟨0, 0, 0⟩, ⟨1, 0, 0⟩⟩, curSlaveLineMag := 1
    cmeLine := ⟨⟨1/2, y0, h⟩, ⟨1/2, y1, h⟩⟩, cutOnMaster := t }

/-- The outcome of the `n`-th of `n` successive `setRefinement` calls, each
applied to the object and the mesh the call before left (no call for `n`
zero). -/
def refineCycles {ρ : Type} (X : Collaborators ρ) :
    Nat → slidingInterface → ρ → RefineResult ρ
  | 0, s, ref => ⟨s, ref, []⟩
  | n + 1, s, ref =>
    setRefinement X (refineCycles X n s ref).self (refineCycles X n s ref).ref

/-- Whether all six identifiers are active. -/
def slidingInterface.allActive (s : slidingInterface) : Prop :=
  s.masterFaceZoneID_.active = true
  ∧ s.slaveFaceZoneID_.active = true
  ∧ s.cutPointZoneID_.active = true
  ∧ s.cutFaceZoneID_.active = true
  ∧ s.masterPatchID_.active = true
  ∧ s.slavePatchID_.active = true

/-- The defaults of the examples. -/
def exampleDefaults : Tolerances :=
  { pointMergeTol := 1/20, edgeMergeTol := 1/100, nFacesPerSlaveEdge := 5,
    edgeFaceEscapeLimit := 10, integralAdjTol := 1/20,
    edgeMasterCatchFraction := 2/5, edgeCoPlanarTol := 4/5,
    edgeEndCutoffTol := 1/10000 }

/-- Tolerance members that all hold zero. -/
def heldZero : Tolerances :=
  { pointMergeTol := 0, edgeMergeTol := 0, nFacesPerSlaveEdge := 0,
    edgeFaceEscapeLimit := 0, integralAdjTol := 0,
    edgeMasterCatchFraction := 0, edgeCoPlanarTol := 0,
    edgeEndCutoffTol := 0 }

/-- A table of three algorithm names for the examples. -/
def exampleAlgorithms : AlgorithmNames :=
  { name := fun a =>
      if a = 0 then "fullRay" else if a = 1 then "halfRay"
      else if a = 2 then "visible" else ""
    get? := fun w =>
      if w = "fullRay" then some 0 else if w = "halfRay" then some 1
      else if w = "visible" then some 2 else none }

/-- A mesh with a master zone and a slave zone of two faces each, an empty
cut face zone, an empty cut point zone and two patches. -/
def exampleMesh : polyMesh :=
  { faceZones :=
      [⟨"masterZone", [0, 1]⟩, ⟨"slaveZone", [2, 3]⟩, ⟨"cutFaces", []⟩]
    pointZones := [⟨"cutPoints", []⟩]
    boundaryMesh := ["masterPatch", "slavePatch"] }

/-- The mesh of the examples with the slave zone emptied. -/
def emptySlaveMesh : polyMesh :=
  { exampleMesh with
    faceZones :=
      [⟨"masterZone", [0, 1]⟩, ⟨"slaveZone", []⟩, ⟨"cutFaces", []⟩] }

/-- The six names of the examples. -/
def exampleNames : InterfaceNames :=
  { masterFaceZoneName := "masterZone", slaveFaceZoneName := "slaveZone",
    cutPointZoneName := "cutPoints", cutFaceZoneName := "cutFaces",
    masterPatchName := "masterPatch", slavePatchName := "slavePatch" }

/-- An addressing calculation for the examples: it fills the four face lists
and leaves the two maps empty. -/
def exampleAddressing (s : slidingInterface) : slidingInterface :=
  { s with
    masterFaceCellsPtr_ := some [0, 1]
    slaveFaceCellsPtr_ := some [2, 3]
    masterStickOutFacesPtr_ := some []
    slaveStickOutFacesPtr_ := some []
    retiredPointMapPtr_ := some []
    cutPointEdgePairMapPtr_ := some [] }

/-- The object the constructor from components builds on the mesh of the
examples, before the addressing is calculated. -/
def exampleObject : slidingInterface :=
  initialObject exampleMesh true exampleNames typeOfMatch.INTEGRAL true false 0
    exampleDefaults

/-- The dictionary of a detached interface in couple-decouple mode on the
mesh of the examples, without any tolerance keyword. -/
def plainDictionary : dictionary :=
  [ ("type", entry.word "slidingInterface"),
    ("masterFaceZoneName", entry.word "masterZone"),
    ("slaveFaceZoneName", entry.word "slaveZone"),
    ("cutPointZoneName", entry.word "cutPoints"),
    ("cutFaceZoneName", entry.word "cutFaces"),
    ("masterPatchName", entry.word "masterPatch"),
    ("slavePatchName", entry.word "slavePatch"),
    ("typeOfMatch", entry.word "integral"),
    ("coupleDecouple", entry.bool true),
    ("projection", entry.word "fullRay"),
    ("attached", entry.bool false),
    ("active", entry.bool true) ]

/-- The mesh of the examples after a change that put a new face zone and a
new patch in front of the old ones. -/
def renumberedMesh : polyMesh :=
  { faceZones :=
      [⟨"newZone", [7]⟩, ⟨"masterZone", [0, 1]⟩, ⟨"slaveZone", [2, 3]⟩,
       ⟨"cutFaces", []⟩]
    pointZones := [⟨"cutPoints", []⟩]
    boundaryMesh := ["inlet", "masterPatch", "slavePatch"] }

/-- A cut with one cut point, made from master edge (4 5) and slave edge
(2 3), and one cut face, whatever the geometry and the zones. -/
def oneCut (_geom : Unit) (_masterZone _slaveZone : List label) : CutTopology :=
  { cutPoints := [0]
    cutFaces := [[0, 2, 4]]
    retiredPointMap := []
    cutPointEdgePairMap := [(0, (⟨4, 5⟩, ⟨2, 3⟩))] }

/-- The mesh around the interface of the examples before any coupling. -/
def uncoupledMesh : InterfaceMesh :=
  { masterZone := [0, 1], slaveZone := [2, 3], cut := none }

/-- The unit triangle in the plane z = 0. -/
def unitTriangle : FixedList Vector 3 :=
  ![⟨0, 0, 0⟩, ⟨1, 0, 0⟩, ⟨0, 1, 0⟩]

/-- Embedding of `triReorder(x, indices)` for a fixed list: `result[i]` is
`x[indices[i]]`. -/
def triReorder {α : Type} {n : Nat} (x : FixedList α n)
    (indices : FixedList (Fin n) 3) : FixedList α 3 :=
  fun i => x (indices i)

/-- Embedding of `tetReorder(x, indices)` for a fixed list: `result[i]` is
`x[indices[i]]`. -/
def tetReorder {α : Type} {n : Nat} (x : FixedList α n)
    (indices : FixedList (Fin n) 4) : FixedList α 4 :=
  fun i => x (indices i)

/-- Embedding of the overloads of `triReorder`, `tetReorder`, `tetCutTet`,
`tetCutPrism0`, `tetCutPrism01` and `tetCutPrism23` for a uniform operation
(`cut::uniformOp`): each returns the operation it is given. -/
def uniformData {δ ι : Type} (x : δ) (_ : ι) : δ := x

/-- Embedding of `tetCutPrism0(x, f)`: `result[i]` is
`x[0] + f[i]*(x[i+1] - x[0])` and `result[i+3]` is `x[i+1]`, for `i` below
3.  The entries of the result are assigned one after the other; it starts
from a list of zero vectors, every entry of which is overwritten. -/
def tetCutPrism0 (x : FixedList Vector 4) (f : FixedList scalar 3) :
    FixedList Vector 6 :=
  (List.finRange 3).foldl
    (fun result i =>
      Function.update
        (Function.update result ⟨i.val, by omega⟩
          ((x 0).add (Vector.smul (f i) ((x i.succ).sub (x 0)))))
        ⟨i.val + 3, by omega⟩ (x i.succ))
    (fun _ => ⟨0, 0, 0⟩)

/-- Embedding of `tetCutPrism01(x, f)`: for `i` below 2, `result[3*i]` is
`x[i]` and, for `j` below 2, `result[3*i+j+1]` is
`x[i] + f[2*i+j]*(x[j+2] - x[i])`. -/
def tetCutPrism01 (x : FixedList Vector 4) (f : FixedList scalar 4) :
    FixedList Vector 6 :=
  (List.finRange 2).foldl
    (fun result i =>
      (List.finRange 2).foldl
        (fun result j =>
          Function.update result ⟨3 * i.val + j.val + 1, by omega⟩
            ((x ⟨i.val, by omega⟩).add
              (Vector.smul (f ⟨2 * i.val + j.val, by omega⟩)
                ((x ⟨j.val + 2, by omega⟩).sub (x ⟨i.val, by omega⟩)))))
        (Function.update result ⟨3 * i.val, by omega⟩ (x ⟨i.val, by omega⟩)))
    (fun _ => ⟨0, 0, 0⟩)

/-- Embedding of `tetCutPrism23(x, f)`: the result of `tetCutPrism01(x, f)`
with `result[0] = x[2]`, `result[3] = x[3]` and entries 2 and 4 swapped. -/
def tetCutPrism23 (x : FixedList Vector 4) (f : FixedList scalar 4) :
    FixedList Vector 6 :=
  let result := tetCutPrism01 x f
  let result := Function.update result 0 (x 2)
  let result := Function.update result 3 (x 3)
  Function.update (Function.update result 2 (result 4)) 4 (result 2)

/-- Embedding of `quadOp<Op>(opData, p)`: the quad is split into the two
triangles of the index table `{{0, 1, 2}, {0, 2, 3}}` and the results of the
operation are added.  `reorder` is the overload of `triReorder` that applies
to the data of the operation and `Op` the evaluation of the operation built
from reordered data on a triangle. -/
def quadOp {δ δ' β : Type} [Add β] (reorder : δ → FixedList (Fin 4) 3 → δ')
    (Op : δ' → FixedList Vector 3 → β) (opData : δ) (p : FixedList Vector 4) :
    β :=
  let i : FixedList (FixedList (Fin 4) 3) 2 := ![![0, 1, 2], ![0, 2, 3]]
  Op (reorder opData (i 0)) (triReorder p (i 0))
    + Op (reorder opData (i 1)) (triReorder p (i 1))

/-- Embedding of `prismOp<Op>(opData, p)`: the prism is split into the three
tetrahedra of the index table `{{0, 1, 2, 4}, {0, 2, 5, 4}, {0, 4, 5, 3}}`
and the results of the operation are added. -/
def prismOp {δ δ' β : Type} [Add β] (reorder : δ → FixedList (Fin 6) 4 → δ')
    (Op : δ' → FixedList Vector 4 → β) (opData : δ) (p : FixedList Vector 6) :
    β :=
  let i : FixedList (FixedList (Fin 6) 4) 3 :=
    ![![0, 1, 2, 4], ![0, 2, 5, 4], ![0, 4, 5, 3]]
  Op (reorder opData (i 0)) (tetReorder p (i 0))
    + Op (reorder opData (i 1)) (tetReorder p (i 1))
    + Op (reorder opData (i 2)) (tetReorder p (i 2))

/-- Embedding of the overload `tetCutTet(op, p, f)` for a uniform operation:
`Op(tetCutTet(op, f))(tetCutTet(p, f))`. -/
def tetCutTetOp {δ β : Type} (Op : δ → FixedList Vector 4 → β) (op : δ)
    (p : FixedList Vector 4) (f : FixedList scalar 3) : β :=
  Op (uniformData op f) (tetCutTet p f)

/-- Embedding of the overload `tetCutPrism0(op, p, f)` for a uniform
operation: `prismOp<Op>(tetCutPrism0(op, f), tetCutPrism0(p, f))`. -/
def tetCutPrism0Op {δ β : Type} [Add β] (Op : δ → FixedList Vector 4 → β)
    (op : δ) (p : FixedList Vector 4) (f : FixedList scalar 3) : β :=
  prismOp uniformData Op (uniformData op f) (tetCutPrism0 p f)

/-- Embedding of the overload `tetCutPrism01(op, p, f)` for a uniform
operation: `prismOp<Op>(tetCutPrism01(op, f), tetCutPrism01(p, f))`. -/
def tetCutPrism01Op {δ β : Type} [Add β] (Op : δ → FixedList Vector 4 → β)
    (op : δ) (p : FixedList Vector 4) (f : FixedList scalar 4) : β :=
  prismOp uniformData Op (uniformData op f) (tetCutPrism01 p f)

/-- Embedding of the overload `tetCutPrism23(op, p, f)` for a uniform
operation: `prismOp<Op>(tetCutPrism23(op, f), tetCutPrism23(p, f))`. -/
def tetCutPrism23Op {δ β : Type} [Add β] (Op : δ → FixedList Vector 4 → β)
    (op : δ) (p : FixedList Vector 4) (f : FixedList scalar 4) : β :=
  prismOp uniformData Op (uniformData op f) (tetCutPrism23 p f)

/-- The signed volume of the tetrahedron `(a, b, c, d)`: a sixth of
`((b - a) ^ (c - a)) & (d - a)`. -/
def signedVolume (t : FixedList Vector 4) : scalar :=
  ((((t 1).sub (t 0)).cross ((t 2).sub (t 0))).dot ((t 3).sub (t 0))) / 6

/-- The zone `(1 0)`: cut point 1 is retired onto slave point 2 and is
visited first, cut point 0 was cut from master edge (4 5) and slave edge
(2 3); the master edge runs from y = 1 to y = 2 and misses the slave edge. -/
def swappedCrossing : MotionInput :=
  { crossing 1 2 0 with cutPoints := [1, 0] }

/-! ## Interpolation between lumped points -/

/-- The data members of `lumpedPointInterpolator`: the nearest lumped point,
the two next ones, and the weights of the latter two. -/
structure lumpedPointInterpolator where
  nearest_ : label
  next1_ : label
  next2_ : label
  weight1_ : scalar
  weight2_ : scalar
deriving DecidableEq

/-- Embedding of `lumpedPointInterpolator::weight0`. -/
def lumpedPointInterpolator.weight0 (I : lumpedPointInterpolator) : scalar :=
  1 - I.weight1_ - I.weight2_

/-- Embedding of `lumpedPointInterpolator::interpolate`; the product
`input[k] * w` of a value and a scalar is written `w • input[k]`. -/
def lumpedPointInterpolator.interpolate {T : Type} [AddCommGroup T]
    [Module scalar T] (I : lumpedPointInterpolator) (input : List T) :
    Except Failure T :=
  if I.nearest_ = -1 then
    .ok 0
  else if I.next1_ = -1 ∨ I.next1_ = I.nearest_ then
    index input I.nearest_
  else do
    let a ← index input I.nearest_
    let b ← index input I.next1_
    let c ← index input I.next2_
    pure ((1 - I.weight1_ - I.weight2_) • a + I.weight1_ • b + I.weight2_ • c)

/-- An interpolator between the lumped points 0, 1 and 2 with the weights
1/2, 1/3 and 1/6. -/
def threePointInterpolator : lumpedPointInterpolator :=
  { nearest_ := 0, next1_ := 1, next2_ := 2, weight1_ := 1/3, weight2_ := 1/6 }

/-! ## Bit operations -/

namespace BitOps

/-- Embedding of `BitOps::repeat_value<UIntType, BitWidth>(val)` for an
output type of `W` binary digits and the bit width `B`.  `val` and `mask` are
of type `unsigned`, 32 bits wide, so `(1u << BitWidth) - 1` is taken modulo
`2^32`; every value stored in `fillval` is reduced modulo `2^W`.  The loop
`for (unsigned i = 1; i < nrepeat; ++i)` runs `nrepeat - 1` times. -/
def repeat_value (W B val : Nat) : Nat :=
  -- How many fit into the target
  let nrepeat := W / B
  -- Max value for a single element
  let mask := ((1 <<< B) % 2 ^ 32 + 2 ^ 32 - 1) % 2 ^ 32
  -- The first occurance
  let fillval := (if val ≥ mask then mask else val) % 2 ^ W
  -- Repeated
  (fun fillval => (fillval ||| (fillval <<< B)) % 2 ^ W)^[nrepeat - 1] fillval

/-- The loop `for (; x; ++n) { x &= (x-1); }` of the generic `bit_count`,
entered with the current `x` and `n`: the value of `n` when it ends.  For a
non-zero `x` the difference `x - 1` does not wrap around, and `x & (x-1)` is
below `x`, so no value leaves the range of the integral type. -/
def bit_count_loop (x n : Nat) : Nat :=
  if h : x = 0 then n
  else bit_count_loop (x &&& (x - 1)) (n + 1)
termination_by x
decreasing_by
  exact Nat.lt_of_le_of_lt Nat.and_le_right
    (Nat.sub_lt (Nat.pos_of_ne_zero h) (by decide))

/-- Embedding of the generic `BitOps::bit_count(UIntType x)`. -/
def bit_count (x : Nat) : Nat :=
  bit_count_loop x 0

/-- Embedding of the specialisation `BitOps::bit_count(uint32_t x)`; the
arithmetic of `uint32_t` is modulo `2^32`. -/
def bit_count_uint32 (x : Nat) : Nat :=
  let x := (x + 2 ^ 32 - ((x >>> 1) &&& 0x55555555)) % 2 ^ 32
  let x := ((x &&& 0x33333333) + ((x >>> 2) &&& 0x33333333)) % 2 ^ 32
  (((((x + (x >>> 4)) % 2 ^ 32) &&& 0x0F0F0F0F) * 0x01010101) % 2 ^ 32) >>> 24

/-- Embedding of the specialisation `BitOps::bit_count(uint64_t x)`; the
arithmetic of `uint64_t` is modulo `2^64`, the result is converted to
`unsigned`. -/
def bit_count_uint64 (x : Nat) : Nat :=
  let x := (x + 2 ^ 64 - ((x >>> 1) &&& 0x5555555555555555)) % 2 ^ 64
  let x := ((x &&& 0x3333333333333333) + ((x >>> 2) &&& 0x3333333333333333))
    % 2 ^ 64
  ((((((x + (x >>> 4)) % 2 ^ 64) &&& 0x0F0F0F0F0F0F0F0F) * 0x0101010101010101)
    % 2 ^ 64) >>> 56) % 2 ^ 32

/-- The number of 1 bits among the lowest `w` binary digits of `x`. -/
def numberOfOneBits (w x : Nat) : Nat :=
  ((List.range w).filter (fun i => x.testBit i)).length

/-- The constant whose `k` bytes all are `c`. -/
def byteMask (c : Nat) : Nat → Nat
  | 0 => 0
  | k + 1 => c + 256 * byteMask c k

/-- The value whose `j`-th byte, for `j` below `k`, is `f` of the `j`-th byte
of `x` (a sum, should `f` leave the range of a byte). -/
def mapBytes (f : Nat → Nat) : Nat → Nat → Nat
  | 0, _ => 0
  | k + 1, x => f (x % 256) + 256 * mapBytes f k (x / 256)

/-- One byte after the first step of the Hamming weight method: the count of
each pair of bits. -/
def pairCounts (b : Nat) : Nat := b - ((b / 2) &&& 0x55)

/-- One byte after the second step: the count of each group of four bits. -/
def nibbleCounts (b : Nat) : Nat := (b &&& 0x33) + ((b / 4) &&& 0x33)

end BitOps

/-! ## Point zone sets -/

/-- The data members of `pointZoneSet` that the set operations read or write:
the hash set of labels of the base class `pointSet` and the list
`addressing_`. -/
structure pointZoneSet where
  set_ : Finset label
  addressing_ : List label
deriving DecidableEq

/-- Modelled from the spec: the members `found`, `clearStorage`, `reserve`
and `set` of the hash set (`HashSet<label>`), defined outside the translated
file: `found(p)` tells whether `p` is in the set. -/
def pointZoneSet.found (s : pointZoneSet) (pointi : label) : Bool :=
  decide (pointi ∈ s.set_)

/-- Modelled from the spec: `HashSet::set(list)`, defined outside the
translated file, inserts every entry of the list. -/
def HashSet.set (t : Finset label) (list : List label) : Finset label :=
  list.foldl (fun t p => insert p t) t

/-- The two list helpers called by `updateSet`, defined outside the
translated file, as functions: `sortedOrder(input)` returns a list of
positions and `inplaceReorder(order, input)` the rearranged list. -/
structure ListHelpers where
  sortedOrder : List label → List label
  inplaceReorder : List label → List label → List label

/-- Embedding of `pointZoneSet::updateSet`. -/
def pointZoneSet.updateSet (H : ListHelpers) (s : pointZoneSet) :
    pointZoneSet :=
  let order := H.sortedOrder s.addressing_
  let addressing := H.inplaceReorder order s.addressing_
  -- pointSet::clearStorage(); pointSet::reserve(...); pointSet::set(addressing_)
  { set_ := HashSet.set ∅ addressing, addressing_ := addressing }

/-- Embedding of `pointZoneSet::subset`. -/
def pointZoneSet.subset (H : ListHelpers) (s zoneSet : pointZoneSet) :
    pointZoneSet :=
  let newAddressing :=
    zoneSet.addressing_.foldl
      (fun newAddressing pointi =>
        if s.found pointi then newAddressing ++ [pointi] else newAddressing)
      []
  pointZoneSet.updateSet H { s with addressing_ := newAddressing }

/-- Embedding of `pointZoneSet::addSet`. -/
def pointZoneSet.addSet (H : ListHelpers) (s zoneSet : pointZoneSet) :
    pointZoneSet :=
  let newAddressing :=
    zoneSet.addressing_.foldl
      (fun newAddressing pointi =>
        if !s.found pointi then newAddressing ++ [pointi] else newAddressing)
      s.addressing_
  pointZoneSet.updateSet H { s with addressing_ := newAddressing }

/-- Embedding of `pointZoneSet::subtractSet`. -/
def pointZoneSet.subtractSet (H : ListHelpers) (s zoneSet : pointZoneSet) :
    pointZoneSet :=
  let newAddressing :=
    s.addressing_.foldl
      (fun newAddressing pointi =>
        if !zoneSet.found pointi then newAddressing ++ [pointi]
        else newAddressing)
      []
  pointZoneSet.updateSet H { s with addressing_ := newAddressing }

/-- Modelled from the spec: `sortedOrder(input)` of the list operations,
defined outside the translated file: the positions of the list in the stable
ascending order of their entries, so that `input[order[0]]`,
`input[order[1]]`, ... ascend. -/
def sortedOrder (input : List label) : List label :=
  ((List.range input.length).insertionSort
    (fun i j => input.getD i 0 ≤ input.getD j 0)).map
    (fun (i : Nat) => (i : label))

/-- Modelled from the spec: `inplaceReorder(oldToNew, input)` of the list
operations, defined outside the translated file: the entry at position `i`
moves to position `oldToNew[i]`; an entry whose new position is negative
stays where it is. -/
def inplaceReorder (oldToNew : List label) (input : List label) :
    List label :=
  (List.range input.length).foldl
    (fun output i =>
      let newIdx := oldToNew.getD i (-1)
      if 0 ≤ newIdx then output.set newIdx.toNat (input.getD i 0)
      else output.set i (input.getD i 0))
    (List.replicate input.length 0)

/-- The two list helpers as modelled above. -/
def listOps : ListHelpers :=
  { sortedOrder := sortedOrder, inplaceReorder := inplaceReorder }

/-- A rearrangement that gathers: position `i` of the result receives
`input[order[i]]`. -/
def gatherReorder (order : List label) (input : List label) : List label :=
  order.map (fun k => input.getD k.toNat 0)

/-- The point zone set holding the labels of the list, as `updateSet` leaves
the hash set. -/
def pointZoneSet.ofList (addressing : List label) : pointZoneSet :=
  { set_ := HashSet.set ∅ addressing, addressing_ := addressing }

/-- The loop of `inplaceReorder` for positions given as naturals, run over
the first `m` entries: entry `i` of `input` is written to position
`order[i]`. -/
def scatterTo (order : List Nat) (input : List label) (m : Nat) : List label :=
  (List.range m).foldl
    (fun output i => output.set (order.getD i 0) (input.getD i 0))
    (List.replicate input.length 0)

/-- The two helpers with a rearrangement that gathers in place of the one
modelled above. -/
def gatherOps : ListHelpers :=
  { sortedOrder := sortedOrder, inplaceReorder := gatherReorder }

/-! ## The cuts over an arbitrary arithmetic -/

/-- The operations the templates `triCutTri` and `tetCutTet` use on their
template parameter `Type` and on `scalar`: the sum `a + b` and the difference
`a - b` of two values and the product `s*a` of a scalar and a value. -/
structure CutArithmetic (S T : Type) where
  add : T → T → T
  sub : T → T → T
  smul : S → T → T

/-- Embedding of the template `triCutTri(x, f)` over the operations of its
types: `result[0]` is `x[0]` and `result[i+1]` is
`x[0] + f[i]*(x[i+1] - x[0])` for `i` below 2. -/
def triCutTriWith {S T : Type} (A : CutArithmetic S T) (x : FixedList T 3)
    (f : FixedList S 2) : FixedList T 3 :=
  Fin.cases (x 0)
    (fun i => A.add (x 0) (A.smul (f i) (A.sub (x i.succ) (x 0))))

/-- Embedding of the template `tetCutTet(x, f)` over the operations of its
types: `result[0]` is `x[0]` and `result[i+1]` is
`x[0] + f[i]*(x[i+1] - x[0])` for `i` below 3. -/
def tetCutTetWith {S T : Type} (A : CutArithmetic S T) (x : FixedList T 4)
    (f : FixedList S 3) : FixedList T 4 :=
  Fin.cases (x 0)
    (fun i => A.add (x 0) (A.smul (f i) (A.sub (x i.succ) (x 0))))

/-- The exact operations on vectors of rational scalars. -/
def exactArithmetic : CutArithmetic scalar Vector :=
  { add := Vector.add, sub := Vector.sub, smul := Vector.smul }

/-- The power `2^e` for an integer `e`. -/
def twoPow (e : Int) : scalar :=
  if 0 ≤ e then ((2 ^ e.toNat : Nat) : scalar)
  else 1 / ((2 ^ (-e).toNat : Nat) : scalar)

/-- The position of the highest binary digit of `n`, found in at most `fuel`
halvings; 0 for `n` below 2. -/
def binaryLogFuel : Nat → Nat → Nat
  | 0, _ => 0
  | fuel + 1, n => if n < 2 then 0 else binaryLogFuel fuel (n / 2) + 1

/-- The position of the highest binary digit of `n`; 0 for `n` below 2. -/
def binaryLog (n : Nat) : Nat := binaryLogFuel n n

/-- Modelled from the spec: the type `scalar` is declared outside the
translated files; it is taken as `double`, the binary64 format of IEEE 754.
This is the rounding of a positive rational to the nearest binary64 number,
ties to the even significand, for results in the normal range (no overflow,
no subnormal numbers): the significand has 53 binary digits. -/
def roundBinary64Magnitude (a : scalar) : scalar :=
  -- the binary logarithm of `a` is `l` or `l - 1`
  let l : Int := (binaryLog a.num.natAbs : Int) - (binaryLog a.den : Int)
  let e : Int := if a < twoPow l then l - 1 - 52 else l - 52
  -- `t` lies in `[2^52, 2^53)`
  let t := a / twoPow e
  let fl : Nat := t.num.natAbs / t.den
  let r := t - (fl : scalar)
  let m : Nat :=
    if r < 1 / 2 then fl
    else if 1 / 2 < r then fl + 1
    else if fl % 2 = 0 then fl else fl + 1
  (m : scalar) * twoPow e

/-- Modelled from the spec: the rounding of a rational to the nearest
binary64 number (see `roundBinary64Magnitude`): zero is kept and a negative
number is rounded as its magnitude is. -/
def roundBinary64 (q : scalar) : scalar :=
  if q = 0 then 0
  else if q < 0 then -(roundBinary64Magnitude (-q))
  else roundBinary64Magnitude q

/-- Modelled from the spec: the operations of `double` on vectors whose
components are binary64 numbers: each component of a sum, a difference or a
product with a scalar is the exact result rounded to binary64. -/
def binary64Arithmetic : CutArithmetic scalar Vector :=
  { add := fun a b =>
      ⟨roundBinary64 (a.x + b.x), roundBinary64 (a.y + b.y),
       roundBinary64 (a.z + b.z)⟩
    sub := fun a b =>
      ⟨roundBinary64 (a.x - b.x), roundBinary64 (a.y - b.y),
       roundBinary64 (a.z - b.z)⟩
    smul := fun s a =>
      ⟨roundBinary64 (s * a.x), roundBinary64 (s * a.y),
       roundBinary64 (s * a.z)⟩ }

/-- The binary64 number nearest to 0.7, `3152519739159347 / 2^52`. -/
def double07 : scalar := 3152519739159347 / 4503599627370496

/-- The binary64 number nearest to 0.1, `3602879701896397 / 2^55`. -/
def double01 : scalar := 3602879701896397 / 36028797018963968

/-- A triangle of binary64 points on the x axis: at 0.7, at 0.1 and at the
origin. -/
def doubleTriangle : FixedList Vector 3 :=
  ![⟨double07, 0, 0⟩, ⟨double01, 0, 0⟩, ⟨0, 0, 0⟩]

/-- A triangle of binary64 points on the x axis: at the origin, at 0.1 and at
the origin. -/
def tenthTriangle : FixedList Vector 3 :=
  ![⟨0, 0, 0⟩, ⟨double01, 0, 0⟩, ⟨0, 0, 0⟩]

/-! ## Theorems: topology-change decisions -/

/-- C1: in couple-decouple mode `changeTopology` returns true; it calls
`projectPoints` (once) exactly when the interface is detached and calls
nothing when it is attached; and collaborators that differ only in the flag
returned by `projectPoints` give the same outcome. -/
theorem changeTopology_coupleDecouple {ρ : Type} (X : Collaborators ρ)
    (meshChanging : Bool) (s : slidingInterface)
    (h : s.coupleDecouple_ = true) :
    (changeTopology X meshChanging s).result = true
    ∧ (changeTopology X meshChanging s).calls
        = (if s.attached_ then [] else [Call.projectPoints])
    ∧ (Call.projectPoints ∈ (changeTopology X meshChanging s).calls
        ↔ s.attached_ = false)
    ∧ (changeTopology X meshChanging s).self
        = (if s.attached_ then s else (X.projectPoints s).2)
    ∧ ∀ X' : Collaborators ρ,
        (∀ t, (X'.projectPoints t).2 = (X.projectPoints t).2) →
        (changeTopology X' meshChanging s).result
            = (changeTopology X meshChanging s).result
          ∧ (changeTopology X' meshChanging s).self
            = (changeTopology X meshChanging s).self := by
  cases ha : s.attached_ <;> simp [changeTopology, h, ha]
  intro X' hX
  exact hX s

/-- Witness for C1 on a detached interface in couple-decouple mode. -/
theorem changeTopology_coupleDecouple_witness :
    detachedCoupleDecouple.coupleDecouple_ = true
    ∧ (changeTopology loggingCollaborators false detachedCoupleDecouple).result
        = true
    ∧ (changeTopology loggingCollaborators false detachedCoupleDecouple).calls
        = [Call.projectPoints] :=
  ⟨rfl,
   (changeTopology_coupleDecouple loggingCollaborators false
      detachedCoupleDecouple rfl).1,
   (changeTopology_coupleDecouple loggingCollaborators false
      detachedCoupleDecouple rfl).2.1⟩

/-- C2: outside couple-decouple mode, an attached interface on a mesh that is
not changing gives false without any call and leaves the object as it is; in
every other case `projectPoints` is called exactly once and its flag is the
result. -/
theorem changeTopology_otherwise {ρ : Type} (X : Collaborators ρ)
    (meshChanging : Bool) (s : slidingInterface)
    (h : s.coupleDecouple_ = false) :
    (s.attached_ = true ∧ meshChanging = false →
        (changeTopology X meshChanging s).result = false
        ∧ (changeTopology X meshChanging s).calls = []
        ∧ (changeTopology X meshChanging s).self = s)
    ∧ (¬ (s.attached_ = true ∧ meshChanging = false) →
        (changeTopology X meshChanging s).result = (X.projectPoints s).1
        ∧ (changeTopology X meshChanging s).calls = [Call.projectPoints]
        ∧ (changeTopology X meshChanging s).self = (X.projectPoints s).2) := by
  cases ha : s.attached_ <;> cases hm : meshChanging <;>
    simp [changeTopology, h, ha]

/-- Witness for C2 on an attached interface and a mesh that is not changing. -/
theorem changeTopology_otherwise_witness :
    attachedTriggerMode.coupleDecouple_ = false
    ∧ (changeTopology loggingCollaborators false attachedTriggerMode).result
        = false
    ∧ (changeTopology loggingCollaborators true attachedTriggerMode).calls
        = [Call.projectPoints] :=
  ⟨rfl,
   ((changeTopology_otherwise loggingCollaborators false attachedTriggerMode
      rfl).1 ⟨rfl, rfl⟩).1,
   ((changeTopology_otherwise loggingCollaborators true attachedTriggerMode
      rfl).2 (by decide)).2.1⟩

/-- C3: in couple-decouple mode `setRefinement` makes exactly one call, never
`clearCouple`: `decoupleInterface` if and only if the interface is attached
on entry, `coupleInterface` if and only if it is detached.  Starting
detached, with a projection that leaves the mode and the attached flag as
they are, `changeTopology` returns true and the `setRefinement` that follows
calls `coupleInterface` and not `decoupleInterface`. -/
theorem setRefinement_coupleDecouple {ρ : Type} (X : Collaborators ρ)
    (s : slidingInterface) (ref : ρ) (h : s.coupleDecouple_ = true) :
    (setRefinement X s ref).calls
        = (if s.attached_ then [Call.decoupleInterface]
           else [Call.coupleInterface])
    ∧ (Call.decoupleInterface ∈ (setRefinement X s ref).calls
        ↔ s.attached_ = true)
    ∧ (Call.coupleInterface ∈ (setRefinement X s ref).calls
        ↔ s.attached_ = false)
    ∧ Call.clearCouple ∉ (setRefinement X s ref).calls
    ∧ (setRefinement X s ref).ref
        = (if s.attached_ then (X.decoupleInterface s ref).2
           else (X.coupleInterface s ref).2)
    ∧ (s.attached_ = false →
        (X.projectPoints s).2.coupleDecouple_ = s.coupleDecouple_ →
        (X.projectPoints s).2.attached_ = s.attached_ →
        ∀ meshChanging,
          (changeTopology X meshChanging s).result = true
          ∧ (setRefinement X (changeTopology X meshChanging s).self ref).calls
              = [Call.coupleInterface]) := by
  cases ha : s.attached_ <;> simp [setRefinement, changeTopology, h, ha]
  intro hc hat
  simp [hc, hat, h, ha]

/-- Witness for C3: detached start, projection, then a couple sequence. -/
theorem setRefinement_coupleDecouple_witness :
    detachedCoupleDecouple.coupleDecouple_ = true
    ∧ (setRefinement loggingCollaborators detachedCoupleDecouple []).calls
        = [Call.coupleInterface]
    ∧ (setRefinement loggingCollaborators
        (changeTopology loggingCollaborators false detachedCoupleDecouple).self
        []).calls = [Call.coupleInterface] :=
  ⟨rfl,
   (setRefinement_coupleDecouple loggingCollaborators detachedCoupleDecouple
      [] rfl).1,
   ((setRefinement_coupleDecouple loggingCollaborators detachedCoupleDecouple
      [] rfl).2.2.2.2.2 rfl rfl rfl false).2⟩

/-- C4: outside couple-decouple mode and with the trigger set,
`setRefinement` calls `clearCouple` if and only if the interface is attached
on entry, then `coupleInterface` exactly once, in that order, and never
`decoupleInterface`; the edit list is the one these calls produce and the
trigger is false on return. -/
theorem setRefinement_triggered {ρ : Type} (X : Collaborators ρ)
    (s : slidingInterface) (ref : ρ) (h : s.coupleDecouple_ = false)
    (ht : s.trigger_ = true) :
    (setRefinement X s ref).calls
        = (if s.attached_ then [Call.clearCouple, Call.coupleInterface]
           else [Call.coupleInterface])
    ∧ (Call.clearCouple ∈ (setRefinement X s ref).calls ↔ s.attached_ = true)
    ∧ (setRefinement X s ref).calls.count Call.coupleInterface = 1
    ∧ Call.decoupleInterface ∉ (setRefinement X s ref).calls
    ∧ (setRefinement X s ref).ref
        = (if s.attached_ then
             (X.coupleInterface (X.clearCouple s ref).1
               (X.clearCouple s ref).2).2
           else (X.coupleInterface s ref).2)
    ∧ (setRefinement X s ref).self.trigger_ = false := by
  cases ha : s.attached_ <;> simp [setRefinement, h, ht, ha]

/-- Witness for C4 on an attached, triggered interface. -/
theorem setRefinement_triggered_witness :
    attachedTriggered.coupleDecouple_ = false
    ∧ attachedTriggered.trigger_ = true
    ∧ (setRefinement loggingCollaborators attachedTriggered []).calls
        = [Call.clearCouple, Call.coupleInterface]
    ∧ (setRefinement loggingCollaborators attachedTriggered []).self.trigger_
        = false :=
  ⟨rfl, rfl,
   (setRefinement_triggered loggingCollaborators attachedTriggered [] rfl
      rfl).1,
   (setRefinement_triggered loggingCollaborators attachedTriggered [] rfl
      rfl).2.2.2.2.2⟩

/-! ## Lemmas: failures and the loop -/

theorem index_error {α : Type} (xs : List α) (i : label) (f : Failure)
    (h : index xs i = .error f) : f = Failure.undefinedAccess := by
  unfold index at h
  split at h
  · split at h
    · cases h
    · cases h; rfl
  · cases h; rfl

theorem assign_error {α : Type} (xs : List α) (i : label) (v : α) (f : Failure)
    (h : assign xs i v = .error f) : f = Failure.undefinedAccess := by
  unfold assign at h
  split at h
  · cases h
  · cases h; rfl

theorem assign_ok {α : Type} (xs : List α) (i : label) (v : α)
    (h : 0 ≤ i ∧ i.toNat < xs.length) :
    assign xs i v = .ok (xs.set i.toNat v) := by
  unfold assign
  rw [if_pos h]

theorem findDeref_error {α : Type} (m : Map α) (k : label) (f : Failure)
    (h : Map.findDeref m k = .error f) : f = Failure.undefinedAccess := by
  unfold Map.findDeref at h
  split at h
  · cases h
  · cases h; rfl

theorem bind_error {α β : Type} (e : Except Failure α)
    (g : α → Except Failure β)
    (he : ∀ f, e = .error f → f = Failure.undefinedAccess)
    (hg : ∀ a f, g a = .error f → f = Failure.undefinedAccess) :
    ∀ f, (e >>= g) = .error f → f = Failure.undefinedAccess := by
  intro f h
  cases e with
  | error f' =>
    have : f' = f := by simpa [bind, Except.bind] using h
    subst this
    exact he _ rfl
  | ok a => exact hg a f h

theorem edge_line_error (e : edge) (points : List point) (f : Failure)
    (h : e.line points = .error f) : f = Failure.undefinedAccess := by
  unfold edge.line at h
  refine bind_error _ _ (index_error _ _) (fun a => ?_) f h
  refine bind_error _ _ (index_error _ _) (fun b f' h' => ?_)
  cases h'

theorem retiredCopy_error (m : MotionInput) (psp mp : List point)
    (pointi r : label) (f : Failure)
    (h : retiredCopy m psp mp pointi r = .error f) :
    f = Failure.undefinedAccess := by
  unfold retiredCopy at h
  refine bind_error _ _ (findDeref_error _ _) (fun k => ?_) f h
  refine bind_error _ _ (index_error _ _) (fun v => ?_)
  refine bind_error _ _ (index_error _ _) (fun t => ?_)
  refine bind_error _ _ (assign_error _ _ _) (fun t f' h' => ?_)
  cases h'

theorem edgeCut_error (G : Geometry) (m : MotionInput) (psp : List point)
    (pr : edge × edge) (f : Failure) (h : edgeCut G m psp pr = .error f) :
    f = Failure.undefinedAccess := by
  unfold edgeCut at h
  refine bind_error _ _ (index_error _ _) (fun _ => ?_) f h
  refine bind_error _ _ (index_error _ _) (fun _ => ?_)
  refine bind_error _ _ (index_error _ _) (fun _ => ?_)
  refine bind_error _ _ (index_error _ _) (fun _ => ?_)
  refine bind_error _ _ (index_error _ _) (fun _ => ?_)
  refine bind_error _ _ (index_error _ _) (fun _ => ?_)
  refine bind_error _ _ (index_error _ _) (fun _ => ?_)
  refine bind_error _ _ (index_error _ _) (fun _ => ?_)
  refine bind_error _ _ (edge_line_error _ _) (fun _ => ?_)
  refine bind_error _ _ (edge_line_error _ _) (fun _ f' h' => ?_)
  cases h'

theorem edgeCutApply_error (G : Geometry) (s : slidingInterface) (d : EdgeCut)
    (mp : List point) (pointi : label) (f : Failure)
    (h : edgeCutApply G s d mp pointi = .error f) :
    f = Failure.undefinedAccess := by
  unfold edgeCutApply at h
  split at h
  · split at h
    · split at h
      · split at h
        · cases h
        · rename_i f' hf
          cases h
          exact assign_error _ _ _ _ hf
      · cases h
    · cases h
  · cases h

theorem cutPointStep_retired (G : Geometry) (s : slidingInterface)
    (m : MotionInput) (psp mp : List point) (pointi r : label)
    (h : m.retiredPointMap.cfind pointi = some r) :
    cutPointStep G s m psp mp pointi = retiredCopy m psp mp pointi r := by
  unfold cutPointStep
  rw [h]

theorem cutPointStep_edge (G : Geometry) (s : slidingInterface)
    (m : MotionInput) (psp mp : List point) (pointi : label)
    (pr : edge × edge) (d : EdgeCut)
    (hr : m.retiredPointMap.cfind pointi = none)
    (hc : m.cutPointEdgePairMap.cfind pointi = some pr)
    (hd : edgeCut G m psp pr = .ok d) :
    cutPointStep G s m psp mp pointi = edgeCutApply G s d mp pointi := by
  unfold cutPointStep
  rw [hr, hc]
  simp only [hd]

theorem retiredCopy_event (m : MotionInput) (psp mp mp' : List point)
    (pointi r : label) (ev : Event)
    (h : retiredCopy m psp mp pointi r = .ok (mp', ev)) :
    ev = Event.retired pointi := by
  unfold retiredCopy at h
  simp only [bind, Except.bind, pure, Except.pure] at h
  repeat (split at h <;> try cases h)
  rfl

theorem edgeCutApply_event (G : Geometry) (s : slidingInterface) (d : EdgeCut)
    (mp mp' : List point) (pointi : label) (ev : Event)
    (h : edgeCutApply G s d mp pointi = .ok (mp', ev)) :
    ev.point = pointi ∧ ev ≠ Event.retired pointi := by
  unfold edgeCutApply at h
  repeat (split at h <;> try cases h)
  all_goals simp [Event.point]

/-- An event of the loop body is about the point visited, and it is the
retired-point event whenever the point is in the retired point map. -/
theorem cutPointStep_event (G : Geometry) (s : slidingInterface)
    (m : MotionInput) (psp mp mp' : List point) (pointi : label) (ev : Event)
    (h : cutPointStep G s m psp mp pointi = .ok (mp', ev)) :
    ev.point = pointi
    ∧ (m.retiredPointMap.cfind pointi ≠ none → ev = Event.retired pointi) := by
  unfold cutPointStep at h
  split at h
  · have := retiredCopy_event _ _ _ _ _ _ _ h
    subst this
    simp [Event.point]
  · rename_i hr
    split at h
    · split at h
      · exact ⟨(edgeCutApply_event _ _ _ _ _ _ _ h).1, fun hne => absurd hr hne⟩
      · cases h
    · cases h

/-- The loop body ends in the fatal error exactly for a point in neither
map. -/
theorem cutPointStep_notRecognised (G : Geometry) (s : slidingInterface)
    (m : MotionInput) (psp mp : List point) (pointi : label) :
    (∃ l, cutPointStep G s m psp mp pointi
        = .error (Failure.cutPointNotRecognised l))
    ↔ (m.retiredPointMap.cfind pointi = none
        ∧ m.cutPointEdgePairMap.cfind pointi = none) := by
  constructor
  · rintro ⟨l, h⟩
    unfold cutPointStep at h
    split at h
    · have := retiredCopy_error _ _ _ _ _ _ h
      cases this
    · rename_i hr
      split at h
      · split at h
        · have := edgeCutApply_error _ _ _ _ _ _ h
          cases this
        · rename_i f hf
          have := edgeCut_error _ _ _ _ _ hf
          subst this
          cases h
      · rename_i hc
        exact ⟨hr, hc⟩
  · rintro ⟨hr, hc⟩
    refine ⟨(index m.cutPoints pointi).toOption, ?_⟩
    unfold cutPointStep
    rw [hr, hc]

/-- The events of the loop extend the events so far, each new one coming from
the loop body at a point of the list. -/
theorem cutPointLoop_events (G : Geometry) (s : slidingInterface)
    (m : MotionInput) (psp : List point) (todo : List label) :
    ∀ (mp : List point) (evs : List Event) (mp' : List point)
      (evs' : List Event),
      cutPointLoop G s m psp todo mp evs = .ok (mp', evs') →
      ∃ new, evs' = evs ++ new ∧ ∀ ev ∈ new, ∃ p ∈ todo, ∃ mp1 mp2,
        cutPointStep G s m psp mp1 p = .ok (mp2, ev) := by
  induction todo with
  | nil =>
    intro mp evs mp' evs' h
    simp only [cutPointLoop] at h
    cases h
    exact ⟨[], by simp, by simp⟩
  | cons p rest ih =>
    intro mp evs mp' evs' h
    simp only [cutPointLoop] at h
    split at h
    · rename_i mp1 ev hstep
      obtain ⟨new, hnew, hall⟩ := ih _ _ _ _ h
      refine ⟨ev :: new, by simp [hnew], ?_⟩
      intro e he
      rcases List.mem_cons.mp he with rfl | he
      · exact ⟨p, by simp, mp, mp1, hstep⟩
      · obtain ⟨q, hq, a, b, hab⟩ := hall e he
        exact ⟨q, List.mem_cons_of_mem _ hq, a, b, hab⟩
    · cases h

/-- The loop ends in the fatal error only if some point of the list is in
neither map. -/
theorem cutPointLoop_notRecognised (G : Geometry) (s : slidingInterface)
    (m : MotionInput) (psp : List point) (todo : List label) :
    ∀ (mp : List point) (evs : List Event) (l : Option label),
      cutPointLoop G s m psp todo mp evs
        = .error (Failure.cutPointNotRecognised l) →
      ∃ p ∈ todo, m.retiredPointMap.cfind p = none
        ∧ m.cutPointEdgePairMap.cfind p = none := by
  induction todo with
  | nil =>
    intro mp evs l h
    simp only [cutPointLoop] at h
    cases h
  | cons p rest ih =>
    intro mp evs l h
    simp only [cutPointLoop] at h
    split at h
    · obtain ⟨q, hq, hh⟩ := ih _ _ _ h
      exact ⟨q, List.mem_cons_of_mem _ hq, hh⟩
    · rename_i f hstep
      cases h
      exact ⟨p, by simp, (cutPointStep_notRecognised G s m psp mp p).mp ⟨l, hstep⟩⟩

/-- The loop does not return when some point of the list is in neither map. -/
theorem cutPointLoop_unclassified (G : Geometry) (s : slidingInterface)
    (m : MotionInput) (psp : List point) (todo : List label) :
    ∀ (mp : List point) (evs : List Event),
      (∃ p ∈ todo, m.retiredPointMap.cfind p = none
        ∧ m.cutPointEdgePairMap.cfind p = none) →
      ∃ f, cutPointLoop G s m psp todo mp evs = .error f := by
  induction todo with
  | nil =>
    intro mp evs h
    obtain ⟨p, hp, _⟩ := h
    cases hp
  | cons p rest ih =>
    intro mp evs h
    obtain ⟨q, hq, hh⟩ := h
    simp only [cutPointLoop]
    cases hstep : cutPointStep G s m psp mp p with
    | error f => exact ⟨f, rfl⟩
    | ok r =>
      obtain ⟨mp1, ev⟩ := r
      rcases List.mem_cons.mp hq with rfl | hq
      · obtain ⟨l, hl⟩ := (cutPointStep_notRecognised G s m psp mp q).mpr hh
        rw [hl] at hstep
        cases hstep
      · exact ih _ _ ⟨q, hq, hh⟩

/-- Two inputs whose loop bodies agree on every point of the list give the
same loop. -/
theorem cutPointLoop_congr (G : Geometry) (s : slidingInterface)
    (m m' : MotionInput) (psp : List point) (todo : List label)
    (h : ∀ p ∈ todo, ∀ mp, cutPointStep G s m' psp mp p
      = cutPointStep G s m psp mp p) :
    ∀ (mp : List point) (evs : List Event),
      cutPointLoop G s m' psp todo mp evs
        = cutPointLoop G s m psp todo mp evs := by
  induction todo with
  | nil => intro mp evs; simp [cutPointLoop]
  | cons p rest ih =>
    intro mp evs
    simp only [cutPointLoop]
    rw [h p (by simp) mp]
    split
    · exact ih (fun q hq => h q (List.mem_cons_of_mem _ hq)) _ _
    · rfl

/-! ## Theorems: motion-point adjustment -/

/-- C5 fails on the code: with the zone `(1 0)` of two retired cut points the
call returns, the projected slave point of cut point 1 (slave point 2, at the
origin) is written to motion point 0, the entry `cutPoints[1]`, and motion
point 1 receives the projected slave point of cut point 0. -/
theorem retiredCopy_indexes_zone_by_label :
    modifyMotionPoints axisGeometry projectedInterface swappedZone sixPoints
      = .ok ([⟨0, 0, 0⟩, ⟨1, 0, 0⟩, ⟨0, 0, 0⟩, ⟨1, 0, 0⟩, ⟨1/2, -1, 0⟩,
              ⟨1/2, 1, 0⟩], [Event.retired 1, Event.retired 0])
    ∧ swappedZone.retiredPointMap.cfind 1 = some 2
    ∧ (swappedZone.slavePatch.meshPointMap.findDeref 2
        >>= index unitProjection) = .ok ⟨0, 0, 0⟩
    ∧ index swappedZone.cutPoints 1 = .ok 0 :=
  ⟨by with_unfolding_all rfl, rfl, by with_unfolding_all rfl, rfl⟩

/-- C6: a cut point with an entry in the retired point map is handled by the
retired-point branch whatever the cut point edge pair map holds for it: the
loop body is the copy of the projected slave point, replacing the edge pair
map by one that differs only at this point changes nothing in the outcome of
the call, and every event of the call about this point is the retired-point
event. -/
theorem retired_point_precedence (G : Geometry) (s : slidingInterface)
    (m : MotionInput) (motionPoints : List point) (pointi r : label)
    (h : m.retiredPointMap.cfind pointi = some r) :
    (∀ psp mp, cutPointStep G s m psp mp pointi
        = retiredCopy m psp mp pointi r)
    ∧ (∀ cpepm : Map (edge × edge),
        (∀ q, q ≠ pointi → Map.cfind cpepm q = m.cutPointEdgePairMap.cfind q) →
        modifyMotionPoints G s { m with cutPointEdgePairMap := cpepm }
            motionPoints
          = modifyMotionPoints G s m motionPoints)
    ∧ (∀ mp' evs, modifyMotionPoints G s m motionPoints = .ok (mp', evs) →
        ∀ ev ∈ evs, ev.point = pointi → ev = Event.retired pointi) := by
  refine ⟨fun psp mp => cutPointStep_retired G s m psp mp pointi r h, ?_, ?_⟩
  · intro cpepm hq
    unfold modifyMotionPoints
    simp only []
    split
    · rfl
    · apply cutPointLoop_congr
      intro p _ mp
      by_cases hp : p = pointi
      · subst hp
        rw [cutPointStep_retired G s m _ mp p r h,
          cutPointStep_retired G s { m with cutPointEdgePairMap := cpepm } _ mp
            p r h]
        rfl
      · unfold cutPointStep
        simp only [hq p hp]
        rfl
  · intro mp' evs hres ev hev hpt
    unfold modifyMotionPoints at hres
    split at hres
    · cases hres
      cases hev
    · obtain ⟨new, hnew, hall⟩ := cutPointLoop_events G s m _ _ _ _ _ _ hres
      rw [hnew, List.nil_append] at hev
      obtain ⟨p, _, mp1, mp2, hstep⟩ := hall ev hev
      have hp := cutPointStep_event G s m _ mp1 mp2 p ev hstep
      have hpp : p = pointi := hp.1.symm.trans hpt
      subst hpp
      exact hp.2 (by rw [h]; simp)

/-- Witness for C6: cut point 1 of the crossing zone is retired and also has
an edge pair; its only event is the retired-point event. -/
theorem retired_point_precedence_witness :
    (crossing (-1) 1 (1/2)).retiredPointMap.cfind 1 = some 2
    ∧ (crossing (-1) 1 (1/2)).cutPointEdgePairMap.cfind 1
        = some (⟨4, 5⟩, ⟨2, 3⟩)
    ∧ modifyMotionPoints axisGeometry projectedInterface
        (crossing (-1) 1 (1/2)) sixPoints
        = .ok ([⟨1/2, 0, 1/2⟩, ⟨0, 0, 0⟩, ⟨0, 0, 0⟩, ⟨1, 0, 0⟩, ⟨1/2, -1, 0⟩,
                ⟨1/2, 1, 0⟩], [Event.cutBoth 0, Event.retired 1])
    ∧ (∀ ev ∈ [Event.cutBoth 0, Event.retired 1],
        ev.point = 1 → ev = Event.retired 1) :=
  ⟨rfl, rfl, by with_unfolding_all rfl,
   (retired_point_precedence axisGeometry projectedInterface
      (crossing (-1) 1 (1/2)) sixPoints 1 2 rfl).2.2 _ _
      (by with_unfolding_all rfl)⟩

/-- C7: with projected points available, the fatal error "cut point not
recognised" is raised only if some cut point of the zone is in neither the
retired point map nor the cut point edge pair map, so it is not raised when
every cut point is in one of the two maps; when some cut point is in neither
map the call does not return, and unless it ends earlier in an access the
source leaves undefined it ends in this fatal error: for such calls the error
is raised if and only if some cut point is in neither map. -/
theorem notRecognised_iff_unclassified (G : Geometry) (s : slidingInterface)
    (m : MotionInput) (motionPoints psp : List point)
    (hp : s.projectedSlavePointsPtr_ = some psp) :
    (modifyMotionPoints G s m motionPoints ≠ .error Failure.undefinedAccess →
      ((∃ l, modifyMotionPoints G s m motionPoints
          = .error (Failure.cutPointNotRecognised l))
        ↔ ∃ p ∈ m.cutPoints, m.retiredPointMap.cfind p = none
            ∧ m.cutPointEdgePairMap.cfind p = none))
    ∧ ((∃ l, modifyMotionPoints G s m motionPoints
          = .error (Failure.cutPointNotRecognised l)) →
        ∃ p ∈ m.cutPoints, m.retiredPointMap.cfind p = none
          ∧ m.cutPointEdgePairMap.cfind p = none)
    ∧ ((∀ p ∈ m.cutPoints, m.retiredPointMap.cfind p ≠ none
          ∨ m.cutPointEdgePairMap.cfind p ≠ none) →
        ∀ l, modifyMotionPoints G s m motionPoints
          ≠ .error (Failure.cutPointNotRecognised l))
    ∧ ((∃ p ∈ m.cutPoints, m.retiredPointMap.cfind p = none
          ∧ m.cutPointEdgePairMap.cfind p = none) →
        ∀ r, modifyMotionPoints G s m motionPoints ≠ .ok r) := by
  have hrun : modifyMotionPoints G s m motionPoints
      = cutPointLoop G s m psp m.cutPoints motionPoints [] := by
    unfold modifyMotionPoints
    simp [hp]
  have hfwd : (∃ l, modifyMotionPoints G s m motionPoints
      = .error (Failure.cutPointNotRecognised l)) →
      ∃ p ∈ m.cutPoints, m.retiredPointMap.cfind p = none
        ∧ m.cutPointEdgePairMap.cfind p = none := by
    rintro ⟨l, hl⟩
    rw [hrun] at hl
    exact cutPointLoop_notRecognised G s m psp _ _ _ _ hl
  have hfail : (∃ p ∈ m.cutPoints, m.retiredPointMap.cfind p = none
      ∧ m.cutPointEdgePairMap.cfind p = none) →
      ∃ f, modifyMotionPoints G s m motionPoints = .error f := by
    intro hex
    rw [hrun]
    exact cutPointLoop_unclassified G s m psp _ motionPoints [] hex
  refine ⟨fun hdef => ⟨hfwd, ?_⟩, hfwd, ?_, ?_⟩
  · intro hex
    obtain ⟨f, hf⟩ := hfail hex
    cases f with
    | cutPointNotRecognised l => exact ⟨l, hf⟩
    | undefinedAccess => exact absurd hf hdef
  · intro hall l hl
    obtain ⟨p, hpm, hr, hc⟩ := hfwd ⟨l, hl⟩
    rcases hall p hpm with h1 | h1
    · exact h1 hr
    · exact h1 hc
  · intro hex r hr
    obtain ⟨f, hf⟩ := hfail hex
    rw [hf] at hr
    cases hr

/-- Witness for C7: cut point 0 is in neither map and the fatal error is
raised. -/
theorem notRecognised_iff_unclassified_witness :
    projectedInterface.projectedSlavePointsPtr_ = some unitProjection
    ∧ modifyMotionPoints axisGeometry projectedInterface unclassified sixPoints
        = .error (Failure.cutPointNotRecognised (some 0))
    ∧ ((∃ l, modifyMotionPoints axisGeometry projectedInterface unclassified
          sixPoints = .error (Failure.cutPointNotRecognised l))
        ↔ ∃ p ∈ unclassified.cutPoints,
            unclassified.retiredPointMap.cfind p = none
            ∧ unclassified.cutPointEdgePairMap.cfind p = none) :=
  ⟨rfl, by with_unfolding_all rfl,
   (notRecognised_iff_unclassified axisGeometry projectedInterface unclassified
      sixPoints unitProjection rfl).1
      (by
        rw [show modifyMotionPoints axisGeometry projectedInterface
            unclassified sixPoints
            = .error (Failure.cutPointNotRecognised (some 0)) from
          by with_unfolding_all rfl]
        intro h
        cases h)⟩

/-- C8 fails on the code: the master edge of this input is cut at the
fraction -1, outside the end cut-off interval, and the call raises no fatal
error; it leaves motion point 0 as it was, goes on to cut point 1 and
returns. -/
theorem missed_master_edge_is_not_fatal :
    (EdgeCut.cutOnMaster <$>
        edgeCut axisGeometry (crossing 1 2 0) unitProjection
          (⟨4, 5⟩, ⟨2, 3⟩)) = .ok (-1)
    ∧ ¬ (projectedInterface.edgeEndCutoffTol_ < (-1 : scalar))
    ∧ modifyMotionPoints axisGeometry projectedInterface (crossing 1 2 0)
        sixPoints
        = .ok ([⟨7, 7, 7⟩, ⟨0, 0, 0⟩, ⟨0, 0, 0⟩, ⟨1, 0, 0⟩, ⟨1/2, -1, 0⟩,
                ⟨1/2, 1, 0⟩], [Event.missedMasterEdge 0, Event.retired 1]) :=
  ⟨by with_unfolding_all rfl, by with_unfolding_all decide,
   by with_unfolding_all rfl⟩

/-- C8 as amended: for a cut point backed by an edge pair, a master cut
fraction outside the end cut-off interval, a nearest-point query that does
not hit the slave edge, and a failed slave fraction or co-planarity test each
leave the motion points as they are and raise no error (the first two write
a message); the loop goes on with the remaining cut points. -/
theorem failed_edge_checks_continue (G : Geometry) (s : slidingInterface)
    (m : MotionInput) (psp : List point) (pointi : label) (pr : edge × edge)
    (d : EdgeCut) (hr : m.retiredPointMap.cfind pointi = none)
    (hc : m.cutPointEdgePairMap.cfind pointi = some pr)
    (hd : edgeCut G m psp pr = .ok d) :
    (¬ (d.cutOnMaster > s.edgeEndCutoffTol_
          ∧ d.cutOnMaster < 1 - s.edgeEndCutoffTol_) →
      ∀ todo mp evs,
        cutPointStep G s m psp mp pointi
          = .ok (mp, Event.missedMasterEdge pointi)
        ∧ cutPointLoop G s m psp (pointi :: todo) mp evs
          = cutPointLoop G s m psp todo mp
              (evs ++ [Event.missedMasterEdge pointi]))
    ∧ ((d.cutOnMaster > s.edgeEndCutoffTol_
          ∧ d.cutOnMaster < 1 - s.edgeEndCutoffTol_) →
        (d.slaveCut G).hit = false →
      ∀ todo mp evs,
        cutPointStep G s m psp mp pointi
          = .ok (mp, Event.missedSlaveEdge pointi)
        ∧ cutPointLoop G s m psp (pointi :: todo) mp evs
          = cutPointLoop G s m psp todo mp
              (evs ++ [Event.missedSlaveEdge pointi]))
    ∧ ((d.cutOnMaster > s.edgeEndCutoffTol_
          ∧ d.cutOnMaster < 1 - s.edgeEndCutoffTol_) →
        (d.slaveCut G).hit = true →
        ¬ (d.cutOnSlave G > s.edgeEndCutoffTol_
            ∧ d.cutOnSlave G < 1 - s.edgeEndCutoffTol_
            ∧ (d.slaveCut G).distance < d.mergeTol G s) →
      ∀ todo mp evs,
        cutPointStep G s m psp mp pointi
          = .ok (mp, Event.slaveRejected pointi)
        ∧ cutPointLoop G s m psp (pointi :: todo) mp evs
          = cutPointLoop G s m psp todo mp
              (evs ++ [Event.slaveRejected pointi])) := by
  have key : ∀ mp ev, cutPointStep G s m psp mp pointi = .ok (mp, ev) →
      ∀ todo evs, cutPointLoop G s m psp (pointi :: todo) mp evs
        = cutPointLoop G s m psp todo mp (evs ++ [ev]) := by
    intro mp ev hstep todo evs
    simp only [cutPointLoop, hstep]
  refine ⟨?_, ?_, ?_⟩
  · intro hm todo mp evs
    have hstep : cutPointStep G s m psp mp pointi
        = .ok (mp, Event.missedMasterEdge pointi) := by
      rw [cutPointStep_edge G s m psp mp pointi pr d hr hc hd]
      unfold edgeCutApply
      rw [if_neg hm]
    exact ⟨hstep, key mp _ hstep todo evs⟩
  · intro hm hh todo mp evs
    have hstep : cutPointStep G s m psp mp pointi
        = .ok (mp, Event.missedSlaveEdge pointi) := by
      rw [cutPointStep_edge G s m psp mp pointi pr d hr hc hd]
      unfold edgeCutApply
      rw [if_pos hm]
      simp [hh]
    exact ⟨hstep, key mp _ hstep todo evs⟩
  · intro hm hh hs todo mp evs
    have hstep : cutPointStep G s m psp mp pointi
        = .ok (mp, Event.slaveRejected pointi) := by
      rw [cutPointStep_edge G s m psp mp pointi pr d hr hc hd]
      unfold edgeCutApply
      rw [if_pos hm, if_pos hh, if_neg hs]
    exact ⟨hstep, key mp _ hstep todo evs⟩

/-- Witness for the amended C8: the master edge missed at fraction -1. -/
theorem failed_edge_checks_continue_witness :
    (crossing 1 2 0).retiredPointMap.cfind 0 = none
    ∧ (crossing 1 2 0).cutPointEdgePairMap.cfind 0 = some (⟨4, 5⟩, ⟨2, 3⟩)
    ∧ edgeCut axisGeometry (crossing 1 2 0) unitProjection (⟨4, 5⟩, ⟨2, 3⟩)
        = .ok (masterCut 1 2 0 (-1))
    ∧ ¬ ((masterCut 1 2 0 (-1)).cutOnMaster
            > projectedInterface.edgeEndCutoffTol_
          ∧ (masterCut 1 2 0 (-1)).cutOnMaster
            < 1 - projectedInterface.edgeEndCutoffTol_)
    ∧ cutPointStep axisGeometry projectedInterface (crossing 1 2 0)
        unitProjection sixPoints 0
        = .ok (sixPoints, Event.missedMasterEdge 0) :=
  ⟨rfl, rfl, by with_unfolding_all rfl, by with_unfolding_all decide,
   ((failed_edge_checks_continue axisGeometry projectedInterface
      (crossing 1 2 0) unitProjection 0 (⟨4, 5⟩, ⟨2, 3⟩) (masterCut 1 2 0 (-1))
      rfl rfl (by with_unfolding_all rfl)).1
      (by with_unfolding_all decide) [] sixPoints []).1⟩

/-- C9: for a cut point backed by an edge pair, the master cut is accepted
(the slave edge is examined) if and only if the fraction lies strictly
between `edgeEndCutoffTol_` and `1 - edgeEndCutoffTol_`; a fraction equal to
either bound is a missed master edge.  Once the master cut is accepted, the
slave edge is hit, the distance is within the merge tolerance and the label
indexes the motion points, the master cut point is written if and only if the
slave fraction lies strictly between the same two bounds; a slave fraction
equal to either bound writes nothing. -/
theorem endCutoff_is_strict (G : Geometry) (s : slidingInterface)
    (m : MotionInput) (psp mp : List point) (pointi : label)
    (pr : edge × edge) (d : EdgeCut)
    (hr : m.retiredPointMap.cfind pointi = none)
    (hc : m.cutPointEdgePairMap.cfind pointi = some pr)
    (hd : edgeCut G m psp pr = .ok d) :
    (cutPointStep G s m psp mp pointi ≠ .ok (mp, Event.missedMasterEdge pointi)
      ↔ (s.edgeEndCutoffTol_ < d.cutOnMaster
          ∧ d.cutOnMaster < 1 - s.edgeEndCutoffTol_))
    ∧ (d.cutOnMaster = s.edgeEndCutoffTol_
          ∨ d.cutOnMaster = 1 - s.edgeEndCutoffTol_ →
        cutPointStep G s m psp mp pointi
          = .ok (mp, Event.missedMasterEdge pointi))
    ∧ ((s.edgeEndCutoffTol_ < d.cutOnMaster
          ∧ d.cutOnMaster < 1 - s.edgeEndCutoffTol_) →
        (d.slaveCut G).hit = true →
        (d.slaveCut G).distance < d.mergeTol G s →
        (0 ≤ pointi ∧ pointi.toNat < mp.length) →
        (cutPointStep G s m psp mp pointi
            = .ok (mp.set pointi.toNat d.masterCutPoint, Event.cutBoth pointi)
          ↔ (s.edgeEndCutoffTol_ < d.cutOnSlave G
              ∧ d.cutOnSlave G < 1 - s.edgeEndCutoffTol_))
        ∧ (d.cutOnSlave G = s.edgeEndCutoffTol_
              ∨ d.cutOnSlave G = 1 - s.edgeEndCutoffTol_ →
            cutPointStep G s m psp mp pointi
              = .ok (mp, Event.slaveRejected pointi))) := by
  rw [cutPointStep_edge G s m psp mp pointi pr d hr hc hd]
  have hout : ¬ (d.cutOnMaster > s.edgeEndCutoffTol_
        ∧ d.cutOnMaster < 1 - s.edgeEndCutoffTol_) →
      edgeCutApply G s d mp pointi
        = .ok (mp, Event.missedMasterEdge pointi) := by
    intro hm
    unfold edgeCutApply
    rw [if_neg hm]
  refine ⟨⟨?_, ?_⟩, ?_, ?_⟩
  · intro hne
    by_contra hm
    exact hne (hout hm)
  · intro hm heq
    unfold edgeCutApply at heq
    rw [if_pos hm] at heq
    repeat (split at heq <;> try cases heq)
  · intro hb
    apply hout
    rintro ⟨h1, h2⟩
    rcases hb with hb | hb
    · rw [hb] at h1; exact lt_irrefl _ h1
    · rw [hb] at h2; exact lt_irrefl _ h2
  · intro hm hh hdist hi
    have hin : (s.edgeEndCutoffTol_ < d.cutOnSlave G
          ∧ d.cutOnSlave G < 1 - s.edgeEndCutoffTol_) →
        edgeCutApply G s d mp pointi
          = .ok (mp.set pointi.toNat d.masterCutPoint, Event.cutBoth pointi) := by
      intro hsl
      unfold edgeCutApply
      rw [if_pos hm, if_pos hh, if_pos ⟨hsl.1, hsl.2, hdist⟩, assign_ok _ _ _ hi]
    have hrej : ¬ (s.edgeEndCutoffTol_ < d.cutOnSlave G
          ∧ d.cutOnSlave G < 1 - s.edgeEndCutoffTol_) →
        edgeCutApply G s d mp pointi
          = .ok (mp, Event.slaveRejected pointi) := by
      intro hsl
      unfold edgeCutApply
      rw [if_pos hm, if_pos hh, if_neg (fun h3 => hsl ⟨h3.1, h3.2.1⟩)]
    refine ⟨⟨?_, hin⟩, ?_⟩
    · intro heq
      by_contra hsl
      rw [hrej hsl] at heq
      simp at heq
    · intro hb
      apply hrej
      rintro ⟨h1, h2⟩
      rcases hb with hb | hb
      · rw [hb] at h1; exact lt_irrefl _ h1
      · rw [hb] at h2; exact lt_irrefl _ h2

/-- Witness for C9: master and slave edge of the crossing zone are both cut
half way, strictly inside the interval from 1/10 to 9/10. -/
theorem endCutoff_is_strict_witness :
    (crossing (-1) 1 (1/2)).retiredPointMap.cfind 0 = none
    ∧ (crossing (-1) 1 (1/2)).cutPointEdgePairMap.cfind 0
        = some (⟨4, 5⟩, ⟨2, 3⟩)
    ∧ edgeCut axisGeometry (crossing (-1) 1 (1/2)) unitProjection
        (⟨4, 5⟩, ⟨2, 3⟩) = .ok (masterCut (-1) 1 (1/2) (1/2))
    ∧ (cutPointStep axisGeometry projectedInterface (crossing (-1) 1 (1/2))
          unitProjection sixPoints 0
        ≠ .ok (sixPoints, Event.missedMasterEdge 0)
      ↔ (projectedInterface.edgeEndCutoffTol_
            < (masterCut (-1) 1 (1/2) (1/2)).cutOnMaster
          ∧ (masterCut (-1) 1 (1/2) (1/2)).cutOnMaster
            < 1 - projectedInterface.edgeEndCutoffTol_)) :=
  ⟨rfl, rfl, by with_unfolding_all rfl,
   (endCutoff_is_strict axisGeometry projectedInterface
      (crossing (-1) 1 (1/2)) unitProjection sixPoints 0 (⟨4, 5⟩, ⟨2, 3⟩)
      (masterCut (-1) 1 (1/2) (1/2)) rfl rfl (by with_unfolding_all rfl)).1⟩

/-- C10 fails on the code: the master cut point (1/2, 0, 4/5) lies at the
distance 4/5 from the slave edge, exactly `edgeCoPlanarTol_` (4/5) times the
length 1 of the projected slave edge, with both fractions 1/2; the call
returns and motion point 0 is not written. -/
theorem coPlanar_boundary_is_rejected :
    edgeCut axisGeometry (crossing (-1) 1 (4/5)) unitProjection
        (⟨4, 5⟩, ⟨2, 3⟩) = .ok (masterCut (-1) 1 (4/5) (1/2))
    ∧ (masterCut (-1) 1 (4/5) (1/2)).masterCutPoint = ⟨1/2, 0, 4/5⟩
    ∧ (masterCut (-1) 1 (4/5) (1/2)).slaveCut axisGeometry
        = ⟨true, ⟨1/2, 0, 0⟩, 4/5⟩
    ∧ (masterCut (-1) 1 (4/5) (1/2)).cutOnSlave axisGeometry = 1/2
    ∧ (masterCut (-1) 1 (4/5) (1/2)).mergeTol axisGeometry projectedInterface
        = 4/5
    ∧ projectedInterface.edgeCoPlanarTol_
        * axisGeometry.mag ((⟨1, 0, 0⟩ : point).sub ⟨0, 0, 0⟩) = 4/5
    ∧ modifyMotionPoints axisGeometry projectedInterface
        (crossing (-1) 1 (4/5)) sixPoints
        = .ok ([⟨7, 7, 7⟩, ⟨0, 0, 0⟩, ⟨0, 0, 0⟩, ⟨1, 0, 0⟩, ⟨1/2, -1, 0⟩,
                ⟨1/2, 1, 0⟩], [Event.slaveRejected 0, Event.retired 1]) :=
  ⟨by with_unfolding_all rfl, by with_unfolding_all rfl,
   by with_unfolding_all rfl, by with_unfolding_all rfl,
   by with_unfolding_all rfl, by with_unfolding_all rfl,
   by with_unfolding_all rfl⟩

/-- C10 as amended: for a cut point backed by an edge pair, with both cut
fractions strictly inside the end cut-off interval, the slave edge hit and
the label indexing the motion points, the master cut point is written when
its distance to the slave edge is strictly below `edgeCoPlanarTol_` times the
length of the projected slave edge; at exactly that distance, and at any
larger one, nothing is written and the call goes on. -/
theorem coPlanar_is_strict (G : Geometry) (s : slidingInterface)
    (m : MotionInput) (psp mp : List point) (pointi : label)
    (pr : edge × edge) (d : EdgeCut)
    (hr : m.retiredPointMap.cfind pointi = none)
    (hc : m.cutPointEdgePairMap.cfind pointi = some pr)
    (hd : edgeCut G m psp pr = .ok d)
    (hm : s.edgeEndCutoffTol_ < d.cutOnMaster
      ∧ d.cutOnMaster < 1 - s.edgeEndCutoffTol_)
    (hh : (d.slaveCut G).hit = true)
    (hs : s.edgeEndCutoffTol_ < d.cutOnSlave G
      ∧ d.cutOnSlave G < 1 - s.edgeEndCutoffTol_)
    (hi : 0 ≤ pointi ∧ pointi.toNat < mp.length) :
    ((d.slaveCut G).distance < s.edgeCoPlanarTol_ * G.mag (d.b.sub d.a) →
      cutPointStep G s m psp mp pointi
        = .ok (mp.set pointi.toNat d.masterCutPoint, Event.cutBoth pointi))
    ∧ (s.edgeCoPlanarTol_ * G.mag (d.b.sub d.a) ≤ (d.slaveCut G).distance →
      cutPointStep G s m psp mp pointi
        = .ok (mp, Event.slaveRejected pointi)) := by
  rw [cutPointStep_edge G s m psp mp pointi pr d hr hc hd]
  constructor
  · intro hdist
    unfold edgeCutApply
    rw [if_pos hm, if_pos hh, if_pos ⟨hs.1, hs.2, hdist⟩, assign_ok _ _ _ hi]
  · intro hdist
    unfold edgeCutApply
    rw [if_pos hm, if_pos hh,
      if_neg (fun h3 => absurd h3.2.2 (not_lt.mpr hdist))]

/-- Witness for the amended C10: at the distance 1/2, below the tolerance
4/5, the master cut point is written to motion point 0. -/
theorem coPlanar_is_strict_witness :
    (crossing (-1) 1 (1/2)).retiredPointMap.cfind 0 = none
    ∧ (crossing (-1) 1 (1/2)).cutPointEdgePairMap.cfind 0
        = some (⟨4, 5⟩, ⟨2, 3⟩)
    ∧ edgeCut axisGeometry (crossing (-1) 1 (1/2)) unitProjection
        (⟨4, 5⟩, ⟨2, 3⟩) = .ok (masterCut (-1) 1 (1/2) (1/2))
    ∧ ((masterCut (-1) 1 (1/2) (1/2)).slaveCut axisGeometry).distance
        < projectedInterface.edgeCoPlanarTol_
          * axisGeometry.mag ((masterCut (-1) 1 (1/2) (1/2)).b.sub
              (masterCut (-1) 1 (1/2) (1/2)).a)
    ∧ cutPointStep axisGeometry projectedInterface (crossing (-1) 1 (1/2))
        unitProjection sixPoints 0
        = .ok (sixPoints.set 0 (masterCut (-1) 1 (1/2) (1/2)).masterCutPoint,
            Event.cutBoth 0) :=
  ⟨rfl, rfl, by with_unfolding_all rfl, by with_unfolding_all decide,
   (coPlanar_is_strict axisGeometry projectedInterface (crossing (-1) 1 (1/2))
      unitProjection sixPoints 0 (⟨4, 5⟩, ⟨2, 3⟩)
      (masterCut (-1) 1 (1/2) (1/2)) rfl rfl (by with_unfolding_all rfl)
      (by with_unfolding_all decide) (by with_unfolding_all rfl)
      (by with_unfolding_all decide) (by decide)).1
      (by with_unfolding_all decide)⟩

/-! ## Theorems: definition check and construction -/

theorem checkDefinition_inactive (s : slidingInterface) (mesh : polyMesh)
    (h : ¬ s.allActive) : checkDefinition s mesh = .error .zonesNotFound := by
  unfold checkDefinition
  rw [if_pos]
  unfold slidingInterface.allActive at h
  revert h
  cases s.masterFaceZoneID_.active <;> cases s.slaveFaceZoneID_.active <;>
    cases s.cutPointZoneID_.active <;> cases s.cutFaceZoneID_.active <;>
    cases s.masterPatchID_.active <;> cases s.slavePatchID_.active <;> simp

theorem checkDefinition_active (s : slidingInterface) (mesh : polyMesh)
    (h : s.allActive) :
    checkDefinition s mesh =
      match zoneAt mesh.faceZones s.masterFaceZoneID_.index with
      | .error f => .error f
      | .ok masterZone =>
        if masterZone.labels.isEmpty then .error .emptyFaceZone
        else
          match zoneAt mesh.faceZones s.slaveFaceZoneID_.index with
          | .error f => .error f
          | .ok slaveZone =>
            if slaveZone.labels.isEmpty then .error .emptyFaceZone
            else .ok () := by
  unfold checkDefinition
  obtain ⟨h1, h2, h3, h4, h5, h6⟩ := h
  simp [h1, h2, h3, h4, h5, h6]

/-- C11: for master and slave identifiers that, when active, index the zones
`mz` and `sz` of the face zone list, `checkDefinition` raises one of its two fatal errors if and only if
one of the six identifiers is not active, or all six are active and the
master or the slave face zone is empty; the first error is raised exactly
when an identifier is not active; with all six active and both zones
non-empty it returns; and the outcome does not depend on the point zones or
on the labels held by any other face zone. -/
theorem checkDefinition_fatal_iff (s : slidingInterface) (mesh : polyMesh)
    (mz sz : zone)
    (hm : s.masterFaceZoneID_.active = true →
      zoneAt mesh.faceZones s.masterFaceZoneID_.index = .ok mz)
    (hs : s.slaveFaceZoneID_.active = true →
      zoneAt mesh.faceZones s.slaveFaceZoneID_.index = .ok sz) :
    ((checkDefinition s mesh = .error .zonesNotFound
        ∨ checkDefinition s mesh = .error .emptyFaceZone)
      ↔ (¬ s.allActive ∨ (s.allActive ∧ (mz.labels = [] ∨ sz.labels = []))))
    ∧ (checkDefinition s mesh = .error .zonesNotFound ↔ ¬ s.allActive)
    ∧ (s.allActive → mz.labels ≠ [] → sz.labels ≠ [] →
        checkDefinition s mesh = .ok ())
    ∧ (∀ mesh' : polyMesh,
        zoneAt mesh'.faceZones s.masterFaceZoneID_.index = .ok mz →
        zoneAt mesh'.faceZones s.slaveFaceZoneID_.index = .ok sz →
        checkDefinition s mesh' = checkDefinition s mesh) := by
  have hact : ∀ msh : polyMesh,
      zoneAt msh.faceZones s.masterFaceZoneID_.index = .ok mz →
      zoneAt msh.faceZones s.slaveFaceZoneID_.index = .ok sz →
      s.allActive →
      checkDefinition s msh =
        if mz.labels.isEmpty then .error .emptyFaceZone
        else if sz.labels.isEmpty then .error .emptyFaceZone else .ok () := by
    intro msh h1 h2 hA
    rw [checkDefinition_active s msh hA]
    simp only [h1, h2]
  by_cases hA : s.allActive
  · have hc := hact mesh (hm hA.1) (hs hA.2.1) hA
    refine ⟨?_, ?_, ?_, ?_⟩
    · rw [hc]
      cases hmz : mz.labels <;> cases hsz : sz.labels <;> simp [hA]
    · rw [hc]
      cases hmz : mz.labels <;> cases hsz : sz.labels <;> simp [hA]
    · intro _ h1 h2
      rw [hc]
      cases hmz : mz.labels <;> cases hsz : sz.labels <;> simp_all
    · intro mesh' h1 h2
      rw [hc, hact mesh' h1 h2 hA]
  · have hc := checkDefinition_inactive s mesh hA
    refine ⟨?_, ?_, ?_, ?_⟩
    · simp [hc, hA]
    · simp [hc, hA]
    · intro h
      exact absurd h hA
    · intro mesh' _ _
      rw [hc, checkDefinition_inactive s mesh' hA]

/-- Witness for C11: on the mesh with an emptied slave zone the check fails
with the empty-zone error although all six identifiers are active; on the
mesh of the examples it returns. -/
theorem checkDefinition_fatal_iff_witness :
    zoneAt emptySlaveMesh.faceZones exampleObject.masterFaceZoneID_.index
        = .ok ⟨"masterZone", [0, 1]⟩
    ∧ zoneAt emptySlaveMesh.faceZones exampleObject.slaveFaceZoneID_.index
        = .ok ⟨"slaveZone", []⟩
    ∧ checkDefinition exampleObject emptySlaveMesh = .error .emptyFaceZone
    ∧ checkDefinition exampleObject exampleMesh = .ok ()
    ∧ (checkDefinition exampleObject emptySlaveMesh = .error .zonesNotFound
        ↔ ¬ exampleObject.allActive) :=
  ⟨by with_unfolding_all rfl, by with_unfolding_all rfl,
   by with_unfolding_all rfl, by with_unfolding_all rfl,
   (checkDefinition_fatal_iff exampleObject emptySlaveMesh
      ⟨"masterZone", [0, 1]⟩ ⟨"slaveZone", []⟩
      (fun _ => by with_unfolding_all rfl)
      (fun _ => by with_unfolding_all rfl)).2.1⟩

theorem zoneAt_error (zones : List zone) (i : label) (f : DefinitionFailure)
    (h : zoneAt zones i = .error f) : f = DefinitionFailure.undefinedAccess := by
  unfold zoneAt at h
  split at h
  · cases h
  · cases h; rfl

theorem checkDefinition_error (s : slidingInterface) (mesh : polyMesh)
    (f : DefinitionFailure) (h : checkDefinition s mesh = .error f) :
    f = DefinitionFailure.zonesNotFound ∨ f = DefinitionFailure.emptyFaceZone
      ∨ f = DefinitionFailure.undefinedAccess := by
  unfold checkDefinition at h
  split at h
  · cases h; exact Or.inl rfl
  · split at h
    · rename_i f' hz
      cases h
      exact Or.inr (Or.inr (zoneAt_error _ _ _ hz))
    · split at h
      · cases h; exact Or.inr (Or.inl rfl)
      · split at h
        · rename_i f' hz
          cases h
          exact Or.inr (Or.inr (zoneAt_error _ _ _ hz))
        · split at h
          · cases h; exact Or.inr (Or.inl rfl)
          · cases h

/-- C12: the constructor from components never raises the "attached state
not supported" error; a failed definition check is the failure of the
constructor; and for arguments that pass the check it returns the object of
its initialiser list, which is detached, has the trigger false and the eight
defaults as tolerances, after one call of `calcAttachedAddressing`.  When that
call leaves the two flags and the tolerances as they are, the constructed
object is detached, not triggered and holds the eight defaults. -/
theorem fromComponents_detached_defaults (D : Tolerances)
    (addressing : slidingInterface → slidingInterface) (mesh : polyMesh)
    (n : InterfaceNames) (tom : typeOfMatch) (coupleDecouple : Bool)
    (algo : label) :
    fromComponents D addressing mesh n tom coupleDecouple algo
      ≠ .error .attachedFromComponents
    ∧ (∀ f, checkDefinition
          (initialObject mesh true n tom coupleDecouple false algo D) mesh
            = .error f →
        fromComponents D addressing mesh n tom coupleDecouple algo = .error f)
    ∧ (checkDefinition
          (initialObject mesh true n tom coupleDecouple false algo D) mesh
            = .ok () →
        fromComponents D addressing mesh n tom coupleDecouple algo
          = .ok ⟨addressing (initialObject mesh true n tom coupleDecouple false algo
              D), [Call.calcAttachedAddressing]⟩
        ∧ (initialObject mesh true n tom coupleDecouple false algo
            D).attached_ = false
        ∧ (initialObject mesh true n tom coupleDecouple false algo
            D).trigger_ = false
        ∧ (initialObject mesh true n tom coupleDecouple false algo
            D).tolerances = D
        ∧ ((∀ t, (addressing t).attached_ = t.attached_
              ∧ (addressing t).trigger_ = t.trigger_
              ∧ (addressing t).tolerances = t.tolerances) →
            ∃ c, fromComponents D addressing mesh n tom coupleDecouple algo = .ok c
              ∧ c.self.attached_ = false ∧ c.self.trigger_ = false
              ∧ c.self.tolerances = D
              ∧ c.calls = [Call.calcAttachedAddressing])) := by
  have hdet : (initialObject mesh true n tom coupleDecouple false algo
      D).attached_ = false := rfl
  refine ⟨?_, ?_, ?_⟩
  · unfold fromComponents
    simp only [hdet]
    cases hc : checkDefinition
        (initialObject mesh true n tom coupleDecouple false algo D) mesh with
    | error f =>
      simp only []
      intro h
      injection h with h
      subst h
      rcases checkDefinition_error _ _ _ hc with h1 | h1 | h1 <;> cases h1
    | ok u => simp
  · intro f hf
    unfold fromComponents
    simp only [hf]
  · intro hok
    have hres : fromComponents D addressing mesh n tom coupleDecouple algo
        = .ok ⟨addressing (initialObject mesh true n tom coupleDecouple false algo
            D), [Call.calcAttachedAddressing]⟩ := by
      unfold fromComponents
      simp only [hok, hdet]
      rfl
    refine ⟨hres, rfl, rfl, rfl, ?_⟩
    intro hframe
    refine ⟨_, hres, ?_, ?_, ?_, rfl⟩
    · rw [(hframe _).1]; rfl
    · rw [(hframe _).2.1]; rfl
    · rw [(hframe _).2.2]; rfl

/-- Witness for C12 on the mesh of the examples. -/
theorem fromComponents_detached_defaults_witness :
    checkDefinition
        (initialObject exampleMesh true exampleNames typeOfMatch.INTEGRAL true
          false 0 exampleDefaults) exampleMesh = .ok ()
    ∧ fromComponents exampleDefaults exampleAddressing exampleMesh exampleNames
        typeOfMatch.INTEGRAL true 0
        = .ok ⟨exampleAddressing (initialObject exampleMesh true exampleNames
            typeOfMatch.INTEGRAL true false 0 exampleDefaults),
          [Call.calcAttachedAddressing]⟩ :=
  ⟨by with_unfolding_all rfl,
   ((fromComponents_detached_defaults exampleDefaults exampleAddressing
      exampleMesh exampleNames typeOfMatch.INTEGRAL true 0).2.2
      (by with_unfolding_all rfl)).1⟩

theorem getOrDefaultScalar_ok (dict : dictionary) (key : word)
    (deflt v : scalar) (h : dict.getOrDefaultScalar key deflt = .ok v) :
    (dict.found key = none ∧ v = deflt)
      ∨ dict.found key = some (entry.scalar v) := by
  unfold dictionary.getOrDefaultScalar at h
  split at h
  · rename_i hf
    cases h
    exact Or.inl ⟨hf, rfl⟩
  · rename_i w hf
    cases h
    exact Or.inr hf
  · cases h

theorem getOrDefaultLabel_ok (dict : dictionary) (key : word)
    (deflt v : label) (h : dict.getOrDefaultLabel key deflt = .ok v) :
    (dict.found key = none ∧ v = deflt)
      ∨ dict.found key = some (entry.label v) := by
  unfold dictionary.getOrDefaultLabel at h
  split at h
  · rename_i hf
    cases h
    exact Or.inl ⟨hf, rfl⟩
  · rename_i w hf
    cases h
    exact Or.inr hf
  · cases h

/-- What `setTolerances` does to each tolerance member: it takes the value of
the entry when the keyword is present and keeps the value it holds when the
keyword is absent. -/
theorem setTolerances_ok (dict : dictionary) (s s' : slidingInterface)
    (h : setTolerances dict s = .ok s') :
    ((dict.found "pointMergeTol" = none ∧ s'.pointMergeTol_ = s.pointMergeTol_)
      ∨ dict.found "pointMergeTol" = some (entry.scalar s'.pointMergeTol_))
    ∧ ((dict.found "edgeMergeTol" = none
          ∧ s'.edgeMergeTol_ = s.edgeMergeTol_)
      ∨ dict.found "edgeMergeTol" = some (entry.scalar s'.edgeMergeTol_))
    ∧ ((dict.found "nFacesPerSlaveEdge" = none
          ∧ s'.nFacesPerSlaveEdge_ = s.nFacesPerSlaveEdge_)
      ∨ dict.found "nFacesPerSlaveEdge"
          = some (entry.label s'.nFacesPerSlaveEdge_))
    ∧ ((dict.found "edgeFaceEscapeLimit" = none
          ∧ s'.edgeFaceEscapeLimit_ = s.edgeFaceEscapeLimit_)
      ∨ dict.found "edgeFaceEscapeLimit"
          = some (entry.label s'.edgeFaceEscapeLimit_))
    ∧ ((dict.found "integralAdjTol" = none
          ∧ s'.integralAdjTol_ = s.integralAdjTol_)
      ∨ dict.found "integralAdjTol" = some (entry.scalar s'.integralAdjTol_))
    ∧ ((dict.found "edgeMasterCatchFraction" = none
          ∧ s'.edgeMasterCatchFraction_ = s.edgeMasterCatchFraction_)
      ∨ dict.found "edgeMasterCatchFraction"
          = some (entry.scalar s'.edgeMasterCatchFraction_))
    ∧ ((dict.found "edgeCoPlanarTol" = none
          ∧ s'.edgeCoPlanarTol_ = s.edgeCoPlanarTol_)
      ∨ dict.found "edgeCoPlanarTol" = some (entry.scalar s'.edgeCoPlanarTol_))
    ∧ ((dict.found "edgeEndCutoffTol" = none
          ∧ s'.edgeEndCutoffTol_ = s.edgeEndCutoffTol_)
      ∨ dict.found "edgeEndCutoffTol"
          = some (entry.scalar s'.edgeEndCutoffTol_)) := by
  unfold setTolerances at h
  simp only [bind, Except.bind, pure, Except.pure] at h
  split at h
  · cases h
  rename_i v1 h1
  split at h
  · cases h
  rename_i v2 h2
  split at h
  · cases h
  rename_i v3 h3
  split at h
  · cases h
  rename_i v4 h4
  split at h
  · cases h
  rename_i v5 h5
  split at h
  · cases h
  rename_i v6 h6
  split at h
  · cases h
  rename_i v7 h7
  split at h
  · cases h
  rename_i v8 h8
  cases h
  exact ⟨getOrDefaultScalar_ok _ _ _ _ h1, getOrDefaultScalar_ok _ _ _ _ h2,
    getOrDefaultLabel_ok _ _ _ _ h3, getOrDefaultLabel_ok _ _ _ _ h4,
    getOrDefaultScalar_ok _ _ _ _ h5, getOrDefaultScalar_ok _ _ _ _ h6,
    getOrDefaultScalar_ok _ _ _ _ h7, getOrDefaultScalar_ok _ _ _ _ h8⟩

/-- C13 fails on the code: the dictionary of the examples has no tolerance
keyword, the tolerance members hold zero when the body of the constructor
starts, and the constructed object has all eight tolerances zero, not the
defaults; a keyword that is present is read. -/
theorem fromDictionary_absent_keyword_keeps_held_value :
    dictionary.found plainDictionary "pointMergeTol" = none
    ∧ (fromDictionary heldZero exampleAlgorithms exampleAddressing exampleMesh
          plainDictionary).map (fun c => c.self.tolerances) = .ok heldZero
    ∧ heldZero.pointMergeTol ≠ exampleDefaults.pointMergeTol
    ∧ (fromDictionary heldZero exampleAlgorithms exampleAddressing exampleMesh
          (plainDictionary ++ [("edgeCoPlanarTol", entry.scalar (1/2))])).map
        (fun c => c.self.tolerances)
        = .ok { heldZero with edgeCoPlanarTol := 1/2 } :=
  ⟨by with_unfolding_all rfl, by with_unfolding_all rfl,
   by with_unfolding_all decide, by with_unfolding_all rfl⟩

theorem found_append (a b : dictionary) (k : word) :
    dictionary.found (a ++ b) k
      = match dictionary.found a k with
        | some v => some v
        | none => dictionary.found b k := by
  induction a with
  | nil => rfl
  | cons e rest ih =>
    obtain ⟨k', v⟩ := e
    simp only [List.cons_append, dictionary.found]
    split
    · rfl
    · exact ih

theorem found_optional (c : Prop) [Decidable c] (k' k : word) (v : entry) :
    dictionary.found (if c then [(k', v)] else []) k
      = if c ∧ k' = k then some v else none := by
  by_cases hc : c <;> by_cases hk : k' = k <;>
    simp [dictionary.found, hc, hk]

theorem found_optional_else (c : Prop) [Decidable c] (k' k : word)
    (v : entry) :
    dictionary.found (if c then [] else [(k', v)]) k
      = if ¬ c ∧ k' = k then some v else none := by
  by_cases hc : c <;> by_cases hk : k' = k <;>
    simp [dictionary.found, hc, hk]

theorem writeAddressing_keys (s : slidingInterface) (a : dictionary)
    (h : writeAddressing s = .ok a) (k : word)
    (hk : k ≠ "masterFaceCells" ∧ k ≠ "slaveFaceCells"
      ∧ k ≠ "masterStickOutFaces" ∧ k ≠ "slaveStickOutFaces"
      ∧ k ≠ "retiredPointMap" ∧ k ≠ "cutPointEdgePairMap") :
    dictionary.found a k = none := by
  unfold writeAddressing at h
  split at h
  · cases h
    obtain ⟨h1, h2, h3, h4, h5, h6⟩ := hk
    simp [dictionary.found, Ne.symm h1, Ne.symm h2, Ne.symm h3, Ne.symm h4,
      Ne.symm h5, Ne.symm h6]
  · cases h

/-- The tolerance entries found in the output of `writeDict` are those of
`writeNonDefault`. -/
theorem writeDict_found_tolerance (D : Tolerances) (N : AlgorithmNames)
    (s : slidingInterface) (d : dictionary) (h : writeDict D N s = .ok d)
    (k : word)
    (hc : dictionary.found (writeComponents N s) k = none)
    (hk : k ≠ "masterFaceCells" ∧ k ≠ "slaveFaceCells"
      ∧ k ≠ "masterStickOutFaces" ∧ k ≠ "slaveStickOutFaces"
      ∧ k ≠ "retiredPointMap" ∧ k ≠ "cutPointEdgePairMap") :
    dictionary.found d k = dictionary.found (writeNonDefault D s) k := by
  unfold writeDict at h
  split at h
  · split at h
    · rename_i a ha
      cases h
      rw [found_append, found_append, hc]
      simp only [writeAddressing_keys s a ha k hk]
    · cases h
  · cases h
    rw [found_append, hc]

/-- C14: in the dictionary `writeDict` produces, the entry of each of the
eight tolerances is present if and only if the value of the tolerance differs
from its default, and when present it holds the current value; `writeDict`
returns for every detached interface and for every attached one whose six
addressing caches are present. -/
theorem writeDict_tolerance_entries (D : Tolerances) (N : AlgorithmNames)
    (s : slidingInterface) :
    (∀ d, writeDict D N s = .ok d →
      dictionary.found d "pointMergeTol"
          = (if s.pointMergeTol_ ≠ D.pointMergeTol
              then some (entry.scalar s.pointMergeTol_) else none)
      ∧ dictionary.found d "edgeMergeTol"
          = (if s.edgeMergeTol_ ≠ D.edgeMergeTol
              then some (entry.scalar s.edgeMergeTol_) else none)
      ∧ dictionary.found d "nFacesPerSlaveEdge"
          = (if s.nFacesPerSlaveEdge_ ≠ D.nFacesPerSlaveEdge
              then some (entry.label s.nFacesPerSlaveEdge_) else none)
      ∧ dictionary.found d "edgeFaceEscapeLimit"
          = (if s.edgeFaceEscapeLimit_ ≠ D.edgeFaceEscapeLimit
              then some (entry.label s.edgeFaceEscapeLimit_) else none)
      ∧ dictionary.found d "integralAdjTol"
          = (if s.integralAdjTol_ ≠ D.integralAdjTol
              then some (entry.scalar s.integralAdjTol_) else none)
      ∧ dictionary.found d "edgeMasterCatchFraction"
          = (if s.edgeMasterCatchFraction_ ≠ D.edgeMasterCatchFraction
              then some (entry.scalar s.edgeMasterCatchFraction_) else none)
      ∧ dictionary.found d "edgeCoPlanarTol"
          = (if s.edgeCoPlanarTol_ ≠ D.edgeCoPlanarTol
              then some (entry.scalar s.edgeCoPlanarTol_) else none)
      ∧ dictionary.found d "edgeEndCutoffTol"
          = (if s.edgeEndCutoffTol_ ≠ D.edgeEndCutoffTol
              then some (entry.scalar s.edgeEndCutoffTol_) else none))
    ∧ (s.attached_ = false → ∃ d, writeDict D N s = .ok d)
    ∧ ((∃ a, writeAddressing s = .ok a) → ∃ d, writeDict D N s = .ok d) := by
  refine ⟨?_, ?_, ?_⟩
  · intro d h
    have hk : ∀ k, dictionary.found (writeComponents N s) k = none →
        (k ≠ "masterFaceCells" ∧ k ≠ "slaveFaceCells"
          ∧ k ≠ "masterStickOutFaces" ∧ k ≠ "slaveStickOutFaces"
          ∧ k ≠ "retiredPointMap" ∧ k ≠ "cutPointEdgePairMap") →
        dictionary.found d k = dictionary.found (writeNonDefault D s) k :=
      fun k h1 h2 => writeDict_found_tolerance D N s d h k h1 h2
    refine ⟨?_, ?_, ?_, ?_, ?_, ?_, ?_, ?_⟩
    · rw [hk "pointMergeTol" (by simp [writeComponents, dictionary.found])
        (by simp)]
      by_cases hx : s.pointMergeTol_ = D.pointMergeTol <;>
        simp [writeNonDefault, found_append, found_optional,
          found_optional_else, dictionary.found, hx]
    · rw [hk "edgeMergeTol" (by simp [writeComponents, dictionary.found])
        (by simp)]
      by_cases hx : s.edgeMergeTol_ = D.edgeMergeTol <;>
        simp [writeNonDefault, found_append, found_optional,
          found_optional_else, dictionary.found, hx]
    · rw [hk "nFacesPerSlaveEdge" (by simp [writeComponents, dictionary.found])
        (by simp)]
      by_cases hx : s.nFacesPerSlaveEdge_ = D.nFacesPerSlaveEdge <;>
        simp [writeNonDefault, found_append, found_optional,
          found_optional_else, dictionary.found, hx]
    · rw [hk "edgeFaceEscapeLimit" (by simp [writeComponents, dictionary.found])
        (by simp)]
      by_cases hx : s.edgeFaceEscapeLimit_ = D.edgeFaceEscapeLimit <;>
        simp [writeNonDefault, found_append, found_optional,
          found_optional_else, dictionary.found, hx]
    · rw [hk "integralAdjTol" (by simp [writeComponents, dictionary.found])
        (by simp)]
      by_cases hx : s.integralAdjTol_ = D.integralAdjTol <;>
        simp [writeNonDefault, found_append, found_optional,
          found_optional_else, dictionary.found, hx]
    · rw [hk "edgeMasterCatchFraction" (by simp [writeComponents, dictionary.found])
        (by simp)]
      by_cases hx : s.edgeMasterCatchFraction_ = D.edgeMasterCatchFraction <;>
        simp [writeNonDefault, found_append, found_optional,
          found_optional_else, dictionary.found, hx]
    · rw [hk "edgeCoPlanarTol" (by simp [writeComponents, dictionary.found])
        (by simp)]
      by_cases hx : s.edgeCoPlanarTol_ = D.edgeCoPlanarTol <;>
        simp [writeNonDefault, found_append, found_optional,
          found_optional_else, dictionary.found, hx]
    · rw [hk "edgeEndCutoffTol" (by simp [writeComponents, dictionary.found])
        (by simp)]
      by_cases hx : s.edgeEndCutoffTol_ = D.edgeEndCutoffTol <;>
        simp [writeNonDefault, found_append, found_optional,
          found_optional_else, dictionary.found, hx]
  · intro ha
    unfold writeDict
    simp [ha]
  · rintro ⟨a, ha⟩
    unfold writeDict
    split
    · simp [ha]
    · simp

theorem writeDict_halfCoPlanar :
    writeDict exampleDefaults exampleAlgorithms
        { exampleObject with edgeCoPlanarTol_ := 1/2 }
      = .ok (plainDictionary ++ [("edgeCoPlanarTol", entry.scalar (1/2))]) := by
  simp [writeDict, writeNonDefault, writeComponents, exampleObject,
    initialObject, exampleDefaults, plainDictionary, exampleNames,
    exampleAlgorithms, typeOfMatchNames, DynamicID.bind]
  norm_num

/-- Witness for C14: with the co-planarity tolerance changed to 1/2 the
dictionary holds that entry and no entry for the point merge tolerance. -/
theorem writeDict_tolerance_entries_witness :
    writeDict exampleDefaults exampleAlgorithms
        { exampleObject with edgeCoPlanarTol_ := 1/2 }
      = .ok (plainDictionary ++ [("edgeCoPlanarTol", entry.scalar (1/2))])
    ∧ dictionary.found
        (plainDictionary ++ [("edgeCoPlanarTol", entry.scalar (1/2))])
        "pointMergeTol"
      = (if ({ exampleObject with edgeCoPlanarTol_ := 1/2 } :
            slidingInterface).pointMergeTol_ ≠ exampleDefaults.pointMergeTol
          then some (entry.scalar ({ exampleObject with
            edgeCoPlanarTol_ := 1/2 } : slidingInterface).pointMergeTol_)
          else none) :=
  ⟨writeDict_halfCoPlanar,
   ((writeDict_tolerance_entries exampleDefaults exampleAlgorithms
      { exampleObject with edgeCoPlanarTol_ := 1/2 }).1 _
      writeDict_halfCoPlanar).1⟩

/-- C15 fails on the code: the interface built from components on the mesh of
the examples holds the eight defaults, so `writeDict` writes no tolerance
entry; the interface constructed from that dictionary has the same
identifiers and flags, but its eight tolerances are the values the members
held (zero), not the defaults. -/
theorem roundTrip_loses_default_tolerances :
    (exampleAddressing exampleObject).tolerances = exampleDefaults
    ∧ writeDict exampleDefaults exampleAlgorithms
        (exampleAddressing exampleObject) = .ok plainDictionary
    ∧ (fromDictionary heldZero exampleAlgorithms exampleAddressing exampleMesh
          plainDictionary).map
        (fun c => (c.self.tolerances, c.self.masterFaceZoneID_,
          c.self.slaveFaceZoneID_, c.self.matchType_, c.self.coupleDecouple_,
          c.self.projectionAlgo_, c.self.attached_, c.self.active_))
        = .ok (heldZero, (exampleAddressing exampleObject).masterFaceZoneID_,
          (exampleAddressing exampleObject).slaveFaceZoneID_,
          (exampleAddressing exampleObject).matchType_,
          (exampleAddressing exampleObject).coupleDecouple_,
          (exampleAddressing exampleObject).projectionAlgo_,
          (exampleAddressing exampleObject).attached_,
          (exampleAddressing exampleObject).active_)
    ∧ heldZero ≠ exampleDefaults :=
  ⟨by with_unfolding_all rfl,
   by simp [writeDict, writeNonDefault, writeComponents, exampleObject,
      initialObject, exampleDefaults, plainDictionary, exampleNames,
      exampleAlgorithms, typeOfMatchNames, DynamicID.bind, exampleAddressing],
   by with_unfolding_all rfl, by with_unfolding_all decide⟩

/-! ## Theorems: mesh update, caches and the projection accessor -/

/-- C16: `updateMesh` binds each of the six identifiers again, by its own
name, against the face zones, the point zones or the boundary of the current
mesh; the names stay as they are; putting the six old identifiers back gives
the object as it was, so the flags, the tolerances, the projected points and
every cache are untouched; and the map argument has no influence. -/
theorem updateMesh_rebinds_only {μ : Type} (mesh : polyMesh) (m : μ)
    (s : slidingInterface) :
    (updateMesh mesh m s).masterFaceZoneID_
        = DynamicID.bind s.masterFaceZoneID_.name mesh.faceZoneNames
    ∧ (updateMesh mesh m s).slaveFaceZoneID_
        = DynamicID.bind s.slaveFaceZoneID_.name mesh.faceZoneNames
    ∧ (updateMesh mesh m s).cutPointZoneID_
        = DynamicID.bind s.cutPointZoneID_.name mesh.pointZoneNames
    ∧ (updateMesh mesh m s).cutFaceZoneID_
        = DynamicID.bind s.cutFaceZoneID_.name mesh.faceZoneNames
    ∧ (updateMesh mesh m s).masterPatchID_
        = DynamicID.bind s.masterPatchID_.name mesh.boundaryMesh
    ∧ (updateMesh mesh m s).slavePatchID_
        = DynamicID.bind s.slavePatchID_.name mesh.boundaryMesh
    ∧ ({ updateMesh mesh m s with
          masterFaceZoneID_ := s.masterFaceZoneID_
          slaveFaceZoneID_ := s.slaveFaceZoneID_
          cutPointZoneID_ := s.cutPointZoneID_
          cutFaceZoneID_ := s.cutFaceZoneID_
          masterPatchID_ := s.masterPatchID_
          slavePatchID_ := s.slavePatchID_ } : slidingInterface) = s
    ∧ (updateMesh mesh m s).attached_ = s.attached_
    ∧ (updateMesh mesh m s).trigger_ = s.trigger_
    ∧ (updateMesh mesh m s).tolerances = s.tolerances
    ∧ (updateMesh mesh m s).projectedSlavePointsPtr_
        = s.projectedSlavePointsPtr_
    ∧ (updateMesh mesh m s).retiredPointMapPtr_ = s.retiredPointMapPtr_
    ∧ (updateMesh mesh m s).cutPointEdgePairMapPtr_
        = s.cutPointEdgePairMapPtr_
    ∧ (∀ (μ' : Type) (m' : μ'), updateMesh mesh m' s = updateMesh mesh m s) :=
  ⟨rfl, rfl, rfl, rfl, rfl, rfl, rfl, rfl, rfl, rfl, rfl, rfl, rfl,
   fun _ _ => rfl⟩

/-- C17: `clearAddressing` leaves the two cut face caches absent; putting
their old contents back gives the object as it was, so the six addressing
caches, the projected points and the two flags are untouched; and a second
call changes nothing more. -/
theorem clearAddressing_frame (s : slidingInterface) :
    (clearAddressing s).cutFaceMasterPtr_ = none
    ∧ (clearAddressing s).cutFaceSlavePtr_ = none
    ∧ ({ clearAddressing s with
          cutFaceMasterPtr_ := s.cutFaceMasterPtr_
          cutFaceSlavePtr_ := s.cutFaceSlavePtr_ } : slidingInterface) = s
    ∧ (clearAddressing s).masterFaceCellsPtr_ = s.masterFaceCellsPtr_
    ∧ (clearAddressing s).slaveFaceCellsPtr_ = s.slaveFaceCellsPtr_
    ∧ (clearAddressing s).masterStickOutFacesPtr_ = s.masterStickOutFacesPtr_
    ∧ (clearAddressing s).slaveStickOutFacesPtr_ = s.slaveStickOutFacesPtr_
    ∧ (clearAddressing s).retiredPointMapPtr_ = s.retiredPointMapPtr_
    ∧ (clearAddressing s).cutPointEdgePairMapPtr_ = s.cutPointEdgePairMapPtr_
    ∧ (clearAddressing s).projectedSlavePointsPtr_
        = s.projectedSlavePointsPtr_
    ∧ (clearAddressing s).attached_ = s.attached_
    ∧ (clearAddressing s).trigger_ = s.trigger_
    ∧ clearAddressing (clearAddressing s) = clearAddressing s :=
  ⟨rfl, rfl, rfl, rfl, rfl, rfl, rfl, rfl, rfl, rfl, rfl, rfl, rfl⟩

/-- C18: `pointProjection` calls `projectPoints` exactly when no projected
points are cached; with cached points it returns them, calls nothing and
leaves the object as it is.  When the projection, if it has to run, leaves
projected points cached, a second call right after the first returns the same
point sequence, leaves the object as the first call left it and calls
nothing, so the projection runs at most once in the two calls. -/
theorem pointProjection_lazy {ρ : Type} (X : Collaborators ρ)
    (s : slidingInterface) :
    (∀ pts, s.projectedSlavePointsPtr_ = some pts →
        (pointProjection X s).result = some pts
        ∧ (pointProjection X s).self = s
        ∧ (pointProjection X s).calls = [])
    ∧ (s.projectedSlavePointsPtr_ = none →
        (pointProjection X s).result
            = (X.projectPoints s).2.projectedSlavePointsPtr_
        ∧ (pointProjection X s).self = (X.projectPoints s).2
        ∧ (pointProjection X s).calls = [Call.projectPoints])
    ∧ (Call.projectPoints ∈ (pointProjection X s).calls
        ↔ s.projectedSlavePointsPtr_ = none)
    ∧ ((s.projectedSlavePointsPtr_ = none →
          (X.projectPoints s).2.projectedSlavePointsPtr_ ≠ none) →
        (pointProjection X (pointProjection X s).self).result
            = (pointProjection X s).result
        ∧ (pointProjection X (pointProjection X s).self).self
            = (pointProjection X s).self
        ∧ (pointProjection X (pointProjection X s).self).calls = []
        ∧ ((pointProjection X s).calls
            ++ (pointProjection X (pointProjection X s).self).calls).count
              Call.projectPoints ≤ 1) := by
  cases hs : s.projectedSlavePointsPtr_ with
  | some pts =>
    have h1 : pointProjection X s = ⟨some pts, s, []⟩ := by
      unfold pointProjection
      simp [hs]
    simp [h1, hs, pointProjection]
  | none =>
    have h1 : pointProjection X s
        = ⟨(X.projectPoints s).2.projectedSlavePointsPtr_,
            (X.projectPoints s).2, [Call.projectPoints]⟩ := by
      unfold pointProjection
      simp [hs]
    refine ⟨by simp, by simp [h1], by simp [h1], ?_⟩
    intro hp
    have hp' := hp rfl
    rw [h1]
    cases hq : (X.projectPoints s).2.projectedSlavePointsPtr_ with
    | none => exact absurd hq hp'
    | some pts => simp [pointProjection, hq]

/-- Witness for C18: nothing is cached at first, the projection runs once and
the second call does not run it again. -/
theorem pointProjection_lazy_witness :
    detachedCoupleDecouple.projectedSlavePointsPtr_ = none
    ∧ (loggingCollaborators.projectPoints
        detachedCoupleDecouple).2.projectedSlavePointsPtr_ ≠ none
    ∧ (pointProjection loggingCollaborators detachedCoupleDecouple).calls
        = [Call.projectPoints]
    ∧ (pointProjection loggingCollaborators
        (pointProjection loggingCollaborators detachedCoupleDecouple).self).calls
        = [] :=
  ⟨rfl, by simp [loggingCollaborators],
   ((pointProjection_lazy loggingCollaborators detachedCoupleDecouple).2.1
      rfl).2.2,
   ((pointProjection_lazy loggingCollaborators detachedCoupleDecouple).2.2.2
      (fun _ => by simp [loggingCollaborators])).2.2.1⟩

/-- The identifiers of the interface of the examples after the mesh was
renumbered: the master zone moved from index 0 to index 1 and kept its name. -/
theorem updateMesh_renumbered :
    exampleObject.masterFaceZoneID_ = ⟨"masterZone", 0⟩
    ∧ (updateMesh renumberedMesh () exampleObject).masterFaceZoneID_
        = ⟨"masterZone", 1⟩
    ∧ (updateMesh renumberedMesh () exampleObject).slavePatchID_
        = ⟨"slavePatch", 2⟩ :=
  ⟨by with_unfolding_all rfl, by with_unfolding_all rfl,
   by with_unfolding_all rfl⟩

/-! ## Theorems: couple, decouple, couple -/

/-- C19: with the couple and decouple sequences as the specification
describes them and a geometry that does not change, three successive
`setRefinement` calls on a detached interface in couple-decouple mode, each
applied to the mesh before the next, run a couple, a decouple and a couple
sequence; the cut is removed by the second call, and the cut topology after
the third call is the one after the first (the same cut points, cut faces and
cut point edge pair map, hence the same numbers of them), in the mesh and in
the provenance held by the object. -/
theorem couple_decouple_couple {γ : Type} (geom : γ)
    (project : γ → List point)
    (cutOf : γ → List label → List label → CutTopology)
    (s : slidingInterface) (ref : InterfaceMesh)
    (hcd : s.coupleDecouple_ = true) (hdet : s.attached_ = false) :
    (refineCycles (specCollaborators geom project cutOf) 1 s ref).calls
        = [Call.coupleInterface]
    ∧ (refineCycles (specCollaborators geom project cutOf) 2 s ref).calls
        = [Call.decoupleInterface]
    ∧ (refineCycles (specCollaborators geom project cutOf) 3 s ref).calls
        = [Call.coupleInterface]
    ∧ (refineCycles (specCollaborators geom project cutOf) 1 s ref).ref.cut
        = some (cutOf geom ref.masterZone ref.slaveZone)
    ∧ (refineCycles (specCollaborators geom project cutOf) 2 s ref).ref.cut
        = none
    ∧ (refineCycles (specCollaborators geom project cutOf) 3 s ref).ref.cut
        = (refineCycles (specCollaborators geom project cutOf) 1 s ref).ref.cut
    ∧ (refineCycles (specCollaborators geom project cutOf) 3 s
          ref).self.cutPointEdgePairMapPtr_
        = (refineCycles (specCollaborators geom project cutOf) 1 s
            ref).self.cutPointEdgePairMapPtr_
    ∧ (refineCycles (specCollaborators geom project cutOf) 3 s
          ref).self.cutPointEdgePairMapPtr_
        = some (cutOf geom ref.masterZone ref.slaveZone).cutPointEdgePairMap := by
  simp [refineCycles, setRefinement, specCollaborators, hcd, hdet]

/-- Witness for C19: one cut point and one cut face after the first and
after the third call. -/
theorem couple_decouple_couple_witness :
    detachedCoupleDecouple.coupleDecouple_ = true
    ∧ detachedCoupleDecouple.attached_ = false
    ∧ (refineCycles (specCollaborators () (fun _ => unitProjection) oneCut) 3
        detachedCoupleDecouple uncoupledMesh).ref.cut
        = (refineCycles (specCollaborators () (fun _ => unitProjection) oneCut)
            1 detachedCoupleDecouple uncoupledMesh).ref.cut
    ∧ (refineCycles (specCollaborators () (fun _ => unitProjection) oneCut) 1
        detachedCoupleDecouple uncoupledMesh).ref.cut
        = some (oneCut () [0, 1] [2, 3]) :=
  ⟨rfl, rfl,
   (couple_decouple_couple () (fun _ => unitProjection) oneCut
      detachedCoupleDecouple uncoupledMesh rfl rfl).2.2.2.2.2.1,
   (couple_decouple_couple () (fun _ => unitProjection) oneCut
      detachedCoupleDecouple uncoupledMesh rfl rfl).2.2.2.1⟩

/-! ## Theorems: cutting of triangles and tetrahedra -/

theorem Vector.add_smul_sub_one (a b : Vector) :
    a.add (Vector.smul 1 (b.sub a)) = b := by
  cases a; cases b
  simp [Vector.add, Vector.smul, Vector.sub]

theorem Vector.add_smul_sub_twice (a b : Vector) (f g : scalar) :
    a.add (Vector.smul g ((a.add (Vector.smul f (b.sub a))).sub a))
      = a.add (Vector.smul (f * g) (b.sub a)) := by
  cases a; cases b
  simp only [Vector.add, Vector.smul, Vector.sub, Vector.mk.injEq]
  refine ⟨?_, ?_, ?_⟩ <;> ring

set_option maxRecDepth 100000 in
/-- C20 fails on the code in its two consequences: in the arithmetic of
`double` the cut of the triangle with vertices at 0.7, 0.1 and 0 on the x
axis with fractions all equal to one moves vertex 1 from 0.1 to
0.09999999999999998 (`0.7 + 1*(0.1 - 0.7)` rounds twice), so the input is not
returned, although every coordinate and fraction is a binary64 number; and
cutting the triangle with vertices at 0, 0.1 and 0 twice with
the fractions 3 puts vertex 1 at 0.9000000000000001, while one cut with the
products `3*3` puts it at 0.9. -/
theorem binary64_cut_is_not_exact :
    roundBinary64 (7 / 10) = double07
    ∧ roundBinary64 (1 / 10) = double01
    ∧ roundBinary64 double07 = double07
    ∧ roundBinary64 double01 = double01
    ∧ roundBinary64 1 = 1
    ∧ roundBinary64 3 = 3
    ∧ (triCutTriWith binary64Arithmetic doubleTriangle (fun _ => 1) 1).x
        = 7205759403792792 / 72057594037927936
    ∧ (doubleTriangle 1).x = 7205759403792794 / 72057594037927936
    ∧ triCutTriWith binary64Arithmetic doubleTriangle (fun _ => 1)
        ≠ doubleTriangle
    ∧ (triCutTriWith binary64Arithmetic
        (triCutTriWith binary64Arithmetic tenthTriangle (fun _ => 3))
        (fun _ => 3) 1).x = 8106479329266894 / 9007199254740992
    ∧ (triCutTriWith binary64Arithmetic tenthTriangle
        (fun _ => roundBinary64 (3 * 3)) 1).x = 8106479329266893 / 9007199254740992
    ∧ triCutTriWith binary64Arithmetic
        (triCutTriWith binary64Arithmetic tenthTriangle (fun _ => 3))
        (fun _ => 3)
      ≠ triCutTriWith binary64Arithmetic tenthTriangle
          (fun _ => roundBinary64 (3 * 3)) := by
  have h1 : (triCutTriWith binary64Arithmetic doubleTriangle (fun _ => 1) 1).x
      = 7205759403792792 / 72057594037927936 := by with_unfolding_all rfl
  have h2 : (doubleTriangle 1).x = 7205759403792794 / 72057594037927936 := by
    with_unfolding_all rfl
  have h3 : (triCutTriWith binary64Arithmetic
      (triCutTriWith binary64Arithmetic tenthTriangle (fun _ => 3))
      (fun _ => 3) 1).x = 8106479329266894 / 9007199254740992 := by
    with_unfolding_all rfl
  have h4 : (triCutTriWith binary64Arithmetic tenthTriangle
      (fun _ => roundBinary64 (3 * 3)) 1).x = 8106479329266893 / 9007199254740992 := by
    with_unfolding_all rfl
  refine ⟨by with_unfolding_all rfl, by with_unfolding_all rfl,
    by with_unfolding_all rfl, by with_unfolding_all rfl,
    by with_unfolding_all rfl, by with_unfolding_all rfl, h1, h2, ?_,
    h3, h4, ?_⟩
  · intro h
    rw [h, h2] at h1
    norm_num at h1
  · intro h
    rw [h, h4] at h3
    norm_num at h3

theorem triCutTriWith_eq {S T : Type} (A : CutArithmetic S T)
    (x : FixedList T 3) (f : FixedList S 2) :
    triCutTriWith A x f
      = ![x 0, A.add (x 0) (A.smul (f 0) (A.sub (x 1) (x 0))),
          A.add (x 0) (A.smul (f 1) (A.sub (x 2) (x 0)))] := by
  funext k
  fin_cases k <;> rfl

theorem tetCutTetWith_eq {S T : Type} (A : CutArithmetic S T)
    (x : FixedList T 4) (f : FixedList S 3) :
    tetCutTetWith A x f
      = ![x 0, A.add (x 0) (A.smul (f 0) (A.sub (x 1) (x 0))),
          A.add (x 0) (A.smul (f 1) (A.sub (x 2) (x 0))),
          A.add (x 0) (A.smul (f 2) (A.sub (x 3) (x 0)))] := by
  funext k
  fin_cases k <;> rfl

/-- C20 as amended: in every arithmetic of the template types, for every
triangle and every pair of fractions, `triCutTri` keeps vertex 0 and puts at
`i+1` the value `x0 + f_i*(x_{i+1} - x0)` computed in that arithmetic, and
`tetCutTet` does the same for a tetrahedron and three fractions, without any
test on the fractions.  With the exact operations on rational vectors these
are `triCutTri` and `tetCutTet`, and there, in exact arithmetic, fractions all
equal to one return the input, and cutting with `f` and then with `g` is
cutting once with the products `f_i*g_i`.  The overload that takes an
operation evaluates it on the cut triangle. -/
theorem cut_vertex0_formula {S T : Type} (A : CutArithmetic S T)
    (u : FixedList T 3) (s : FixedList S 2) (v : FixedList T 4)
    (t : FixedList S 3) (x : FixedList Vector 3) (f g : FixedList scalar 2)
    (y : FixedList Vector 4) (p q : FixedList scalar 3) :
    triCutTriWith A u s
        = ![u 0, A.add (u 0) (A.smul (s 0) (A.sub (u 1) (u 0))),
            A.add (u 0) (A.smul (s 1) (A.sub (u 2) (u 0)))]
    ∧ tetCutTetWith A v t
        = ![v 0, A.add (v 0) (A.smul (t 0) (A.sub (v 1) (v 0))),
            A.add (v 0) (A.smul (t 1) (A.sub (v 2) (v 0))),
            A.add (v 0) (A.smul (t 2) (A.sub (v 3) (v 0)))]
    ∧ triCutTriWith exactArithmetic x f = triCutTri x f
    ∧ tetCutTetWith exactArithmetic y p = tetCutTet y p
    ∧ triCutTri x f
        = ![x 0, (x 0).add (Vector.smul (f 0) ((x 1).sub (x 0))),
            (x 0).add (Vector.smul (f 1) ((x 2).sub (x 0)))]
    ∧ tetCutTet y p
        = ![y 0, (y 0).add (Vector.smul (p 0) ((y 1).sub (y 0))),
            (y 0).add (Vector.smul (p 1) ((y 2).sub (y 0))),
            (y 0).add (Vector.smul (p 2) ((y 3).sub (y 0)))]
    ∧ triCutTri x (fun _ => 1) = x
    ∧ tetCutTet y (fun _ => 1) = y
    ∧ triCutTri (triCutTri x f) g = triCutTri x (fun i => f i * g i)
    ∧ tetCutTet (tetCutTet y p) q = tetCutTet y (fun i => p i * q i)
    ∧ (∀ (δ β : Type) (cutData : δ → FixedList scalar 2 → δ)
        (apply : δ → FixedList Vector 3 → β) (op : δ),
        triCutTriOp cutData apply op x f
          = apply (cutData op f)
              ![x 0, (x 0).add (Vector.smul (f 0) ((x 1).sub (x 0))),
                (x 0).add (Vector.smul (f 1) ((x 2).sub (x 0)))]) := by
  have htri : triCutTri x f
      = ![x 0, (x 0).add (Vector.smul (f 0) ((x 1).sub (x 0))),
          (x 0).add (Vector.smul (f 1) ((x 2).sub (x 0)))] := by
    funext k
    fin_cases k <;> rfl
  refine ⟨triCutTriWith_eq A u s, tetCutTetWith_eq A v t, rfl, rfl,
    ?_, ?_, ?_, ?_, ?_, ?_, fun δ β cutData apply op => by
    unfold triCutTriOp; rw [htri]⟩
  · funext k
    fin_cases k <;> rfl
  · funext k
    fin_cases k <;> rfl
  · funext k
    fin_cases k
    · rfl
    · exact Vector.add_smul_sub_one (x 0) (x 1)
    · exact Vector.add_smul_sub_one (x 0) (x 2)
  · funext k
    fin_cases k
    · rfl
    · exact Vector.add_smul_sub_one (y 0) (y 1)
    · exact Vector.add_smul_sub_one (y 0) (y 2)
    · exact Vector.add_smul_sub_one (y 0) (y 3)
  · funext k
    fin_cases k
    · rfl
    · exact Vector.add_smul_sub_twice (x 0) (x 1) (f 0) (g 0)
    · exact Vector.add_smul_sub_twice (x 0) (x 2) (f 1) (g 1)
  · funext k
    fin_cases k
    · rfl
    · exact Vector.add_smul_sub_twice (y 0) (y 1) (p 0) (q 0)
    · exact Vector.add_smul_sub_twice (y 0) (y 2) (p 1) (q 1)
    · exact Vector.add_smul_sub_twice (y 0) (y 3) (p 2) (q 2)

/-- The unit triangle cut at the fractions 1/2 and 3 (outside the unit
interval, accepted as it is). -/
theorem triCutTri_unitTriangle :
    triCutTri unitTriangle ![1/2, 3]
      = ![⟨0, 0, 0⟩, ⟨1/2, 0, 0⟩, ⟨0, 3, 0⟩] := by
  funext k
  fin_cases k <;> with_unfolding_all rfl

/-! ## Theorems: decomposition and conservation of the cuts -/

theorem tetCutPrism0_eq (x : FixedList Vector 4) (f : FixedList scalar 3) :
    tetCutPrism0 x f
      = ![(x 0).add (Vector.smul (f 0) ((x 1).sub (x 0))),
          (x 0).add (Vector.smul (f 1) ((x 2).sub (x 0))),
          (x 0).add (Vector.smul (f 2) ((x 3).sub (x 0))),
          x 1, x 2, x 3] := by
  funext k
  fin_cases k <;> rfl

theorem tetCutPrism01_eq (x : FixedList Vector 4) (f : FixedList scalar 4) :
    tetCutPrism01 x f
      = ![x 0, (x 0).add (Vector.smul (f 0) ((x 2).sub (x 0))),
          (x 0).add (Vector.smul (f 1) ((x 3).sub (x 0))),
          x 1, (x 1).add (Vector.smul (f 2) ((x 2).sub (x 1))),
          (x 1).add (Vector.smul (f 3) ((x 3).sub (x 1)))] := by
  funext k
  fin_cases k <;> rfl

theorem tetCutPrism23_eq (x : FixedList Vector 4) (f : FixedList scalar 4) :
    tetCutPrism23 x f
      = ![x 2, tetCutPrism01 x f 1, tetCutPrism01 x f 4, x 3,
          tetCutPrism01 x f 2, tetCutPrism01 x f 5] := by
  funext k
  fin_cases k <;> rfl


theorem tetCutPrism23_explicit (x : FixedList Vector 4)
    (f : FixedList scalar 4) :
    tetCutPrism23 x f
      = ![x 2, (x 0).add (Vector.smul (f 0) ((x 2).sub (x 0))),
          (x 1).add (Vector.smul (f 2) ((x 2).sub (x 1))),
          x 3, (x 0).add (Vector.smul (f 1) ((x 3).sub (x 0))),
          (x 1).add (Vector.smul (f 3) ((x 3).sub (x 1)))] := by
  funext k
  fin_cases k <;> rfl

theorem triReorder_eq {α : Type} {n : Nat} (x : FixedList α n)
    (a b c : Fin n) : triReorder x ![a, b, c] = ![x a, x b, x c] := by
  funext k
  fin_cases k <;> rfl

theorem tetReorder_eq {α : Type} {n : Nat} (x : FixedList α n)
    (a b c d : Fin n) : tetReorder x ![a, b, c, d] = ![x a, x b, x c, x d] := by
  funext k
  fin_cases k <;> rfl

theorem quadOp_eq {δ δ' β : Type} [Add β]
    (reorder : δ → FixedList (Fin 4) 3 → δ') (Op : δ' → FixedList Vector 3 → β)
    (opData : δ) (p : FixedList Vector 4) :
    quadOp reorder Op opData p
      = Op (reorder opData ![0, 1, 2]) ![p 0, p 1, p 2]
        + Op (reorder opData ![0, 2, 3]) ![p 0, p 2, p 3] := by
  unfold quadOp
  simp only [Matrix.cons_val_zero, Matrix.cons_val_one, Matrix.head_cons,
    triReorder_eq]

theorem prismOp_eq {δ δ' β : Type} [Add β]
    (reorder : δ → FixedList (Fin 6) 4 → δ') (Op : δ' → FixedList Vector 4 → β)
    (opData : δ) (q : FixedList Vector 6) :
    prismOp reorder Op opData q
      = Op (reorder opData ![0, 1, 2, 4]) ![q 0, q 1, q 2, q 4]
        + Op (reorder opData ![0, 2, 5, 4]) ![q 0, q 2, q 5, q 4]
        + Op (reorder opData ![0, 4, 5, 3]) ![q 0, q 4, q 5, q 3] := by
  unfold prismOp
  simp only [Matrix.cons_val_zero, Matrix.cons_val_one, Matrix.head_cons,
    Matrix.cons_val_two, Matrix.tail_cons, tetReorder_eq]

/-- C21: `quadOp` adds the operation on the triangles `(p0, p1, p2)` and
`(p0, p2, p3)`, and `prismOp` adds it on the tetrahedra `(p0, p1, p2, p4)`,
`(p0, p2, p5, p4)` and `(p0, p4, p5, p3)`; the data of the operation is
reordered with the same index tables.  For data given per vertex the
operation on each simplex is built from the data of its vertices; uniform
data is handed on as it is. -/
theorem quadOp_prismOp_tables {δ δ3 δ4 β τ : Type} [Add β]
    (reorder3 : δ → FixedList (Fin 4) 3 → δ3)
    (reorder4 : δ → FixedList (Fin 6) 4 → δ4)
    (Op3 : δ3 → FixedList Vector 3 → β) (Op4 : δ4 → FixedList Vector 4 → β)
    (U3 : δ → FixedList Vector 3 → β) (U4 : δ → FixedList Vector 4 → β)
    (V3 : FixedList τ 3 → FixedList Vector 3 → β)
    (V4 : FixedList τ 4 → FixedList Vector 4 → β)
    (opData : δ) (d4 : FixedList τ 4) (d6 : FixedList τ 6)
    (p : FixedList Vector 4) (q : FixedList Vector 6) :
    quadOp reorder3 Op3 opData p
        = Op3 (reorder3 opData ![0, 1, 2]) ![p 0, p 1, p 2]
          + Op3 (reorder3 opData ![0, 2, 3]) ![p 0, p 2, p 3]
    ∧ prismOp reorder4 Op4 opData q
        = Op4 (reorder4 opData ![0, 1, 2, 4]) ![q 0, q 1, q 2, q 4]
          + Op4 (reorder4 opData ![0, 2, 5, 4]) ![q 0, q 2, q 5, q 4]
          + Op4 (reorder4 opData ![0, 4, 5, 3]) ![q 0, q 4, q 5, q 3]
    ∧ quadOp uniformData U3 opData p
        = U3 opData ![p 0, p 1, p 2] + U3 opData ![p 0, p 2, p 3]
    ∧ prismOp uniformData U4 opData q
        = U4 opData ![q 0, q 1, q 2, q 4] + U4 opData ![q 0, q 2, q 5, q 4]
          + U4 opData ![q 0, q 4, q 5, q 3]
    ∧ quadOp triReorder V3 d4 p
        = V3 ![d4 0, d4 1, d4 2] ![p 0, p 1, p 2]
          + V3 ![d4 0, d4 2, d4 3] ![p 0, p 2, p 3]
    ∧ prismOp tetReorder V4 d6 q
        = V4 ![d6 0, d6 1, d6 2, d6 4] ![q 0, q 1, q 2, q 4]
          + V4 ![d6 0, d6 2, d6 5, d6 4] ![q 0, q 2, q 5, q 4]
          + V4 ![d6 0, d6 4, d6 5, d6 3] ![q 0, q 4, q 5, q 3] := by
  refine ⟨quadOp_eq _ _ _ _, prismOp_eq _ _ _ _, quadOp_eq _ _ _ _,
    prismOp_eq _ _ _ _, ?_, ?_⟩
  · rw [quadOp_eq, triReorder_eq, triReorder_eq]
  · rw [prismOp_eq, tetReorder_eq, tetReorder_eq, tetReorder_eq]

/-- C22: `tetCutPrism01` is `(x0, x0 + f0*(x2 - x0), x0 + f1*(x3 - x0), x1,
x1 + f2*(x2 - x1), x1 + f3*(x3 - x1))` and `tetCutPrism23` is `(x2, P1, P4,
x3, P2, P5)` for that `P`: both prisms hold the same four cut points, the
first keeps the vertices `x0`, `x1` and the second `x2`, `x3`. -/
theorem tetCutPrism01_23_same_cuts (x : FixedList Vector 4)
    (f : FixedList scalar 4) :
    tetCutPrism01 x f
      = ![x 0, (x 0).add (Vector.smul (f 0) ((x 2).sub (x 0))),
          (x 0).add (Vector.smul (f 1) ((x 3).sub (x 0))),
          x 1, (x 1).add (Vector.smul (f 2) ((x 2).sub (x 1))),
          (x 1).add (Vector.smul (f 3) ((x 3).sub (x 1)))]
    ∧ tetCutPrism23 x f
      = ![x 2, tetCutPrism01 x f 1, tetCutPrism01 x f 4, x 3,
          tetCutPrism01 x f 2, tetCutPrism01 x f 5]
    ∧ tetCutPrism23 x f
      = ![x 2, (x 0).add (Vector.smul (f 0) ((x 2).sub (x 0))),
          (x 1).add (Vector.smul (f 2) ((x 2).sub (x 1))),
          x 3, (x 0).add (Vector.smul (f 1) ((x 3).sub (x 0))),
          (x 1).add (Vector.smul (f 3) ((x 3).sub (x 1)))]
    ∧ tetCutPrism01 x f 0 = x 0 ∧ tetCutPrism01 x f 3 = x 1
    ∧ tetCutPrism23 x f 0 = x 2 ∧ tetCutPrism23 x f 3 = x 3 := by
  exact ⟨tetCutPrism01_eq x f, tetCutPrism23_eq x f, tetCutPrism23_explicit x f,
    rfl, rfl, rfl, rfl⟩

theorem signedVolume_eq (a b c d : Vector) :
    signedVolume ![a, b, c, d]
      = (((b.y - a.y) * (c.z - a.z) - (b.z - a.z) * (c.y - a.y)) * (d.x - a.x)
        + ((b.z - a.z) * (c.x - a.x) - (b.x - a.x) * (c.z - a.z)) * (d.y - a.y)
        + ((b.x - a.x) * (c.y - a.y) - (b.y - a.y) * (c.x - a.x)) * (d.z - a.z))
        / 6 := by
  simp [signedVolume, Vector.sub, Vector.cross, Vector.dot]

theorem fixedList4_eta (x : FixedList Vector 4) :
    x = ![x 0, x 1, x 2, x 3] := by
  funext k
  fin_cases k <;> rfl

theorem tet0_volume (a b c d : Vector) (f0 f1 f2 : scalar) :
    signedVolume ![a, a.add (Vector.smul f0 (b.sub a)),
        a.add (Vector.smul f1 (c.sub a)), a.add (Vector.smul f2 (d.sub a))]
      = f0 * f1 * f2 * signedVolume ![a, b, c, d] := by
  simp only [signedVolume_eq, Vector.add, Vector.sub, Vector.smul]
  ring

theorem prism0_volume (a b c d : Vector) (f0 f1 f2 : scalar) :
    signedVolume ![a.add (Vector.smul f0 (b.sub a)),
        a.add (Vector.smul f1 (c.sub a)), a.add (Vector.smul f2 (d.sub a)), c]
      + signedVolume ![a.add (Vector.smul f0 (b.sub a)),
        a.add (Vector.smul f2 (d.sub a)), d, c]
      + signedVolume ![a.add (Vector.smul f0 (b.sub a)), c, d, b]
      = (1 - f0 * f1 * f2) * signedVolume ![a, b, c, d] := by
  simp only [signedVolume_eq, Vector.add, Vector.sub, Vector.smul]
  ring

theorem prism01_23_volume (a b c d : Vector) (f0 f1 f2 f3 : scalar) :
    (signedVolume ![a, a.add (Vector.smul f0 (c.sub a)),
        a.add (Vector.smul f1 (d.sub a)), b.add (Vector.smul f2 (c.sub b))]
      + signedVolume ![a, a.add (Vector.smul f1 (d.sub a)),
        b.add (Vector.smul f3 (d.sub b)), b.add (Vector.smul f2 (c.sub b))]
      + signedVolume ![a, b.add (Vector.smul f2 (c.sub b)),
        b.add (Vector.smul f3 (d.sub b)), b])
      + (signedVolume ![c, a.add (Vector.smul f0 (c.sub a)),
        b.add (Vector.smul f2 (c.sub b)), a.add (Vector.smul f1 (d.sub a))]
      + signedVolume ![c, b.add (Vector.smul f2 (c.sub b)),
        b.add (Vector.smul f3 (d.sub b)), a.add (Vector.smul f1 (d.sub a))]
      + signedVolume ![c, a.add (Vector.smul f1 (d.sub a)),
        b.add (Vector.smul f3 (d.sub b)), d])
      = signedVolume ![a, b, c, d] := by
  simp only [signedVolume_eq, Vector.add, Vector.sub, Vector.smul]
  ring

/-- C27: for every tetrahedron and every three fractions, the signed volumes
of the three tetrahedra into which `prismOp` splits `tetCutPrism0(x, f)` add
up to `(1 - f0*f1*f2)` times the signed volume of `x`, the signed volume of
`tetCutTet(x, f)` is `f0*f1*f2` times it, and the two together give the
signed volume of `x`. -/
theorem tetCut_vertex0_conserves_volume (x : FixedList Vector 4)
    (f : FixedList scalar 3) :
    tetCutPrism0Op (fun (_ : Unit) t => signedVolume t) () x f
        = (1 - f 0 * f 1 * f 2) * signedVolume x
    ∧ tetCutTetOp (fun (_ : Unit) t => signedVolume t) () x f
        = f 0 * f 1 * f 2 * signedVolume x
    ∧ tetCutTetOp (fun (_ : Unit) t => signedVolume t) () x f
        + tetCutPrism0Op (fun (_ : Unit) t => signedVolume t) () x f
        = signedVolume x := by
  have h1 : tetCutPrism0Op (fun (_ : Unit) t => signedVolume t) () x f
      = (1 - f 0 * f 1 * f 2) * signedVolume x := by
    rw [tetCutPrism0Op, prismOp_eq, tetCutPrism0_eq]
    conv_rhs => rw [fixedList4_eta x]
    exact prism0_volume (x 0) (x 1) (x 2) (x 3) (f 0) (f 1) (f 2)
  have h2 : tetCutTetOp (fun (_ : Unit) t => signedVolume t) () x f
      = f 0 * f 1 * f 2 * signedVolume x := by
    have ht : tetCutTet x f
        = ![x 0, (x 0).add (Vector.smul (f 0) ((x 1).sub (x 0))),
            (x 0).add (Vector.smul (f 1) ((x 2).sub (x 0))),
            (x 0).add (Vector.smul (f 2) ((x 3).sub (x 0)))] := by
      funext k
      fin_cases k <;> rfl
    rw [tetCutTetOp, ht]
    conv_rhs => rw [fixedList4_eta x]
    exact tet0_volume (x 0) (x 1) (x 2) (x 3) (f 0) (f 1) (f 2)
  refine ⟨h1, h2, ?_⟩
  rw [h1, h2]
  ring

/-- C28: for every tetrahedron and every four fractions, coplanar cut points
or not, the signed volumes of the three tetrahedra of `prismOp` on
`tetCutPrism01(x, f)` and of the three on `tetCutPrism23(x, f)` add up to the
signed volume of `x`. -/
theorem tetCut_edge_prisms_conserve_volume (x : FixedList Vector 4)
    (f : FixedList scalar 4) :
    tetCutPrism01Op (fun (_ : Unit) t => signedVolume t) () x f
        + tetCutPrism23Op (fun (_ : Unit) t => signedVolume t) () x f
      = signedVolume x := by
  rw [tetCutPrism01Op, tetCutPrism23Op, prismOp_eq, prismOp_eq,
    tetCutPrism23_explicit, tetCutPrism01_eq]
  conv_rhs => rw [fixedList4_eta x]
  exact prism01_23_volume (x 0) (x 1) (x 2) (x 3) (f 0) (f 1) (f 2) (f 3)

/-! ## Theorems: untriggered refinement and the frame of the motion points -/

/-- C25: outside couple-decouple mode and with the trigger unset,
`setRefinement` calls none of the three emitters, returns the edit list it was
given and leaves the whole object (attached flag, trigger flag, every cache)
as it was, attached or not.  In couple-decouple mode the object afterwards is
exactly the one the single emitter call left: `setRefinement` assigns nothing
itself, so the trigger flag changes only if that emitter changes it. -/
theorem setRefinement_untriggered_noop {ρ : Type} (X : Collaborators ρ)
    (s : slidingInterface) (ref : ρ) :
    (s.coupleDecouple_ = false → s.trigger_ = false →
      (setRefinement X s ref).calls = []
      ∧ (setRefinement X s ref).ref = ref
      ∧ (setRefinement X s ref).self = s)
    ∧ (s.coupleDecouple_ = true →
      (setRefinement X s ref).self
        = (if s.attached_ then (X.decoupleInterface s ref).1
            else (X.coupleInterface s ref).1)
      ∧ ((∀ t r, (X.coupleInterface t r).1.trigger_ = t.trigger_) →
          (∀ t r, (X.decoupleInterface t r).1.trigger_ = t.trigger_) →
          (setRefinement X s ref).self.trigger_ = s.trigger_)) := by
  refine ⟨?_, ?_⟩
  · intro hc ht
    simp [setRefinement, hc, ht]
  · intro hc
    by_cases ha : s.attached_ = true
    · simp only [setRefinement, hc, ha, if_true]
      exact ⟨trivial, fun _ hd => hd s ref⟩
    · have ha' : s.attached_ = false := by simpa using ha
      simp only [setRefinement, hc, ha', if_true]
      exact ⟨by simp, fun hcp _ => hcp s ref⟩

/-- Witness for C25: the attached interface outside couple-decouple mode with
its trigger unset is left alone, and in couple-decouple mode the trigger of
the detached interface stays unset. -/
theorem setRefinement_untriggered_noop_witness :
    attachedTriggerMode.coupleDecouple_ = false
    ∧ attachedTriggerMode.trigger_ = false
    ∧ ((setRefinement loggingCollaborators attachedTriggerMode []).calls = []
      ∧ (setRefinement loggingCollaborators attachedTriggerMode []).ref = []
      ∧ (setRefinement loggingCollaborators attachedTriggerMode []).self
          = attachedTriggerMode)
    ∧ (setRefinement loggingCollaborators detachedCoupleDecouple []).self.trigger_
        = detachedCoupleDecouple.trigger_ :=
  ⟨rfl, rfl,
   (setRefinement_untriggered_noop loggingCollaborators attachedTriggerMode
      []).1 rfl rfl,
   ((setRefinement_untriggered_noop loggingCollaborators
      detachedCoupleDecouple []).2 rfl).2 (fun _ _ => rfl) (fun _ _ => rfl)⟩

theorem assign_frame {α : Type} (xs xs' : List α) (i : label) (v : α)
    (h : assign xs i v = .ok xs') :
    xs'.length = xs.length
    ∧ ∀ j : Nat, (j : label) ≠ i → xs'.get? j = xs.get? j := by
  unfold assign at h
  split at h
  · rename_i hi
    simp only [Except.ok.injEq] at h
    subst h
    refine ⟨by simp, fun j hj => ?_⟩
    have hne : i.toNat ≠ j := by
      intro he
      apply hj
      rw [← he]
      exact Int.toNat_of_nonneg hi.1
    simp [List.getElem?_set_ne hne]
  · cases h

theorem index_mem {α : Type} (xs : List α) (i : label) (v : α)
    (h : index xs i = .ok v) : v ∈ xs := by
  unfold index at h
  split at h
  · split at h
    · rename_i hv
      simp only [Except.ok.injEq] at h
      subst h
      exact List.get?_mem hv
    · cases h
  · cases h

/-- The retired branch writes one entry, whose index is an entry of the cut
point zone. -/
theorem retiredCopy_frame (m : MotionInput) (psp mp mp' : List point)
    (pointi r : label) (ev : Event)
    (h : retiredCopy m psp mp pointi r = .ok (mp', ev)) :
    mp'.length = mp.length
    ∧ ∀ j : Nat, (j : label) ∉ m.cutPoints → mp'.get? j = mp.get? j := by
  unfold retiredCopy at h
  simp only [bind, Except.bind, pure, Except.pure] at h
  split at h
  · cases h
  · split at h
    · cases h
    · split at h
      · cases h
      · rename_i target ht
        split at h
        · cases h
        · rename_i mp1 ha
          simp only [Except.ok.injEq, Prod.mk.injEq] at h
          obtain ⟨rfl, -⟩ := h
          have hf := assign_frame _ _ _ _ ha
          refine ⟨hf.1, fun j hj => hf.2 j ?_⟩
          intro he
          exact hj (he ▸ index_mem _ _ _ ht)

/-- The edge branch writes at most the entry of the cut point itself. -/
theorem edgeCutApply_frame (G : Geometry) (s : slidingInterface) (d : EdgeCut)
    (mp mp' : List point) (pointi : label) (ev : Event)
    (h : edgeCutApply G s d mp pointi = .ok (mp', ev)) :
    mp'.length = mp.length
    ∧ ∀ j : Nat, (j : label) ≠ pointi → mp'.get? j = mp.get? j := by
  unfold edgeCutApply at h
  split at h
  · split at h
    · split at h
      · split at h
        · rename_i mp1 ha
          simp only [Except.ok.injEq, Prod.mk.injEq] at h
          obtain ⟨rfl, -⟩ := h
          exact assign_frame _ _ _ _ ha
        · cases h
      · simp only [Except.ok.injEq, Prod.mk.injEq] at h
        obtain ⟨rfl, -⟩ := h
        exact ⟨rfl, fun _ _ => rfl⟩
    · simp only [Except.ok.injEq, Prod.mk.injEq] at h
      obtain ⟨rfl, -⟩ := h
      exact ⟨rfl, fun _ _ => rfl⟩
  · simp only [Except.ok.injEq, Prod.mk.injEq] at h
    obtain ⟨rfl, -⟩ := h
    exact ⟨rfl, fun _ _ => rfl⟩

theorem cutPointStep_frame (G : Geometry) (s : slidingInterface)
    (m : MotionInput) (psp mp mp' : List point) (pointi : label) (ev : Event)
    (hp : pointi ∈ m.cutPoints)
    (h : cutPointStep G s m psp mp pointi = .ok (mp', ev)) :
    mp'.length = mp.length
    ∧ ∀ j : Nat, (j : label) ∉ m.cutPoints → mp'.get? j = mp.get? j := by
  unfold cutPointStep at h
  split at h
  · exact retiredCopy_frame _ _ _ _ _ _ _ h
  · split at h
    · split at h
      · have hf := edgeCutApply_frame _ _ _ _ _ _ _ h
        refine ⟨hf.1, fun j hj => hf.2 j ?_⟩
        intro he
        exact hj (he ▸ hp)
      · cases h
    · cases h

theorem cutPointLoop_frame (G : Geometry) (s : slidingInterface)
    (m : MotionInput) (psp : List point) (todo : List label) :
    (∀ p ∈ todo, p ∈ m.cutPoints) →
    ∀ (mp : List point) (evs : List Event) (mp' : List point)
      (evs' : List Event),
      cutPointLoop G s m psp todo mp evs = .ok (mp', evs') →
      mp'.length = mp.length
      ∧ ∀ j : Nat, (j : label) ∉ m.cutPoints → mp'.get? j = mp.get? j := by
  induction todo with
  | nil =>
    intro _ mp evs mp' evs' h
    simp only [cutPointLoop, Except.ok.injEq, Prod.mk.injEq] at h
    obtain ⟨rfl, -⟩ := h
    exact ⟨rfl, fun _ _ => rfl⟩
  | cons p rest ih =>
    intro hsub mp evs mp' evs' h
    simp only [cutPointLoop] at h
    split at h
    · rename_i mp1 ev hstep
      have h1 := cutPointStep_frame G s m psp mp mp1 p ev
        (hsub p (List.mem_cons_self _ _)) hstep
      have h2 := ih (fun q hq => hsub q (List.mem_cons_of_mem _ hq)) _ _ _ _ h
      exact ⟨h2.1.trans h1.1, fun j hj => (h2.2 j hj).trans (h1.2 j hj)⟩
    · cases h

/-- The frame of `modifyMotionPoints`: with a non-empty zone and no projected
points the call returns the motion points it was given; and whenever the call
returns, the array has kept its length and every entry whose index is not a
label of the cut point zone. -/
theorem modifyMotionPoints_frame (G : Geometry) (s : slidingInterface)
    (m : MotionInput) (mp : List point) :
    (m.cutPoints.length ≠ 0 → s.projectedSlavePointsPtr_ = none →
      modifyMotionPoints G s m mp = .ok (mp, []))
    ∧ ∀ mp' evs, modifyMotionPoints G s m mp = .ok (mp', evs) →
        mp'.length = mp.length
        ∧ ∀ j : Nat, (j : label) ∉ m.cutPoints → mp'.get? j = mp.get? j := by
  refine ⟨?_, ?_⟩
  · intro h1 h2
    unfold modifyMotionPoints
    rw [if_pos ⟨h1, h2⟩]
  · intro mp' evs h
    unfold modifyMotionPoints at h
    split at h
    · simp only [Except.ok.injEq, Prod.mk.injEq] at h
      obtain ⟨rfl, -⟩ := h
      exact ⟨rfl, fun _ _ => rfl⟩
    · exact cutPointLoop_frame G s m _ m.cutPoints (fun _ hp => hp) _ _ _ _ h

/-- C26 fails on the code in its last part: in the zone `(1 0)` cut point 0
is backed by an edge pair and its master edge is missed (fraction -1), so its
own step writes nothing; but the retired cut point 1, visited first, writes
its projected slave point to the entry `cutPoints[1]`, which is entry 0.  The
call returns with motion point 0 moved from (7,7,7) to the origin and motion
point 1, the retired point, where it was. -/
theorem failed_edge_cut_point_is_overwritten :
    modifyMotionPoints axisGeometry projectedInterface swappedCrossing
        sixPoints
      = .ok ([⟨0, 0, 0⟩, ⟨8, 8, 8⟩, ⟨0, 0, 0⟩, ⟨1, 0, 0⟩, ⟨1/2, -1, 0⟩,
              ⟨1/2, 1, 0⟩], [Event.retired 1, Event.missedMasterEdge 0])
    ∧ index sixPoints 0 = .ok ⟨7, 7, 7⟩
    ∧ swappedCrossing.retiredPointMap.cfind 0 = none
    ∧ swappedCrossing.cutPointEdgePairMap.cfind 0 = some (⟨4, 5⟩, ⟨2, 3⟩)
    ∧ (∀ mp, cutPointStep axisGeometry projectedInterface swappedCrossing
        unitProjection mp 0 = .ok (mp, Event.missedMasterEdge 0))
    ∧ swappedCrossing.retiredPointMap.cfind 1 = some 2
    ∧ index swappedCrossing.cutPoints 1 = .ok 0 := by
  refine ⟨by with_unfolding_all rfl, rfl, rfl, rfl, ?_, rfl, rfl⟩
  intro mp
  rw [cutPointStep_edge axisGeometry projectedInterface swappedCrossing
    unitProjection mp 0 (⟨4, 5⟩, ⟨2, 3⟩) (masterCut 1 2 0 (-1)) rfl rfl
    (by with_unfolding_all rfl)]
  unfold edgeCutApply
  rw [if_neg (by with_unfolding_all decide)]

/-! ## Theorems: interpolation between lumped points -/

/-- C29: an interpolator whose nearest point is set returns `c` for every
input whose entry at the nearest point is `c` and whose entries at the two
next points, where they are read, are `c` too, whatever the two stored
weights; `weight0 + weight1 + weight2` is 1.  An interpolator whose nearest
point is -1 returns zero.  When the nearest point is set and the next point
is -1 or the nearest point itself, the result is the access
`input[nearest]`, the same for all weights. -/
theorem interpolate_reproduces_constants {T : Type} [AddCommGroup T]
    [Module scalar T] (I : lumpedPointInterpolator) (input : List T) (c : T) :
    (I.nearest_ ≠ -1 → index input I.nearest_ = .ok c →
      (¬ (I.next1_ = -1 ∨ I.next1_ = I.nearest_) →
        index input I.next1_ = .ok c ∧ index input I.next2_ = .ok c) →
      ∀ w1 w2, ({ I with weight1_ := w1, weight2_ := w2 }
        : lumpedPointInterpolator).interpolate input = .ok c)
    ∧ I.weight0 + I.weight1_ + I.weight2_ = 1
    ∧ (I.nearest_ = -1 → I.interpolate input = .ok 0)
    ∧ (I.nearest_ ≠ -1 → (I.next1_ = -1 ∨ I.next1_ = I.nearest_) →
      ∀ w1 w2, ({ I with weight1_ := w1, weight2_ := w2 }
        : lumpedPointInterpolator).interpolate input = index input I.nearest_) := by
  refine ⟨?_, ?_, ?_, ?_⟩
  · intro hn h0 h12 w1 w2
    unfold lumpedPointInterpolator.interpolate
    simp only [if_neg hn]
    by_cases hx : I.next1_ = -1 ∨ I.next1_ = I.nearest_
    · rw [if_pos hx, h0]
    · rw [if_neg hx, h0, (h12 hx).1, (h12 hx).2]
      simp only [bind, Except.bind, pure, Except.pure]
      rw [← add_smul, ← add_smul]
      have : (1 - w1 - w2 + w1 + w2 : scalar) = 1 := by ring
      rw [this, one_smul]
  · unfold lumpedPointInterpolator.weight0
    ring
  · intro hn
    unfold lumpedPointInterpolator.interpolate
    rw [if_pos hn]
  · intro hn hx w1 w2
    unfold lumpedPointInterpolator.interpolate
    simp only [if_neg hn, if_pos hx]

/-- Witness for C29: three entries equal to 5 interpolate to 5 with the
weights 1/2, 1/3, 1/6 and with any other pair of weights. -/
theorem interpolate_reproduces_constants_witness :
    threePointInterpolator.nearest_ ≠ -1
    ∧ index [(5 : scalar), 5, 5] threePointInterpolator.nearest_ = .ok 5
    ∧ index [(5 : scalar), 5, 5] threePointInterpolator.next1_ = .ok 5
    ∧ index [(5 : scalar), 5, 5] threePointInterpolator.next2_ = .ok 5
    ∧ ({ threePointInterpolator with weight1_ := 1/3, weight2_ := 1/6 }
        : lumpedPointInterpolator).interpolate [(5 : scalar), 5, 5] = .ok 5 :=
  ⟨by decide, rfl, rfl, rfl,
   (interpolate_reproduces_constants threePointInterpolator
      [(5 : scalar), 5, 5] 5).1 (by decide) rfl (fun _ => ⟨rfl, rfl⟩)
      (1/3) (1/6)⟩

/-! ## Theorems: bit operations -/

theorem numberOfOneBits_succ (w x : Nat) :
    BitOps.numberOfOneBits (w + 1) x
      = x % 2 + BitOps.numberOfOneBits w (x / 2) := by
  unfold BitOps.numberOfOneBits
  rw [List.range_succ_eq_map, List.filter_cons, List.filter_map]
  have hf : ((fun i => x.testBit i) ∘ Nat.succ) = fun i => (x / 2).testBit i := by
    funext i
    simp [Nat.testBit_succ]
  rw [hf]
  rcases Nat.mod_two_eq_zero_or_one x with h | h
  · simp [h]
  · simp [h, Nat.add_comm]

theorem numberOfOneBits_zero (w : Nat) : BitOps.numberOfOneBits w 0 = 0 := by
  simp [BitOps.numberOfOneBits]

/-- Clearing the lowest set bit takes one from the number of 1 bits. -/
theorem numberOfOneBits_clear_lowest (w : Nat) :
    ∀ x, 0 < x → x < 2 ^ w →
      BitOps.numberOfOneBits w (x &&& (x - 1)) + 1
        = BitOps.numberOfOneBits w x := by
  induction w with
  | zero => intro x h0 h1; simp at h1; omega
  | succ w ih =>
    intro x h0 h1
    rw [numberOfOneBits_succ, numberOfOneBits_succ, Nat.and_div_two]
    rcases Nat.mod_two_eq_zero_or_one x with h | h
    · have hx2 : 0 < x / 2 := by omega
      have hlt : x / 2 < 2 ^ w := by
        rw [Nat.pow_succ] at h1
        omega
      have hd : (x - 1) / 2 = x / 2 - 1 := by omega
      have hm : (x &&& (x - 1)) % 2 = 0 := by
        rcases Nat.mod_two_eq_zero_or_one (x &&& (x - 1)) with h' | h'
        · exact h'
        · have := (Nat.and_mod_two_eq_one).mp h'
          omega
      rw [hm, h, hd, Nat.zero_add, Nat.zero_add, ih _ hx2 hlt]
    · have hd : (x - 1) / 2 = x / 2 := by omega
      have hm : (x &&& (x - 1)) % 2 = 0 := by
        rcases Nat.mod_two_eq_zero_or_one (x &&& (x - 1)) with h' | h'
        · exact h'
        · have := (Nat.and_mod_two_eq_one).mp h'
          omega
      rw [hm, h, hd, Nat.and_self]
      omega

theorem bit_count_loop_eq (w : Nat) :
    ∀ c x n, BitOps.numberOfOneBits w x = c → x < 2 ^ w →
      BitOps.bit_count_loop x n = n + c := by
  intro c
  induction c with
  | zero =>
    intro x n hc hx
    rw [BitOps.bit_count_loop]
    by_cases h : x = 0
    · simp [h]
    · have := numberOfOneBits_clear_lowest w x (Nat.pos_of_ne_zero h) hx
      omega
  | succ c ih =>
    intro x n hc hx
    rw [BitOps.bit_count_loop]
    by_cases h : x = 0
    · subst h
      rw [numberOfOneBits_zero] at hc
      omega
    · have h1 := numberOfOneBits_clear_lowest w x (Nat.pos_of_ne_zero h) hx
      have h2 : x &&& (x - 1) < 2 ^ w :=
        Nat.lt_of_le_of_lt Nat.and_le_left hx
      rw [dif_neg h, ih _ _ (by omega) h2]
      omega

/-- The loop variable after `k` rounds has `k` one bits less, and is not zero
before the last round. -/
theorem bit_count_rounds (w : Nat) :
    ∀ k x, x < 2 ^ w → k ≤ BitOps.numberOfOneBits w x →
      ((fun x => x &&& (x - 1))^[k] x) < 2 ^ w
      ∧ BitOps.numberOfOneBits w ((fun x => x &&& (x - 1))^[k] x) + k
        = BitOps.numberOfOneBits w x := by
  intro k
  induction k with
  | zero => intro x hx _; exact ⟨hx, rfl⟩
  | succ k ih =>
    intro x hx hk
    obtain ⟨h1, h2⟩ := ih x hx (by omega)
    rw [Function.iterate_succ_apply']
    have hpos : 0 < (fun x => x &&& (x - 1))^[k] x := by
      rcases Nat.eq_zero_or_pos ((fun x => x &&& (x - 1))^[k] x) with h | h
      · rw [h, numberOfOneBits_zero] at h2
        omega
      · exact h
    have h3 := numberOfOneBits_clear_lowest w _ hpos h1
    exact ⟨Nat.lt_of_le_of_lt Nat.and_le_left h1, by omega⟩

theorem numberOfOneBits_eq_zero (w : Nat) (y : Nat) (hy : y < 2 ^ w)
    (h : BitOps.numberOfOneBits w y = 0) : y = 0 := by
  rcases Nat.eq_zero_or_pos y with h0 | h0
  · exact h0
  · have := numberOfOneBits_clear_lowest w y h0 hy
    omega

theorem and_div_two_pow (a b n : Nat) :
    (a &&& b) / 2 ^ n = a / 2 ^ n &&& b / 2 ^ n := by
  apply Nat.eq_of_testBit_eq
  intro i
  simp only [← Nat.shiftRight_eq_div_pow, Nat.testBit_shiftRight,
    Nat.testBit_and]

theorem and_mod_two_pow (a b n : Nat) :
    (a &&& b) % 2 ^ n = a % 2 ^ n &&& b % 2 ^ n := by
  apply Nat.eq_of_testBit_eq
  intro i
  simp only [Nat.testBit_mod_two_pow, Nat.testBit_and]
  cases decide (i < n) <;> simp

/-- The bitwise AND of two values works on the lowest byte and on the rest
apart. -/
theorem and_split_byte (lo hi c m : Nat) (hlo : lo < 256) (hc : c < 256) :
    (lo + 256 * hi) &&& (c + 256 * m) = (lo &&& c) + 256 * (hi &&& m) := by
  have h1 := and_mod_two_pow (lo + 256 * hi) (c + 256 * m) 8
  have h2 := and_div_two_pow (lo + 256 * hi) (c + 256 * m) 8
  have e1 : (lo + 256 * hi) % 2 ^ 8 = lo := by omega
  have e2 : (c + 256 * m) % 2 ^ 8 = c := by omega
  have e3 : (lo + 256 * hi) / 2 ^ 8 = hi := by omega
  have e4 : (c + 256 * m) / 2 ^ 8 = m := by omega
  rw [e1, e2] at h1
  rw [e3, e4] at h2
  have := Nat.mod_add_div ((lo + 256 * hi) &&& (c + 256 * m)) (2 ^ 8)
  rw [h1, h2] at this
  omega

theorem and_drop_high (a e c n : Nat) (ha : a < 2 ^ n) (hc : c < 2 ^ n) :
    (a + 2 ^ n * e) &&& c = a &&& c := by
  have h1 := and_mod_two_pow (a + 2 ^ n * e) c n
  have e1 : (a + 2 ^ n * e) % 2 ^ n = a := by
    rw [Nat.add_mul_mod_self_left, Nat.mod_eq_of_lt ha]
  rw [e1, Nat.mod_eq_of_lt hc,
    Nat.mod_eq_of_lt (Nat.lt_of_le_of_lt Nat.and_le_right hc)] at h1
  exact h1

theorem mapBytes_lt (f : Nat → Nat) (hf : ∀ b, b < 256 → f b < 256) :
    ∀ k x, BitOps.mapBytes f k x < 256 ^ k := by
  intro k
  induction k with
  | zero => intro x; simp [BitOps.mapBytes]
  | succ k ih =>
    intro x
    have h1 := hf (x % 256) (Nat.mod_lt _ (by decide))
    have h2 := ih (x / 256)
    simp only [BitOps.mapBytes, Nat.pow_succ]
    omega

theorem mapBytes_comp (f g : Nat → Nat) (hf : ∀ b, b < 256 → f b < 256) :
    ∀ k x, BitOps.mapBytes g k (BitOps.mapBytes f k x)
      = BitOps.mapBytes (fun b => g (f b)) k x := by
  intro k
  induction k with
  | zero => intro x; simp [BitOps.mapBytes]
  | succ k ih =>
    intro x
    have h1 := hf (x % 256) (Nat.mod_lt _ (by decide))
    simp only [BitOps.mapBytes]
    have e1 : (f (x % 256) + 256 * BitOps.mapBytes f k (x / 256)) % 256
        = f (x % 256) := by omega
    have e2 : (f (x % 256) + 256 * BitOps.mapBytes f k (x / 256)) / 256
        = BitOps.mapBytes f k (x / 256) := by omega
    rw [e1, e2, ih]

theorem mapBytes_congr (f g : Nat → Nat) (h : ∀ b, b < 256 → f b = g b) :
    ∀ k x, BitOps.mapBytes f k x = BitOps.mapBytes g k x := by
  intro k
  induction k with
  | zero => intro x; simp [BitOps.mapBytes]
  | succ k ih =>
    intro x
    simp only [BitOps.mapBytes]
    rw [h _ (Nat.mod_lt _ (by decide)), ih]

/-- First step of the Hamming weight method on `k` bytes. -/
theorem pairCounts_bytes :
    ∀ k x, x < 256 ^ k →
      x - ((x / 2) &&& BitOps.byteMask 0x55 k)
        = BitOps.mapBytes BitOps.pairCounts k x := by
  intro k
  induction k with
  | zero =>
    intro x hx
    simp only [BitOps.mapBytes]
    simp at hx
    omega
  | succ k ih =>
    intro x hx
    have hhi : x / 256 < 256 ^ k := by
      rw [Nat.pow_succ] at hx
      omega
    have hlo : x % 256 < 256 := Nat.mod_lt _ (by decide)
    have e : x / 2
        = (x % 256 / 2 + 2 ^ 7 * (x / 256 % 2)) + 256 * (x / 256 / 2) := by
      omega
    have hA : x % 256 / 2 + 2 ^ 7 * (x / 256 % 2) < 256 := by omega
    simp only [BitOps.mapBytes, BitOps.byteMask]
    rw [e, and_split_byte _ _ _ _ hA (by decide),
      and_drop_high _ _ _ 7 (by omega) (by decide), ← ih _ hhi]
    have h1 : x % 256 / 2 &&& 0x55 ≤ x % 256 / 2 := Nat.and_le_left
    have h2 : x / 256 / 2 &&& BitOps.byteMask 0x55 k ≤ x / 256 / 2 :=
      Nat.and_le_left
    unfold BitOps.pairCounts
    omega

/-- Second step of the Hamming weight method on `k` bytes. -/
theorem nibbleCounts_bytes :
    ∀ k y, y < 256 ^ k →
      (y &&& BitOps.byteMask 0x33 k) + ((y / 4) &&& BitOps.byteMask 0x33 k)
        = BitOps.mapBytes BitOps.nibbleCounts k y := by
  intro k
  induction k with
  | zero =>
    intro y hy
    simp [BitOps.mapBytes, BitOps.byteMask]
  | succ k ih =>
    intro y hy
    have hhi : y / 256 < 256 ^ k := by
      rw [Nat.pow_succ] at hy
      omega
    have hlo : y % 256 < 256 := Nat.mod_lt _ (by decide)
    have e0 : y = y % 256 + 256 * (y / 256) := by omega
    have e : y / 4
        = (y % 256 / 4 + 2 ^ 6 * (y / 256 % 4)) + 256 * (y / 256 / 4) := by
      omega
    have hA : y % 256 / 4 + 2 ^ 6 * (y / 256 % 4) < 256 := by omega
    simp only [BitOps.mapBytes, BitOps.byteMask]
    have hfirst := and_split_byte (y % 256) (y / 256) 0x33
      (BitOps.byteMask 0x33 k) hlo (by decide)
    rw [← e0] at hfirst
    rw [hfirst, e, and_split_byte _ _ _ _ hA (by decide),
      and_drop_high _ _ _ 6 (by omega) (by decide), ← ih _ hhi]
    unfold BitOps.nibbleCounts
    omega

/-- Third step of the Hamming weight method on `k` bytes whose two halves
each hold at most 4. -/
theorem byteCounts_bytes (f : Nat → Nat)
    (hf : ∀ b, b < 256 → f b ≤ 68 ∧ f b % 16 ≤ 4) :
    ∀ k x, BitOps.mapBytes f k x % 16 ≤ 4
      ∧ BitOps.mapBytes f k x + BitOps.mapBytes f k x / 16 < 256 ^ k
      ∧ (BitOps.mapBytes f k x + BitOps.mapBytes f k x / 16)
          &&& BitOps.byteMask 0x0F k
        = BitOps.mapBytes (fun b => (f b + f b / 16) % 16) k x := by
  intro k
  induction k with
  | zero => intro x; simp [BitOps.mapBytes, BitOps.byteMask]
  | succ k ih =>
    intro x
    obtain ⟨h1, h2⟩ := hf (x % 256) (Nat.mod_lt _ (by decide))
    obtain ⟨i1, i2, i3⟩ := ih (x / 256)
    simp only [BitOps.mapBytes, BitOps.byteMask]
    generalize f (x % 256) = a at h1 h2 ⊢
    generalize BitOps.mapBytes f k (x / 256) = r at i1 i2 i3 ⊢
    have e : a + 256 * r + (a + 256 * r) / 16
        = (a + a / 16 + 16 * (r % 16)) + 256 * (r + r / 16) := by omega
    have hA : a + a / 16 + 16 * (r % 16) < 256 := by omega
    refine ⟨by omega, ?_, ?_⟩
    · rw [Nat.pow_succ]
      omega
    · rw [e, and_split_byte _ _ _ _ hA (by decide), i3]
      have h15 : (a + a / 16 + 16 * (r % 16)) &&& 0x0F
          = (a + a / 16 + 16 * (r % 16)) % 2 ^ 4 :=
        Nat.and_pow_two_sub_one_eq_mod _ 4
      rw [h15]
      omega

set_option maxRecDepth 100000 in
theorem byte_facts :
    ∀ b, b < 256 →
      BitOps.pairCounts b < 256
      ∧ BitOps.nibbleCounts (BitOps.pairCounts b) ≤ 68
      ∧ BitOps.nibbleCounts (BitOps.pairCounts b) % 16 ≤ 4
      ∧ (BitOps.nibbleCounts (BitOps.pairCounts b)
          + BitOps.nibbleCounts (BitOps.pairCounts b) / 16) % 16
        = b % 2 + b / 2 % 2 + b / 4 % 2 + b / 8 % 2 + b / 16 % 2 + b / 32 % 2
          + b / 64 % 2 + b / 128 % 2 := by
  decide

theorem numberOfOneBits_byte (b : Nat) :
    BitOps.numberOfOneBits 8 b
      = b % 2 + b / 2 % 2 + b / 4 % 2 + b / 8 % 2 + b / 16 % 2 + b / 32 % 2
          + b / 64 % 2 + b / 128 % 2 := by
  have h0 : ∀ y, BitOps.numberOfOneBits 0 y = 0 := fun y => rfl
  have e8 : (8 : Nat) = 0 + 1 + 1 + 1 + 1 + 1 + 1 + 1 + 1 := rfl
  rw [e8]
  rw [numberOfOneBits_succ, numberOfOneBits_succ, numberOfOneBits_succ,
    numberOfOneBits_succ, numberOfOneBits_succ, numberOfOneBits_succ,
    numberOfOneBits_succ, numberOfOneBits_succ, h0]
  omega

theorem numberOfOneBits_add (w : Nat) :
    ∀ a y, BitOps.numberOfOneBits (w + a) y
      = BitOps.numberOfOneBits a (y % 2 ^ a)
        + BitOps.numberOfOneBits w (y / 2 ^ a) := by
  intro a
  induction a with
  | zero =>
    intro y
    have h0 : ∀ z, BitOps.numberOfOneBits 0 z = 0 := fun z => rfl
    simp [h0]
  | succ a ih =>
    intro y
    have e1 : y % 2 ^ (a + 1) % 2 = y % 2 := by
      rw [Nat.pow_succ, Nat.mul_comm, Nat.mod_mul_right_mod]
    have e2 : y % 2 ^ (a + 1) / 2 = y / 2 % 2 ^ a := by
      rw [Nat.pow_succ, Nat.mul_comm, Nat.mod_mul_right_div_self]
    have e3 : y / 2 / 2 ^ a = y / 2 ^ (a + 1) := by
      rw [Nat.div_div_eq_div_mul, Nat.pow_succ, Nat.mul_comm]
    rw [← Nat.add_assoc, numberOfOneBits_succ, numberOfOneBits_succ, ih,
      e1, e2, e3]
    omega

theorem numberOfOneBits_add_byte (w x : Nat) :
    BitOps.numberOfOneBits (w + 8) x
      = BitOps.numberOfOneBits 8 (x % 256)
        + BitOps.numberOfOneBits w (x / 256) :=
  numberOfOneBits_add w 8 x

/-- The three masking steps of the Hamming weight method leave in each of the
`k` bytes the number of 1 bits of that byte of `x`. -/
theorem hamming_bytes (k x : Nat) :
    BitOps.mapBytes BitOps.pairCounts k x < 256 ^ k
    ∧ BitOps.mapBytes BitOps.nibbleCounts k
        (BitOps.mapBytes BitOps.pairCounts k x) < 256 ^ k
    ∧ BitOps.mapBytes BitOps.nibbleCounts k
          (BitOps.mapBytes BitOps.pairCounts k x)
        + BitOps.mapBytes BitOps.nibbleCounts k
          (BitOps.mapBytes BitOps.pairCounts k x) / 16 < 256 ^ k
    ∧ (BitOps.mapBytes BitOps.nibbleCounts k
          (BitOps.mapBytes BitOps.pairCounts k x)
        + BitOps.mapBytes BitOps.nibbleCounts k
          (BitOps.mapBytes BitOps.pairCounts k x) / 16)
          &&& BitOps.byteMask 0x0F k
      = BitOps.mapBytes (BitOps.numberOfOneBits 8) k x := by
  have hp : ∀ b, b < 256 → BitOps.pairCounts b < 256 :=
    fun b hb => (byte_facts b hb).1
  have hc := mapBytes_comp BitOps.pairCounts BitOps.nibbleCounts hp k x
  have h3 := byteCounts_bytes
    (fun b => BitOps.nibbleCounts (BitOps.pairCounts b))
    (fun b hb => ⟨(byte_facts b hb).2.1, (byte_facts b hb).2.2.1⟩) k x
  rw [hc]
  refine ⟨mapBytes_lt _ hp k x, ?_, h3.2.1, ?_⟩
  · exact mapBytes_lt _
      (fun b hb => by have := (byte_facts b hb).2.1; omega) k x
  · rw [h3.2.2]
    apply mapBytes_congr
    intro b hb
    rw [numberOfOneBits_byte b]
    exact (byte_facts b hb).2.2.2

theorem numberOfOneBits_le (w x : Nat) : BitOps.numberOfOneBits w x ≤ w := by
  unfold BitOps.numberOfOneBits
  exact (List.length_filter_le _ _).trans (by simp)

/-- The multiplication by `0x01010101` adds the four bytes into the highest
byte. -/
theorem sum_bytes32 (m n o p : Nat) (hm : m ≤ 8) (hn : n ≤ 8) (ho : o ≤ 8)
    (hp : p ≤ 8) :
    ((m + 256 * (n + 256 * (o + 256 * (p + 256 * 0)))) * 0x01010101)
        % 2 ^ 32 / 2 ^ 24
      = m + (n + (o + (p + 0))) := by
  have hT : (m + 256 * (n + 256 * (o + 256 * (p + 256 * 0)))) * 0x01010101
      = (m + 256 * (m + n) + 65536 * (m + n + o)
          + 2 ^ 24 * (m + n + o + p))
        + 2 ^ 32 * (n + 257 * o + 65793 * p) := by ring
  have hlt : m + 256 * (m + n) + 65536 * (m + n + o)
      + 2 ^ 24 * (m + n + o + p) < 2 ^ 32 := by omega
  have hlow : m + 256 * (m + n) + 65536 * (m + n + o) < 2 ^ 24 := by omega
  rw [hT, Nat.add_mul_mod_self_left, Nat.mod_eq_of_lt hlt,
    Nat.add_mul_div_left _ _ (Nat.pow_pos (by decide)), Nat.div_eq_of_lt hlow]
  omega

theorem bit_count_uint32_eq (x : Nat) (hx : x < 2 ^ 32) :
    BitOps.bit_count_uint32 x = BitOps.numberOfOneBits 32 x := by
  have hx' : x < 256 ^ 4 := by omega
  obtain ⟨b1, b2, b3, b4⟩ := hamming_bytes 4 x
  have s1 := pairCounts_bytes 4 x hx'
  have s2 := nibbleCounts_bytes 4 _ b1
  have m55 : BitOps.byteMask 0x55 4 = 0x55555555 := by decide
  have m33 : BitOps.byteMask 0x33 4 = 0x33333333 := by decide
  have m0F : BitOps.byteMask 0x0F 4 = 0x0F0F0F0F := by decide
  rw [m55] at s1
  rw [m33] at s2
  rw [m0F] at b4
  have e1 : (x + 2 ^ 32 - (x >>> 1 &&& 0x55555555)) % 2 ^ 32
      = BitOps.mapBytes BitOps.pairCounts 4 x := by
    have hsh : x >>> 1 = x / 2 := by simp [Nat.shiftRight_eq_div_pow]
    have hle : x / 2 &&& 0x55555555 ≤ x / 2 := Nat.and_le_left
    rw [hsh, ← s1]
    omega
  have e2 : ∀ y, y = BitOps.mapBytes BitOps.pairCounts 4 x →
      ((y &&& 0x33333333) + (y >>> 2 &&& 0x33333333)) % 2 ^ 32
        = BitOps.mapBytes BitOps.nibbleCounts 4
            (BitOps.mapBytes BitOps.pairCounts 4 x) := by
    intro y hy
    subst hy
    have hsh : ∀ y : Nat, y >>> 2 = y / 4 := by
      intro y; simp [Nat.shiftRight_eq_div_pow]
    rw [hsh, s2]
    omega
  have e3 : ∀ z, z = BitOps.mapBytes BitOps.nibbleCounts 4
        (BitOps.mapBytes BitOps.pairCounts 4 x) →
      ((z + z >>> 4) % 2 ^ 32 &&& 0x0F0F0F0F)
        = BitOps.mapBytes (BitOps.numberOfOneBits 8) 4 x := by
    intro z hz
    subst hz
    have hsh : ∀ y : Nat, y >>> 4 = y / 16 := by
      intro y; simp [Nat.shiftRight_eq_div_pow]
    rw [hsh, Nat.mod_eq_of_lt (by omega), b4]
  unfold BitOps.bit_count_uint32
  simp only []
  rw [e1, e2 _ rfl, e3 _ rfl]
  have h0 : ∀ z, BitOps.numberOfOneBits 0 z = 0 := fun z => rfl
  have a1 : BitOps.numberOfOneBits 32 x
      = BitOps.numberOfOneBits 8 (x % 256)
        + BitOps.numberOfOneBits 24 (x / 256) :=
    numberOfOneBits_add_byte 24 x
  have a2 : BitOps.numberOfOneBits 24 (x / 256)
      = BitOps.numberOfOneBits 8 (x / 256 % 256)
        + BitOps.numberOfOneBits 16 (x / 256 / 256) :=
    numberOfOneBits_add_byte 16 _
  have a3 : BitOps.numberOfOneBits 16 (x / 256 / 256)
      = BitOps.numberOfOneBits 8 (x / 256 / 256 % 256)
        + BitOps.numberOfOneBits 8 (x / 256 / 256 / 256) :=
    numberOfOneBits_add_byte 8 _
  have a4 : BitOps.numberOfOneBits 8 (x / 256 / 256 / 256)
      = BitOps.numberOfOneBits 8 (x / 256 / 256 / 256 % 256)
        + BitOps.numberOfOneBits 0 (x / 256 / 256 / 256 / 256) :=
    numberOfOneBits_add_byte 0 _
  rw [a1, a2, a3, a4, h0]
  simp only [BitOps.mapBytes]
  have c0 := numberOfOneBits_le 8 (x % 256)
  have c1 := numberOfOneBits_le 8 (x / 256 % 256)
  have c2 := numberOfOneBits_le 8 (x / 256 / 256 % 256)
  have c3 := numberOfOneBits_le 8 (x / 256 / 256 / 256 % 256)
  generalize BitOps.numberOfOneBits 8 (x % 256) = n0 at c0 ⊢
  generalize BitOps.numberOfOneBits 8 (x / 256 % 256) = n1 at c1 ⊢
  generalize BitOps.numberOfOneBits 8 (x / 256 / 256 % 256) = n2 at c2 ⊢
  generalize BitOps.numberOfOneBits 8 (x / 256 / 256 / 256 % 256) = n3 at c3 ⊢
  rw [Nat.shiftRight_eq_div_pow]
  exact sum_bytes32 n0 n1 n2 n3 c0 c1 c2 c3

/-- The multiplication by `0x0101010101010101` adds the eight bytes into the
highest byte. -/
theorem sum_bytes64 (n0 n1 n2 n3 n4 n5 n6 n7 : Nat) (h0 : n0 ≤ 8)
    (h1 : n1 ≤ 8) (h2 : n2 ≤ 8) (h3 : n3 ≤ 8) (h4 : n4 ≤ 8) (h5 : n5 ≤ 8)
    (h6 : n6 ≤ 8) (h7 : n7 ≤ 8) :
    ((n0 + 256 * (n1 + 256 * (n2 + 256 * (n3 + 256 * (n4 + 256 * (n5
        + 256 * (n6 + 256 * (n7 + 256 * 0)))))))) * 0x0101010101010101)
        % 2 ^ 64 / 2 ^ 56
      = n0 + (n1 + (n2 + (n3 + (n4 + (n5 + (n6 + (n7 + 0))))))) := by
  have hlow : n0 + 2 ^ 8 * (n0 + n1) + 2 ^ 16 * (n0 + n1 + n2)
      + 2 ^ 24 * (n0 + n1 + n2 + n3) + 2 ^ 32 * (n0 + n1 + n2 + n3 + n4)
      + 2 ^ 40 * (n0 + n1 + n2 + n3 + n4 + n5)
      + 2 ^ 48 * (n0 + n1 + n2 + n3 + n4 + n5 + n6) < 2 ^ 56 := by omega
  have hlt : n0 + 2 ^ 8 * (n0 + n1) + 2 ^ 16 * (n0 + n1 + n2)
      + 2 ^ 24 * (n0 + n1 + n2 + n3) + 2 ^ 32 * (n0 + n1 + n2 + n3 + n4)
      + 2 ^ 40 * (n0 + n1 + n2 + n3 + n4 + n5)
      + 2 ^ 48 * (n0 + n1 + n2 + n3 + n4 + n5 + n6)
      + 2 ^ 56 * (n0 + n1 + n2 + n3 + n4 + n5 + n6 + n7) < 2 ^ 64 := by omega
  have hT : (n0 + 256 * (n1 + 256 * (n2 + 256 * (n3 + 256 * (n4 + 256 * (n5
        + 256 * (n6 + 256 * (n7 + 256 * 0)))))))) * 0x0101010101010101
      = (n0 + 2 ^ 8 * (n0 + n1) + 2 ^ 16 * (n0 + n1 + n2)
          + 2 ^ 24 * (n0 + n1 + n2 + n3) + 2 ^ 32 * (n0 + n1 + n2 + n3 + n4)
          + 2 ^ 40 * (n0 + n1 + n2 + n3 + n4 + n5)
          + 2 ^ 48 * (n0 + n1 + n2 + n3 + n4 + n5 + n6)
          + 2 ^ 56 * (n0 + n1 + n2 + n3 + n4 + n5 + n6 + n7))
        + 2 ^ 64 * (n1 + 257 * n2 + 65793 * n3 + 16843009 * n4
          + 4311810305 * n5 + 1103823438081 * n6 + 282578800148737 * n7) := by
    ring
  rw [hT, Nat.add_mul_mod_self_left, Nat.mod_eq_of_lt hlt,
    Nat.add_mul_div_left _ _ (Nat.pow_pos (by decide)),
    Nat.div_eq_of_lt hlow]
  clear hT hlt hlow
  omega

theorem bit_count_uint64_eq (x : Nat) (hx : x < 2 ^ 64) :
    BitOps.bit_count_uint64 x = BitOps.numberOfOneBits 64 x := by
  have hx' : x < 256 ^ 8 := by omega
  obtain ⟨b1, b2, b3, b4⟩ := hamming_bytes 8 x
  have s1 := pairCounts_bytes 8 x hx'
  have s2 := nibbleCounts_bytes 8 _ b1
  have m55 : BitOps.byteMask 0x55 8 = 0x5555555555555555 := by decide
  have m33 : BitOps.byteMask 0x33 8 = 0x3333333333333333 := by decide
  have m0F : BitOps.byteMask 0x0F 8 = 0x0F0F0F0F0F0F0F0F := by decide
  rw [m55] at s1
  rw [m33] at s2
  rw [m0F] at b4
  have e1 : (x + 2 ^ 64 - (x >>> 1 &&& 0x5555555555555555)) % 2 ^ 64
      = BitOps.mapBytes BitOps.pairCounts 8 x := by
    have hsh : x >>> 1 = x / 2 := by simp [Nat.shiftRight_eq_div_pow]
    have hle : x / 2 &&& 0x5555555555555555 ≤ x / 2 := Nat.and_le_left
    rw [hsh, ← s1]
    omega
  have e2 : ∀ y, y = BitOps.mapBytes BitOps.pairCounts 8 x →
      ((y &&& 0x3333333333333333) + (y >>> 2 &&& 0x3333333333333333))
          % 2 ^ 64
        = BitOps.mapBytes BitOps.nibbleCounts 8
            (BitOps.mapBytes BitOps.pairCounts 8 x) := by
    intro y hy
    subst hy
    have hsh : ∀ y : Nat, y >>> 2 = y / 4 := by
      intro y; simp [Nat.shiftRight_eq_div_pow]
    rw [hsh, s2]
    omega
  have e3 : ∀ z, z = BitOps.mapBytes BitOps.nibbleCounts 8
        (BitOps.mapBytes BitOps.pairCounts 8 x) →
      ((z + z >>> 4) % 2 ^ 64 &&& 0x0F0F0F0F0F0F0F0F)
        = BitOps.mapBytes (BitOps.numberOfOneBits 8) 8 x := by
    intro z hz
    subst hz
    have hsh : ∀ y : Nat, y >>> 4 = y / 16 := by
      intro y; simp [Nat.shiftRight_eq_div_pow]
    rw [hsh, Nat.mod_eq_of_lt (by omega), b4]
  unfold BitOps.bit_count_uint64
  simp only []
  rw [e1, e2 _ rfl, e3 _ rfl]
  have h0 : ∀ z, BitOps.numberOfOneBits 0 z = 0 := fun z => rfl
  have a1 : BitOps.numberOfOneBits 64 x
      = BitOps.numberOfOneBits 8 (x % 256)
        + BitOps.numberOfOneBits 56 (x / 256) :=
    numberOfOneBits_add_byte 56 x
  have a2 : BitOps.numberOfOneBits 56 (x / 256)
      = BitOps.numberOfOneBits 8 (x / 256 % 256)
        + BitOps.numberOfOneBits 48 (x / 256 / 256) :=
    numberOfOneBits_add_byte 48 _
  have a3 : BitOps.numberOfOneBits 48 (x / 256 / 256)
      = BitOps.numberOfOneBits 8 (x / 256 / 256 % 256)
        + BitOps.numberOfOneBits 40 (x / 256 / 256 / 256) :=
    numberOfOneBits_add_byte 40 _
  have a4 : BitOps.numberOfOneBits 40 (x / 256 / 256 / 256)
      = BitOps.numberOfOneBits 8 (x / 256 / 256 / 256 % 256)
        + BitOps.numberOfOneBits 32 (x / 256 / 256 / 256 / 256) :=
    numberOfOneBits_add_byte 32 _
  have a5 : BitOps.numberOfOneBits 32 (x / 256 / 256 / 256 / 256)
      = BitOps.numberOfOneBits 8 (x / 256 / 256 / 256 / 256 % 256)
        + BitOps.numberOfOneBits 24 (x / 256 / 256 / 256 / 256 / 256) :=
    numberOfOneBits_add_byte 24 _
  have a6 : BitOps.numberOfOneBits 24 (x / 256 / 256 / 256 / 256 / 256)
      = BitOps.numberOfOneBits 8 (x / 256 / 256 / 256 / 256 / 256 % 256)
        + BitOps.numberOfOneBits 16
          (x / 256 / 256 / 256 / 256 / 256 / 256) :=
    numberOfOneBits_add_byte 16 _
  have a7 : BitOps.numberOfOneBits 16 (x / 256 / 256 / 256 / 256 / 256 / 256)
      = BitOps.numberOfOneBits 8
          (x / 256 / 256 / 256 / 256 / 256 / 256 % 256)
        + BitOps.numberOfOneBits 8
          (x / 256 / 256 / 256 / 256 / 256 / 256 / 256) :=
    numberOfOneBits_add_byte 8 _
  have a8 : BitOps.numberOfOneBits 8
        (x / 256 / 256 / 256 / 256 / 256 / 256 / 256)
      = BitOps.numberOfOneBits 8
          (x / 256 / 256 / 256 / 256 / 256 / 256 / 256 % 256)
        + BitOps.numberOfOneBits 0
          (x / 256 / 256 / 256 / 256 / 256 / 256 / 256 / 256) :=
    numberOfOneBits_add_byte 0 _
  rw [a1, a2, a3, a4, a5, a6, a7, a8, h0]
  simp only [BitOps.mapBytes]
  have c0 := numberOfOneBits_le 8 (x % 256)
  have c1 := numberOfOneBits_le 8 (x / 256 % 256)
  have c2 := numberOfOneBits_le 8 (x / 256 / 256 % 256)
  have c3 := numberOfOneBits_le 8 (x / 256 / 256 / 256 % 256)
  have c4 := numberOfOneBits_le 8 (x / 256 / 256 / 256 / 256 % 256)
  have c5 := numberOfOneBits_le 8 (x / 256 / 256 / 256 / 256 / 256 % 256)
  have c6 := numberOfOneBits_le 8
    (x / 256 / 256 / 256 / 256 / 256 / 256 % 256)
  have c7 := numberOfOneBits_le 8
    (x / 256 / 256 / 256 / 256 / 256 / 256 / 256 % 256)
  generalize BitOps.numberOfOneBits 8 (x % 256) = n0 at c0 ⊢
  generalize BitOps.numberOfOneBits 8 (x / 256 % 256) = n1 at c1 ⊢
  generalize BitOps.numberOfOneBits 8 (x / 256 / 256 % 256) = n2 at c2 ⊢
  generalize BitOps.numberOfOneBits 8 (x / 256 / 256 / 256 % 256) = n3
    at c3 ⊢
  generalize BitOps.numberOfOneBits 8 (x / 256 / 256 / 256 / 256 % 256) = n4
    at c4 ⊢
  generalize BitOps.numberOfOneBits 8
    (x / 256 / 256 / 256 / 256 / 256 % 256) = n5 at c5 ⊢
  generalize BitOps.numberOfOneBits 8
    (x / 256 / 256 / 256 / 256 / 256 / 256 % 256) = n6 at c6 ⊢
  generalize BitOps.numberOfOneBits 8
    (x / 256 / 256 / 256 / 256 / 256 / 256 / 256 % 256) = n7 at c7 ⊢
  rw [Nat.shiftRight_eq_div_pow, sum_bytes64 n0 n1 n2 n3 n4 n5 n6 n7 c0 c1 c2
    c3 c4 c5 c6 c7]
  exact Nat.mod_eq_of_lt (by omega)

/-- C23: for every 32-bit value `x` the Hamming weight specialisation
`bit_count(uint32_t)` returns the number of 1 bits of `x`, and for every
64-bit value the specialisation `bit_count(uint64_t)` does; the generic loop
returns the same number, and its loop `x &= (x-1)` ends after exactly that
many rounds: the loop variable is zero after that many and not before. -/
theorem bit_count_is_population_count (x : Nat) :
    (x < 2 ^ 32 →
      BitOps.bit_count_uint32 x = BitOps.numberOfOneBits 32 x
      ∧ BitOps.bit_count x = BitOps.numberOfOneBits 32 x
      ∧ BitOps.bit_count_uint32 x = BitOps.bit_count x
      ∧ (fun x => x &&& (x - 1))^[BitOps.numberOfOneBits 32 x] x = 0
      ∧ ∀ k, k < BitOps.numberOfOneBits 32 x →
          (fun x => x &&& (x - 1))^[k] x ≠ 0)
    ∧ (x < 2 ^ 64 →
      BitOps.bit_count_uint64 x = BitOps.numberOfOneBits 64 x
      ∧ BitOps.bit_count x = BitOps.numberOfOneBits 64 x
      ∧ BitOps.bit_count_uint64 x = BitOps.bit_count x
      ∧ (fun x => x &&& (x - 1))^[BitOps.numberOfOneBits 64 x] x = 0
      ∧ ∀ k, k < BitOps.numberOfOneBits 64 x →
          (fun x => x &&& (x - 1))^[k] x ≠ 0) := by
  have loop : ∀ w, x < 2 ^ w →
      BitOps.bit_count x = BitOps.numberOfOneBits w x
      ∧ (fun x => x &&& (x - 1))^[BitOps.numberOfOneBits w x] x = 0
      ∧ ∀ k, k < BitOps.numberOfOneBits w x →
          (fun x => x &&& (x - 1))^[k] x ≠ 0 := by
    intro w hx
    refine ⟨?_, ?_, ?_⟩
    · unfold BitOps.bit_count
      rw [bit_count_loop_eq w _ x 0 rfl hx, Nat.zero_add]
    · obtain ⟨h1, h2⟩ := bit_count_rounds w _ x hx (Nat.le_refl _)
      exact numberOfOneBits_eq_zero w _ h1 (by omega)
    · intro k hk h0
      obtain ⟨_, h2⟩ := bit_count_rounds w k x hx (Nat.le_of_lt hk)
      rw [h0, numberOfOneBits_zero] at h2
      omega
  refine ⟨fun hx => ?_, fun hx => ?_⟩
  · obtain ⟨l1, l2, l3⟩ := loop 32 hx
    have h := bit_count_uint32_eq x hx
    exact ⟨h, l1, h.trans l1.symm, l2, l3⟩
  · obtain ⟨l1, l2, l3⟩ := loop 64 hx
    have h := bit_count_uint64_eq x hx
    exact ⟨h, l1, h.trans l1.symm, l2, l3⟩

/-- Witness for C23: the value `0xF00000B5`, which has nine 1 bits, as a
32-bit and as a 64-bit value. -/
theorem bit_count_is_population_count_witness :
    (0xF00000B5 < 2 ^ 32 ∧ 0xF00000B5 < 2 ^ 64)
    ∧ BitOps.bit_count_uint32 0xF00000B5 = BitOps.numberOfOneBits 32 0xF00000B5
    ∧ BitOps.bit_count_uint64 0xF00000B5 = BitOps.bit_count 0xF00000B5
    ∧ BitOps.bit_count_uint32 0xF00000B5 = 9
    ∧ BitOps.numberOfOneBits 32 0xF00000B5 = 9 :=
  ⟨by decide,
   ((bit_count_is_population_count 0xF00000B5).1 (by decide)).1,
   ((bit_count_is_population_count 0xF00000B5).2 (by decide)).2.2.1,
   by decide, by decide⟩

theorem repeat_mask_eq (B : Nat) (hB : B < 32) :
    ((1 <<< B) % 2 ^ 32 + 2 ^ 32 - 1) % 2 ^ 32 = 2 ^ B - 1 := by
  have h1 : (1 : Nat) <<< B = 2 ^ B := by simp [Nat.shiftLeft_eq]
  have h2 : 2 ^ B < 2 ^ 32 := Nat.pow_lt_pow_right (by decide) hB
  have h3 : 0 < 2 ^ B := Nat.pow_pos (by decide)
  rw [h1, Nat.mod_eq_of_lt h2]
  have : 2 ^ B + 2 ^ 32 - 1 = (2 ^ B - 1) + 2 ^ 32 := by omega
  rw [this, Nat.add_mod_right, Nat.mod_eq_of_lt (by omega)]

/-- The bits of the value after `k` rounds of the loop of `repeat_value`,
as long as `k + 1` fields fit into the `W` digits. -/
theorem repeat_loop_testBit (W B v : Nat) (hB : 0 < B) (hv : v < 2 ^ B) :
    ∀ k, (k + 1) * B ≤ W → ∀ t,
      ((fun fillval => (fillval ||| (fillval <<< B)) % 2 ^ W)^[k] v).testBit t
        = (decide (t < (k + 1) * B) && v.testBit (t % B)) := by
  intro k
  induction k with
  | zero =>
    intro _ t
    simp only [Function.iterate_zero, id_eq, Nat.zero_add, Nat.one_mul]
    by_cases ht : t < B
    · simp [ht, Nat.mod_eq_of_lt ht]
    · have : v < 2 ^ t :=
        lt_of_lt_of_le hv (Nat.pow_le_pow_right (by decide) (by omega))
      simp [ht, Nat.testBit_lt_two_pow this]
  | succ k ih =>
    intro hk t
    have hk' : (k + 1) * B ≤ W := by
      have : (k + 1) * B ≤ (k + 1 + 1) * B :=
        Nat.mul_le_mul_right _ (by omega)
      omega
    rw [Function.iterate_succ_apply', Nat.testBit_mod_two_pow, Nat.testBit_or,
      Nat.testBit_shiftLeft, ih hk', ih hk']
    have e : (k + 1 + 1) * B = (k + 1) * B + B := by ring
    by_cases hb : B ≤ t
    · have hm : (t - B) % B = t % B := by
        conv_rhs => rw [← Nat.sub_add_cancel hb, Nat.add_mod_right]
      rw [hm]
      by_cases h1 : t < (k + 1 + 1) * B
      · have h2 : t - B < (k + 1) * B := by omega
        have h3 : t < W := by omega
        simp [h1, h2, h3, hb]
      · have h2 : ¬ t - B < (k + 1) * B := by omega
        have h3 : ¬ t < (k + 1) * B := by omega
        simp [h1, h2, h3]
    · have h1 : t < (k + 1) * B := by
        have : B ≤ (k + 1) * B := Nat.le_mul_of_pos_left _ (by omega)
        omega
      have h2 : t < (k + 1 + 1) * B := by omega
      have h3 : t < W := by omega
      simp [h1, h2, h3, hb]

/-- C24: for an output type of `W` digits, a bit width `B` with
`1 ≤ B < 32` and `B ≤ W`, and every value `val`, each of
the `W / B` fields of `B` bits of `repeat_value` (the field at bit offset
`i * B`, for `i < W / B`) holds `min val (2^B - 1)`. -/
theorem repeat_value_fields (W B val i : Nat) (hB1 : 1 ≤ B) (hB32 : B < 32)
    (hBW : B ≤ W) (hi : i < W / B) :
    (BitOps.repeat_value W B val >>> (i * B)) % 2 ^ B = min val (2 ^ B - 1) := by
  have hpos : 0 < 2 ^ B := Nat.pow_pos (by decide)
  have hv : min val (2 ^ B - 1) < 2 ^ B := by
    have : min val (2 ^ B - 1) ≤ 2 ^ B - 1 := Nat.min_le_right _ _
    omega
  have hfill : (if val ≥ 2 ^ B - 1 then 2 ^ B - 1 else val) % 2 ^ W
      = min val (2 ^ B - 1) := by
    have hle : 2 ^ B ≤ 2 ^ W := Nat.pow_le_pow_right (by decide) hBW
    by_cases h : val ≥ 2 ^ B - 1
    · rw [if_pos h, Nat.min_eq_right h, Nat.mod_eq_of_lt (by omega)]
    · rw [if_neg h, Nat.min_eq_left (by omega), Nat.mod_eq_of_lt (by omega)]
  have hn : (W / B - 1 + 1) * B ≤ W := by
    have h1 : 1 ≤ W / B := by omega
    rw [Nat.sub_add_cancel h1]
    exact Nat.div_mul_le_self W B
  unfold BitOps.repeat_value
  simp only [repeat_mask_eq B hB32, hfill]
  apply Nat.eq_of_testBit_eq
  intro t
  rw [Nat.testBit_mod_two_pow, Nat.testBit_shiftRight,
    repeat_loop_testBit W B _ hB1 hv _ hn]
  by_cases ht : t < B
  · have h1 : i * B + t < (W / B - 1 + 1) * B := by
      have h1 : 1 ≤ W / B := by omega
      rw [Nat.sub_add_cancel h1]
      have : (i + 1) * B ≤ W / B * B := Nat.mul_le_mul_right _ hi
      have e : (i + 1) * B = i * B + B := by ring
      omega
    have h2 : (i * B + t) % B = t := by
      rw [Nat.add_comm, Nat.add_mul_mod_self_right, Nat.mod_eq_of_lt ht]
    simp [ht, h1, h2]
  · have : min val (2 ^ B - 1) < 2 ^ t :=
      lt_of_lt_of_le hv (Nat.pow_le_pow_right (by decide) (by omega))
    simp [ht, Nat.testBit_lt_two_pow this]

/-- Witness for C24: the value 5 repeated in fields of 3 bits of a 16-bit
output; field 4 holds 5. -/
theorem repeat_value_fields_witness :
    (1 ≤ 3 ∧ 3 < 32 ∧ 3 ≤ 16 ∧ 4 < 16 / 3)
    ∧ (BitOps.repeat_value 16 3 5 >>> (4 * 3)) % 2 ^ 3 = min 5 (2 ^ 3 - 1) :=
  ⟨by decide,
   repeat_value_fields 16 3 5 4 (by decide) (by decide) (by decide)
     (by decide)⟩

/-! ## Theorems: point zone sets -/

theorem foldl_append_filter (c : label → Bool) (l : List label) :
    ∀ init : List label,
      l.foldl (fun acc p => if c p = true then acc ++ [p] else acc) init
        = init ++ l.filter c := by
  induction l with
  | nil => intro init; simp
  | cons a l ih =>
    intro init
    simp only [List.foldl_cons, List.filter_cons]
    rw [ih]
    by_cases h : c a = true
    · simp [h]
    · simp [h]

theorem HashSet_set_mem (l : List label) :
    ∀ (t : Finset label) (p : label),
      p ∈ HashSet.set t l ↔ p ∈ t ∨ p ∈ l := by
  unfold HashSet.set
  induction l with
  | nil => intro t p; simp
  | cons a l ih =>
    intro t p
    simp only [List.foldl_cons, ih, Finset.mem_insert, List.mem_cons]
    tauto

/-- What `updateSet` does for helpers that return a rearrangement of the
list: the addressing is rearranged and the hash set holds exactly its
entries. -/
theorem updateSet_rearranges (H : ListHelpers)
    (hperm : ∀ a, (H.inplaceReorder (H.sortedOrder a) a).Perm a)
    (s : pointZoneSet) :
    (pointZoneSet.updateSet H s).addressing_.Perm s.addressing_
    ∧ ∀ p, p ∈ (pointZoneSet.updateSet H s).set_
        ↔ p ∈ (pointZoneSet.updateSet H s).addressing_ := by
  refine ⟨hperm _, fun p => ?_⟩
  simp [pointZoneSet.updateSet, HashSet_set_mem]

/-- The set algebra of `subset`, `addSet` and `subtractSet`, for helpers that
return a rearrangement of the list: each leaves the addressing free of
duplicates and the hash set holding exactly the addressing, and the contents
are the intersection, the union and the difference of the two sets.  The
addressing ascends whenever the two helpers, one after the other, return an
ascending list. -/
theorem pointZoneSet_algebra (H : ListHelpers)
    (hperm : ∀ a, (H.inplaceReorder (H.sortedOrder a) a).Perm a)
    (s z : pointZoneSet) (hn1 : s.addressing_.Nodup)
    (hn2 : z.addressing_.Nodup)
    (hs1 : ∀ p, p ∈ s.set_ ↔ p ∈ s.addressing_)
    (hs2 : ∀ p, p ∈ z.set_ ↔ p ∈ z.addressing_) :
    ((pointZoneSet.subset H s z).addressing_.Nodup
      ∧ (∀ p, p ∈ (pointZoneSet.subset H s z).set_
          ↔ p ∈ (pointZoneSet.subset H s z).addressing_)
      ∧ (∀ p, p ∈ (pointZoneSet.subset H s z).addressing_
          ↔ p ∈ s.addressing_ ∧ p ∈ z.addressing_))
    ∧ ((pointZoneSet.addSet H s z).addressing_.Nodup
      ∧ (∀ p, p ∈ (pointZoneSet.addSet H s z).set_
          ↔ p ∈ (pointZoneSet.addSet H s z).addressing_)
      ∧ (∀ p, p ∈ (pointZoneSet.addSet H s z).addressing_
          ↔ p ∈ s.addressing_ ∨ p ∈ z.addressing_))
    ∧ ((pointZoneSet.subtractSet H s z).addressing_.Nodup
      ∧ (∀ p, p ∈ (pointZoneSet.subtractSet H s z).set_
          ↔ p ∈ (pointZoneSet.subtractSet H s z).addressing_)
      ∧ (∀ p, p ∈ (pointZoneSet.subtractSet H s z).addressing_
          ↔ p ∈ s.addressing_ ∧ p ∉ z.addressing_))
    ∧ ((∀ a, (H.inplaceReorder (H.sortedOrder a) a).Sorted (· ≤ ·)) →
      (pointZoneSet.subset H s z).addressing_.Sorted (· < ·)
      ∧ (pointZoneSet.addSet H s z).addressing_.Sorted (· < ·)
      ∧ (pointZoneSet.subtractSet H s z).addressing_.Sorted (· < ·)) := by
  have e1 : pointZoneSet.subset H s z
      = pointZoneSet.updateSet H
          { s with addressing_ := z.addressing_.filter s.found } := by
    unfold pointZoneSet.subset
    simp only [foldl_append_filter, List.nil_append]
  have e2 : pointZoneSet.addSet H s z
      = pointZoneSet.updateSet H
          { s with addressing_ :=
              s.addressing_ ++ z.addressing_.filter (fun p => !s.found p) } := by
    unfold pointZoneSet.addSet
    rw [foldl_append_filter (fun p => !s.found p)]
  have e3 : pointZoneSet.subtractSet H s z
      = pointZoneSet.updateSet H
          { s with addressing_ :=
              s.addressing_.filter (fun p => !z.found p) } := by
    unfold pointZoneSet.subtractSet
    rw [foldl_append_filter (fun p => !z.found p), List.nil_append]
  have hf1 : ∀ p, s.found p = true ↔ p ∈ s.addressing_ := by
    intro p; simp [pointZoneSet.found, hs1]
  have hf2 : ∀ p, z.found p = true ↔ p ∈ z.addressing_ := by
    intro p; simp [pointZoneSet.found, hs2]
  have n1 : (z.addressing_.filter s.found).Nodup := hn2.filter _
  have n2 : (s.addressing_
      ++ z.addressing_.filter (fun p => !s.found p)).Nodup := by
    refine List.Nodup.append hn1 (hn2.filter _) ?_
    intro p hp hq
    have := (List.mem_filter.mp hq).2
    simp [(hf1 p).mpr hp] at this
  have n3 : (s.addressing_.filter (fun p => !z.found p)).Nodup :=
    hn1.filter _
  obtain ⟨p1, q1⟩ := updateSet_rearranges H hperm
    { s with addressing_ := z.addressing_.filter s.found }
  obtain ⟨p2, q2⟩ := updateSet_rearranges H hperm
    { s with addressing_ :=
        s.addressing_ ++ z.addressing_.filter (fun p => !s.found p) }
  obtain ⟨p3, q3⟩ := updateSet_rearranges H hperm
    { s with addressing_ := s.addressing_.filter (fun p => !z.found p) }
  rw [← e1] at p1 q1
  rw [← e2] at p2 q2
  rw [← e3] at p3 q3
  have d1 := p1.nodup_iff.mpr n1
  have d2 := p2.nodup_iff.mpr n2
  have d3 := p3.nodup_iff.mpr n3
  refine ⟨⟨d1, q1, fun p => ?_⟩, ⟨d2, q2, fun p => ?_⟩,
    ⟨d3, q3, fun p => ?_⟩, fun hsorted => ⟨?_, ?_, ?_⟩⟩
  · rw [p1.mem_iff, List.mem_filter, hf1]
    tauto
  · rw [p2.mem_iff, List.mem_append, List.mem_filter]
    by_cases h : p ∈ s.addressing_
    · simp [h]
    · have : s.found p = false := by
        cases hfp : s.found p
        · rfl
        · exact absurd ((hf1 p).mp hfp) h
      simp [h, this]
  · rw [p3.mem_iff, List.mem_filter]
    have : (!z.found p) = true ↔ p ∉ z.addressing_ := by
      rw [← hf2]
      cases z.found p <;> simp
    rw [this]
  · rw [e1] at d1 ⊢
    exact (hsorted _).lt_of_le d1
  · rw [e2] at d2 ⊢
    exact (hsorted _).lt_of_le d2
  · rw [e3] at d3 ⊢
    exact (hsorted _).lt_of_le d3
theorem scatterTo_succ (order : List Nat) (input : List label) (m : Nat) :
    scatterTo order input (m + 1)
      = (scatterTo order input m).set (order.getD m 0) (input.getD m 0) := by
  unfold scatterTo
  rw [List.range_succ, List.foldl_append]
  rfl

theorem scatterTo_spec (order : List Nat) (input : List label)
    (hnodup : order.Nodup) (hlen : order.length = input.length)
    (hlt : ∀ k ∈ order, k < input.length) :
    ∀ m, m ≤ input.length →
      (scatterTo order input m).length = input.length
      ∧ ∀ i, i < m →
          (scatterTo order input m)[order.getD i 0]? = input[i]? := by
  intro m
  induction m with
  | zero =>
    intro _
    exact ⟨by simp [scatterTo], fun i hi => absurd hi (Nat.not_lt_zero i)⟩
  | succ m ih =>
    intro hm
    obtain ⟨h1, h2⟩ := ih (Nat.le_of_succ_le hm)
    have hmlt : m < order.length := by omega
    rw [scatterTo_succ]
    refine ⟨by simp [h1], fun i hi => ?_⟩
    have hom : order.getD m 0 = order[m] := by
      simp [List.getD_eq_getElem?_getD, List.getElem?_eq_getElem hmlt]
    rcases Nat.lt_succ_iff_lt_or_eq.mp hi with hi' | rfl
    · have hilt : i < order.length := by omega
      have hoi : order.getD i 0 = order[i] := by
        simp [List.getD_eq_getElem?_getD, List.getElem?_eq_getElem hilt]
      have hne : order.getD m 0 ≠ order.getD i 0 := by
        rw [hom, hoi]
        intro he
        have := (hnodup.getElem_inj_iff).mp he
        omega
      rw [List.getElem?_set_ne hne]
      exact h2 i hi'
    · have hk : order.getD i 0 < (scatterTo order input i).length := by
        rw [h1, hom]
        exact hlt _ (List.getElem_mem _)
      rw [List.getElem?_set_self hk]
      have hil : i < input.length := by omega
      simp [List.getD_eq_getElem?_getD, List.getElem?_eq_getElem hil]

theorem map_getD_range (out : List label) :
    (List.range out.length).map (fun k => out.getD k 0) = out := by
  apply List.ext_getElem?
  intro j
  rw [List.getElem?_map]
  by_cases hj : j < out.length
  · simp [List.getElem?_range hj, List.getElem?_eq_getElem hj]
  · have h1 : (List.range out.length)[j]? = none := by
      apply List.getElem?_eq_none
      simp
      omega
    have h2 : out[j]? = none := List.getElem?_eq_none (by omega)
    rw [h1, h2]
    rfl

/-- Writing entry `i` to position `order[i]`, for an `order` that lists each
position once, gives a rearrangement of the list. -/
theorem scatterTo_perm (order : List Nat) (input : List label)
    (hperm : order.Perm (List.range input.length)) :
    (scatterTo order input input.length).Perm input := by
  have hnodup : order.Nodup := hperm.nodup_iff.mpr (List.nodup_range _)
  have hlen : order.length = input.length := by
    rw [hperm.length_eq, List.length_range]
  have hlt : ∀ k ∈ order, k < input.length := by
    intro k hk
    exact List.mem_range.mp (hperm.mem_iff.mp hk)
  obtain ⟨h1, h2⟩ := scatterTo_spec order input hnodup hlen hlt
    input.length (Nat.le_refl _)
  have hmap : order.map (fun k => (scatterTo order input input.length).getD k 0)
      = input := by
    apply List.ext_getElem?
    intro i
    rw [List.getElem?_map]
    by_cases hi : i < input.length
    · have hilt : i < order.length := by omega
      have h3 := h2 i hi
      have hoi : order.getD i 0 = order[i] := by
        simp [List.getD_eq_getElem?_getD, List.getElem?_eq_getElem hilt]
      rw [hoi] at h3
      rw [List.getElem?_eq_getElem hilt, Option.map_some',
        List.getD_eq_getElem?_getD, h3, List.getElem?_eq_getElem hi]
      rfl
    · have e1 : order[i]? = none := List.getElem?_eq_none (by omega)
      have e2 : input[i]? = none := List.getElem?_eq_none (by omega)
      rw [e1, e2]
      rfl
  have hp := hperm.map (fun k => (scatterTo order input input.length).getD k 0)
  have hr := map_getD_range (scatterTo order input input.length)
  rw [h1] at hr
  rw [hmap, hr] at hp
  exact hp.symm

theorem inplaceReorder_eq_scatterTo (order : List Nat) (input : List label)
    (hlen : order.length = input.length) :
    inplaceReorder (order.map (fun (i : Nat) => (i : label))) input
      = scatterTo order input input.length := by
  unfold inplaceReorder scatterTo
  have key : ∀ (l : List Nat) (init : List label),
      (∀ i ∈ l, i < input.length) →
      l.foldl
        (fun output i =>
          let newIdx := (order.map (fun (i : Nat) => (i : label))).getD i (-1)
          if 0 ≤ newIdx then output.set newIdx.toNat (input.getD i 0)
          else output.set i (input.getD i 0)) init
      = l.foldl
        (fun output i => output.set (order.getD i 0) (input.getD i 0))
        init := by
    intro l
    induction l with
    | nil => intro init _; rfl
    | cons i l ih =>
      intro init hl
      have hi : i < order.length := by
        have := hl i (List.mem_cons_self _ _)
        omega
      simp only [List.foldl_cons]
      rw [← ih _ (fun j hj => hl j (List.mem_cons_of_mem _ hj))]
      have e1 : (order.map (fun (i : Nat) => (i : label))).getD i (-1)
          = (order[i] : label) := by
        simp [List.getD_eq_getElem?_getD, List.getElem?_eq_getElem hi]
      have e2 : order.getD i 0 = order[i] := by
        simp [List.getD_eq_getElem?_getD, List.getElem?_eq_getElem hi]
      simp only [e1, e2, Int.natCast_nonneg, if_true, Int.toNat_ofNat]
  exact key _ _ (fun i hi => List.mem_range.mp hi)

/-- The two helpers as modelled return a rearrangement of the list. -/
theorem listOps_rearranges (a : List label) :
    (listOps.inplaceReorder (listOps.sortedOrder a) a).Perm a := by
  show (inplaceReorder (sortedOrder a) a).Perm a
  unfold sortedOrder
  rw [inplaceReorder_eq_scatterTo _ _ (by
    rw [(List.perm_insertionSort _ _).length_eq, List.length_range])]
  exact scatterTo_perm _ _ (List.perm_insertionSort _ _)
/-- Had the rearrangement gathered (`result[i] = input[order[i]]`), the two
helpers would return the ascending rearrangement of every list. -/
theorem gatherOps_sorts (a : List label) :
    (gatherOps.inplaceReorder (gatherOps.sortedOrder a) a).Sorted (· ≤ ·)
    ∧ (gatherOps.inplaceReorder (gatherOps.sortedOrder a) a).Perm a := by
  show (gatherReorder (sortedOrder a) a).Sorted (· ≤ ·)
    ∧ (gatherReorder (sortedOrder a) a).Perm a
  have e : gatherReorder (sortedOrder a) a
      = ((List.range a.length).insertionSort
          (fun i j => a.getD i 0 ≤ a.getD j 0)).map (fun k => a.getD k 0) := by
    unfold gatherReorder sortedOrder
    rw [List.map_map]
    rfl
  rw [e]
  haveI : IsTotal Nat (fun i j => a.getD i 0 ≤ a.getD j 0) :=
    ⟨fun i j => le_total _ _⟩
  haveI : IsTrans Nat (fun i j => a.getD i 0 ≤ a.getD j 0) :=
    ⟨fun i j k h1 h2 => le_trans h1 h2⟩
  refine ⟨?_, ?_⟩
  · have hs := List.sorted_insertionSort
      (fun i j => a.getD i 0 ≤ a.getD j 0) (List.range a.length)
    exact List.pairwise_map.mpr hs
  · have hp := (List.perm_insertionSort
      (fun i j => a.getD i 0 ≤ a.getD j 0) (List.range a.length)).map
      (fun k => a.getD k 0)
    rw [map_getD_range] at hp
    exact hp

/-- C30 fails on the code in the ordering: adding the set `(1 2)` to the set
`(3)`, both duplicate-free, ascending and with matching hash sets, builds the
addressing `(3 1 2)`, whose sort order is `(1 2 0)`; `inplaceReorder` moves
entry `i` to position `order[i]` and leaves the addressing `(2 3 1)`, which
does not ascend.  The hash set holds exactly 1, 2 and 3, the union. -/
theorem addSet_leaves_addressing_unsorted :
    (pointZoneSet.ofList [3]).addressing_.Nodup
    ∧ (pointZoneSet.ofList [1, 2]).addressing_.Nodup
    ∧ (∀ p, p ∈ (pointZoneSet.ofList [3]).set_
        ↔ p ∈ (pointZoneSet.ofList [3]).addressing_)
    ∧ (∀ p, p ∈ (pointZoneSet.ofList [1, 2]).set_
        ↔ p ∈ (pointZoneSet.ofList [1, 2]).addressing_)
    ∧ sortedOrder [3, 1, 2] = [1, 2, 0]
    ∧ inplaceReorder [1, 2, 0] [3, 1, 2] = [2, 3, 1]
    ∧ (pointZoneSet.addSet listOps (pointZoneSet.ofList [3])
        (pointZoneSet.ofList [1, 2])).addressing_ = [2, 3, 1]
    ∧ ¬ (pointZoneSet.addSet listOps (pointZoneSet.ofList [3])
        (pointZoneSet.ofList [1, 2])).addressing_.Sorted (· < ·)
    ∧ (pointZoneSet.addSet listOps (pointZoneSet.ofList [3])
        (pointZoneSet.ofList [1, 2])).set_ = {1, 2, 3} := by
  have h : (pointZoneSet.addSet listOps (pointZoneSet.ofList [3])
      (pointZoneSet.ofList [1, 2])).addressing_ = [2, 3, 1] := by decide
  refine ⟨by decide, by decide, ?_, ?_, by decide, by decide, h, ?_,
    by decide⟩
  · intro p
    simp [pointZoneSet.ofList, HashSet_set_mem]
  · intro p
    simp [pointZoneSet.ofList, HashSet_set_mem]
  · rw [h]
    decide

end Foam
